import Mathlib

/-!
Shallow embedding of the clipbox streaming core of a LOD voxel terrain engine
(`voxel_lod_terrain_update_clipbox_streaming.cpp`) and of the GPU detail
normal-map task (`generate_distance_normalmap_gpu_task.cpp`), together with
theorems settling the specification claims about them.

Integer 3D vectors and boxes model `Vector3i` / `Box3i`.  The `Box3i` utility
itself is not part of the provided sources (only its callers are), so its
operations are modelled from the specification: clip is intersection clamped to
non-negative size, `downscaled` rounds bounds outwards, `difference` is the
canonical up-to-six-box 3D set difference, `for_each_cell` enumerates cells.
-/

/-- Integer 3D vector, modelling `Vector3i`. -/
structure V3 where
  x : Int
  y : Int
  z : Int
deriving DecidableEq, Repr

/-- Componentwise addition. -/
def V3.add (a b : V3) : V3 := ⟨a.x + b.x, a.y + b.y, a.z + b.z⟩

/-- Componentwise subtraction. -/
def V3.sub (a b : V3) : V3 := ⟨a.x - b.x, a.y - b.y, a.z - b.z⟩

instance : Add V3 := ⟨V3.add⟩
instance : Sub V3 := ⟨V3.sub⟩

/-- Vector with all three components equal, modelling `Vector3iUtil::create`. -/
def V3.splat (k : Int) : V3 := ⟨k, k, k⟩

/-- Multiplication of every component by a scalar. -/
def V3.scale (a : V3) (k : Int) : V3 := ⟨a.x * k, a.y * k, a.z * k⟩

/-- Modelled from the spec: `math::floordiv` on scalars is mathematical floor
division (the divisor is positive in every use). -/
def floordiv (a b : Int) : Int := Int.fdiv a b

/-- Modelled from the spec: `math::ceildiv x d = -floordiv (-x) d`. -/
def ceildiv (a b : Int) : Int := -(Int.fdiv (-a) b)

/-- Componentwise floor division by a scalar, modelling `math::floordiv` on
`Vector3i`. -/
def V3.fdivS (a : V3) (k : Int) : V3 := ⟨floordiv a.x k, floordiv a.y k, floordiv a.z k⟩

/-- Componentwise ceiling division by a scalar, modelling `math::ceildiv` on
`Vector3i`. -/
def V3.cdivS (a : V3) (k : Int) : V3 := ⟨ceildiv a.x k, ceildiv a.y k, ceildiv a.z k⟩

/-- Arithmetic right shift of every component (`v >> n` in C++, floor division
by a power of two). -/
def V3.shr (a : V3) (n : Nat) : V3 := a.fdivS (2 ^ n)

/-- Left shift of every component (`v << n`). -/
def V3.shl (a : V3) (n : Nat) : V3 := a.scale (2 ^ n)

/-- Componentwise minimum. -/
def V3.minv (a b : V3) : V3 := ⟨min a.x b.x, min a.y b.y, min a.z b.z⟩

/-- Componentwise maximum. -/
def V3.maxv (a b : V3) : V3 := ⟨max a.x b.x, max a.y b.y, max a.z b.z⟩

/-- Componentwise clamp (`math::clamp v lo hi = min (max v lo) hi`). -/
def V3.clampv (v lo hi : V3) : V3 := (v.maxv lo).minv hi

/-- Integer axis-aligned box in chunk coordinates, modelling `Box3i`
(origin `pos` and extent `size`, exclusive upper bound `pos + size`). -/
structure Box3i where
  pos : V3
  size : V3
deriving DecidableEq, Repr

/-- Default-constructed `Box3i()`: zero position and zero size. -/
def Box3i.default : Box3i := ⟨⟨0, 0, 0⟩, ⟨0, 0, 0⟩⟩

/-- Exclusive upper corner of a box. -/
def Box3i.endp (b : Box3i) : V3 := b.pos + b.size

/-- Modelled from the spec: `Box3i::from_min_max` builds the box from its two
corners. -/
def Box3i.from_min_max (minp maxp : V3) : Box3i := ⟨minp, maxp - minp⟩

/-- Membership of a point, modelling `Box3i::contains(Vector3i)`. -/
def Box3i.contains_point (b : Box3i) (p : V3) : Bool :=
  b.pos.x ≤ p.x && p.x < b.pos.x + b.size.x &&
  (b.pos.y ≤ p.y && p.y < b.pos.y + b.size.y) &&
  (b.pos.z ≤ p.z && p.z < b.pos.z + b.size.z)

/-- Box containment, modelling `Box3i::contains(Box3i)`: lower corner at most
the other lower corner and upper corner at least the other upper corner. -/
def Box3i.contains_box (b other : Box3i) : Bool :=
  b.pos.x ≤ other.pos.x && b.pos.y ≤ other.pos.y && b.pos.z ≤ other.pos.z &&
  other.pos.x + other.size.x ≤ b.pos.x + b.size.x &&
  other.pos.y + other.size.y ≤ b.pos.y + b.size.y &&
  other.pos.z + other.size.z ≤ b.pos.z + b.size.z

/-- Overlap test, modelling `Box3i::intersects`. -/
def Box3i.intersects (a b : Box3i) : Bool :=
  a.pos.x < b.pos.x + b.size.x && b.pos.x < a.pos.x + a.size.x &&
  (a.pos.y < b.pos.y + b.size.y && b.pos.y < a.pos.y + a.size.y) &&
  (a.pos.z < b.pos.z + b.size.z && b.pos.z < a.pos.z + a.size.z)

/-- Modelled from the spec: clip to bounds is intersection with the limit box,
with both corners clamped into the limit so no negative-size box is emitted. -/
def Box3i.clipped (b lim : Box3i) : Box3i :=
  let limEnd := lim.pos + lim.size
  let p := V3.clampv b.pos lim.pos limEnd
  let e := V3.clampv (b.pos + b.size) p limEnd
  ⟨p, e - p⟩

/-- Outward padding by `m` on every side, modelling `Box3i::padded`
(negative `m` pads inwards). -/
def Box3i.padded (b : Box3i) (m : Int) : Box3i :=
  ⟨b.pos - V3.splat m, b.size + V3.splat (2 * m)⟩

/-- Modelled from the spec: `Box3i::downscaled` divides bounds rounding
outwards (floor the lower corner, ceil the upper corner). -/
def Box3i.downscaled (b : Box3i) (d : Int) : Box3i :=
  Box3i.from_min_max (b.pos.fdivS d) ((b.pos + b.size).cdivS d)

/-- Modelled from the spec: `Box3i::downscaled_inner` divides bounds rounding
inwards (ceil the lower corner, floor the upper corner). -/
def Box3i.downscaled_inner (b : Box3i) (d : Int) : Box3i :=
  Box3i.from_min_max (b.pos.cdivS d) ((b.pos + b.size).fdivS d)

/-- Scaling of both corners by a factor, modelling `Box3i::scaled`. -/
def Box3i.scaled (b : Box3i) (d : Int) : Box3i := ⟨b.pos.scale d, b.size.scale d⟩

/-- Union hull, modelling `Box3i::merge_with`. -/
def Box3i.merge_with (b other : Box3i) : Box3i :=
  let minp := b.pos.minv other.pos
  let maxp := (b.pos + b.size).maxv (other.pos + other.size)
  ⟨minp, maxp - minp⟩

/-- Modelled from the spec: cell enumeration of a box (`for_each_cell`);
iteration order is immaterial to every use here. -/
def Box3i.cells (b : Box3i) : List V3 :=
  (List.range b.size.x.toNat).flatMap fun (ix : Nat) =>
    (List.range b.size.y.toNat).flatMap fun (iy : Nat) =>
      (List.range b.size.z.toNat).map fun (iz : Nat) =>
        V3.mk (b.pos.x + (ix : Int)) (b.pos.y + (iy : Int)) (b.pos.z + (iz : Int))

/-- A vector is even when every component is. -/
def V3.evenv (v : V3) : Prop := 2 ∣ v.x ∧ 2 ∣ v.y ∧ 2 ∣ v.z

/-- A box is even when both its position and its size are. -/
def Box3i.evenb (b : Box3i) : Prop := b.pos.evenv ∧ b.size.evenv

instance (v : V3) : Decidable v.evenv := by unfold V3.evenv; infer_instance

instance (b : Box3i) : Decidable b.evenb := by unfold Box3i.evenb; infer_instance

/-- Base clipbox construction (`get_base_box_in_chunks`): floor/ceil the viewer
sphere bounds to chunk coordinates, optionally rounding outwards to even
coordinates. -/
def get_base_box_in_chunks (viewer_position_voxels : V3) (distance_voxels chunk_size : Int)
    (make_even : Bool) : Box3i :=
  let minp0 := viewer_position_voxels - V3.splat distance_voxels
  let maxp0 := viewer_position_voxels + V3.splat (distance_voxels + 1)
  let minp1 := minp0.fdivS chunk_size
  let maxp1 := maxp0.cdivS chunk_size
  let minp := if make_even then (minp1.fdivS 2).scale 2 else minp1
  let maxp := if make_even then (maxp1.cdivS 2).scale 2 else maxp1
  Box3i.from_min_max minp maxp

@[simp] theorem V3.add_x (a b : V3) : (a + b).x = a.x + b.x := rfl

@[simp] theorem V3.add_y (a b : V3) : (a + b).y = a.y + b.y := rfl

@[simp] theorem V3.add_z (a b : V3) : (a + b).z = a.z + b.z := rfl

@[simp] theorem V3.sub_x (a b : V3) : (a - b).x = a.x - b.x := rfl

@[simp] theorem V3.sub_y (a b : V3) : (a - b).y = a.y - b.y := rfl

@[simp] theorem V3.sub_z (a b : V3) : (a - b).z = a.z - b.z := rfl

theorem V3.eq_iff (a b : V3) : a = b ↔ a.x = b.x ∧ a.y = b.y ∧ a.z = b.z := by
  cases a
  cases b
  simp [V3.mk.injEq]

theorem V3.add_sub_cancel_v (a b : V3) : a + (b - a) = b := by
  rw [V3.eq_iff]
  refine ⟨by simp, by simp, by simp⟩

theorem V3.evenv_of_fdiv_scale (v : V3) : ((v.fdivS 2).scale 2).evenv :=
  ⟨dvd_mul_left 2 _, dvd_mul_left 2 _, dvd_mul_left 2 _⟩

theorem V3.evenv_of_cdiv_scale (v : V3) : ((v.cdivS 2).scale 2).evenv :=
  ⟨dvd_mul_left 2 _, dvd_mul_left 2 _, dvd_mul_left 2 _⟩

theorem V3.evenv_sub {a b : V3} (ha : a.evenv) (hb : b.evenv) : (a - b).evenv := by
  obtain ⟨ha1, ha2, ha3⟩ := ha
  obtain ⟨hb1, hb2, hb3⟩ := hb
  exact ⟨dvd_sub ha1 hb1, dvd_sub ha2 hb2, dvd_sub ha3 hb3⟩

@[simp] theorem V3.splat_x (k : Int) : (V3.splat k).x = k := rfl

@[simp] theorem V3.splat_y (k : Int) : (V3.splat k).y = k := rfl

@[simp] theorem V3.splat_z (k : Int) : (V3.splat k).z = k := rfl

@[simp] theorem V3.scale_x (a : V3) (k : Int) : (a.scale k).x = a.x * k := rfl

@[simp] theorem V3.scale_y (a : V3) (k : Int) : (a.scale k).y = a.y * k := rfl

@[simp] theorem V3.scale_z (a : V3) (k : Int) : (a.scale k).z = a.z * k := rfl

@[simp] theorem V3.minv_x (a b : V3) : (a.minv b).x = min a.x b.x := rfl

@[simp] theorem V3.minv_y (a b : V3) : (a.minv b).y = min a.y b.y := rfl

@[simp] theorem V3.minv_z (a b : V3) : (a.minv b).z = min a.z b.z := rfl

@[simp] theorem V3.maxv_x (a b : V3) : (a.maxv b).x = max a.x b.x := rfl

@[simp] theorem V3.maxv_y (a b : V3) : (a.maxv b).y = max a.y b.y := rfl

@[simp] theorem V3.maxv_z (a b : V3) : (a.maxv b).z = max a.z b.z := rfl

@[simp] theorem V3.clampv_x (v lo hi : V3) : (V3.clampv v lo hi).x = min (max v.x lo.x) hi.x := rfl

@[simp] theorem V3.clampv_y (v lo hi : V3) : (V3.clampv v lo hi).y = min (max v.y lo.y) hi.y := rfl

@[simp] theorem V3.clampv_z (v lo hi : V3) : (V3.clampv v lo hi).z = min (max v.z lo.z) hi.z := rfl

@[simp] theorem V3.fdivS_x (a : V3) (k : Int) : (a.fdivS k).x = floordiv a.x k := rfl

@[simp] theorem V3.fdivS_y (a : V3) (k : Int) : (a.fdivS k).y = floordiv a.y k := rfl

@[simp] theorem V3.fdivS_z (a : V3) (k : Int) : (a.fdivS k).z = floordiv a.z k := rfl

@[simp] theorem V3.cdivS_x (a : V3) (k : Int) : (a.cdivS k).x = ceildiv a.x k := rfl

@[simp] theorem V3.cdivS_y (a : V3) (k : Int) : (a.cdivS k).y = ceildiv a.y k := rfl

@[simp] theorem V3.cdivS_z (a : V3) (k : Int) : (a.cdivS k).z = ceildiv a.z k := rfl

/-- C2.  The base box returned by `get_base_box_in_chunks` has lower corner
`floordiv (center - d) c` and exclusive upper corner `ceildiv (center + d + 1) c`;
with `make_even` set, the lower corner is further rounded down and the upper
corner up to multiples of 2, and the resulting box has even position and even
size on every axis. -/
theorem claim_C2_base_box (center : V3) (d c : Int) (make_even : Bool) (hc : 0 < c) :
    (make_even = false →
      (get_base_box_in_chunks center d c make_even).pos = (center - V3.splat d).fdivS c ∧
      (get_base_box_in_chunks center d c make_even).pos +
          (get_base_box_in_chunks center d c make_even).size =
        (center + V3.splat (d + 1)).cdivS c) ∧
    (make_even = true →
      (get_base_box_in_chunks center d c make_even).pos =
        (((center - V3.splat d).fdivS c).fdivS 2).scale 2 ∧
      (get_base_box_in_chunks center d c make_even).pos +
          (get_base_box_in_chunks center d c make_even).size =
        (((center + V3.splat (d + 1)).cdivS c).cdivS 2).scale 2 ∧
      (get_base_box_in_chunks center d c make_even).evenb) := by
  clear hc
  cases make_even with
  | false =>
    constructor
    · intro _
      exact ⟨rfl, V3.add_sub_cancel_v _ _⟩
    · intro h
      cases h
  | true =>
    constructor
    · intro h
      cases h
    · intro _
      refine ⟨rfl, V3.add_sub_cancel_v _ _, ?_⟩
      show V3.evenv _ ∧ V3.evenv _
      exact ⟨V3.evenv_of_fdiv_scale _,
        V3.evenv_sub (V3.evenv_of_cdiv_scale _) (V3.evenv_of_fdiv_scale _)⟩

/-- Witness for C2 at a concrete input. -/
theorem claim_C2_base_box_witness :
    (0 : Int) < 16 ∧
    ((true = false →
      (get_base_box_in_chunks ⟨5, -3, 7⟩ 32 16 true).pos =
        ((⟨5, -3, 7⟩ : V3) - V3.splat 32).fdivS 16 ∧
      (get_base_box_in_chunks ⟨5, -3, 7⟩ 32 16 true).pos +
          (get_base_box_in_chunks ⟨5, -3, 7⟩ 32 16 true).size =
        ((⟨5, -3, 7⟩ : V3) + V3.splat (32 + 1)).cdivS 16) ∧
    (true = true →
      (get_base_box_in_chunks ⟨5, -3, 7⟩ 32 16 true).pos =
        ((((⟨5, -3, 7⟩ : V3) - V3.splat 32).fdivS 16).fdivS 2).scale 2 ∧
      (get_base_box_in_chunks ⟨5, -3, 7⟩ 32 16 true).pos +
          (get_base_box_in_chunks ⟨5, -3, 7⟩ 32 16 true).size =
        ((((⟨5, -3, 7⟩ : V3) + V3.splat (32 + 1)).cdivS 16).cdivS 2).scale 2 ∧
      (get_base_box_in_chunks ⟨5, -3, 7⟩ 32 16 true).evenb)) :=
  ⟨by decide, claim_C2_base_box ⟨5, -3, 7⟩ 32 16 true (by decide)⟩

/-- Static inputs of the clipbox planner for one update: block size exponents,
LOD count, the integer ceiling of the `lod_distance` setting, the view distance
cap in voxels and the volume bounds.  The volume transform is the identity
(uniform scale 1), so viewer positions are already local. -/
structure PlanCfg where
  mesh_block_size_po2 : Nat
  data_block_size_po2 : Nat
  lod_count : Nat
  lod_distance_ceil : Int
  view_distance_voxels_cap : Int
  volume_bounds_in_voxels : Box3i
deriving DecidableEq, Repr

/-- Mesh block size in voxels (`1 << mesh_block_size_po2`). -/
def PlanCfg.mesh_block_size (cfg : PlanCfg) : Int := 2 ^ cfg.mesh_block_size_po2

/-- Data block size in voxels (`1 << data_block_size_po2`). -/
def PlanCfg.data_block_size (cfg : PlanCfg) : Int := 2 ^ cfg.data_block_size_po2

/-- Ratio `mesh_block_size / data_block_size` (C++ truncating division). -/
def PlanCfg.mesh_to_data_factor (cfg : PlanCfg) : Int :=
  Int.tdiv cfg.mesh_block_size cfg.data_block_size

/-- `get_lod_distance_in_mesh_chunks`: `lod_distance_ceil` is the integer
ceiling of the floating-point `lod_distance` setting; the division is C++
truncating division. -/
def get_lod_distance_in_mesh_chunks (lod_distance_ceil mesh_block_size : Int) : Int :=
  max (Int.tdiv lod_distance_ceil mesh_block_size) 1

/-- The per-volume LOD distance in mesh chunks. -/
def PlanCfg.lod_distance_in_mesh_chunks (cfg : PlanCfg) : Int :=
  get_lod_distance_in_mesh_chunks cfg.lod_distance_ceil cfg.mesh_block_size

/-- The per-volume LOD distance in data chunks. -/
def PlanCfg.lod_distance_in_data_chunks (cfg : PlanCfg) : Int :=
  cfg.lod_distance_in_mesh_chunks * cfg.mesh_to_data_factor

/-- View distance clamped by the volume setting (`view_distance_scale` is 1
under the identity transform). -/
def PlanCfg.clamped_view_distance (cfg : PlanCfg) (view_distance : Int) : Int :=
  min view_distance cfg.view_distance_voxels_cap

/-- Mesh block size of the last (root) LOD: `mesh_block_size << (lod_count - 1)`. -/
def PlanCfg.last_lod_mesh_block_size (cfg : PlanCfg) : Int :=
  2 ^ (cfg.mesh_block_size_po2 + (cfg.lod_count - 1))

/-- Distance used for the root LOD so it extends at least to the view distance. -/
def PlanCfg.last_lod_distance_in_mesh_chunks (cfg : PlanCfg) (view_distance : Int) : Int :=
  max (ceildiv (cfg.clamped_view_distance view_distance) cfg.last_lod_mesh_block_size)
    cfg.lod_distance_in_mesh_chunks

/-- Root-LOD distance in data chunks, as computed by the source
(`last_lod_mesh_block_size * mesh_to_data_factor`). -/
def PlanCfg.last_lod_distance_in_data_chunks (cfg : PlanCfg) : Int :=
  cfg.last_lod_mesh_block_size * cfg.mesh_to_data_factor

/-- Volume bounds converted to mesh chunks of a LOD (`downscaled`, rounding
outwards). -/
def PlanCfg.volume_bounds_in_mesh_blocks (cfg : PlanCfg) (lod_index : Nat) : Box3i :=
  cfg.volume_bounds_in_voxels.downscaled (2 ^ (cfg.mesh_block_size_po2 + lod_index))

/-- Volume bounds converted to data chunks of a LOD (right shifts of position
and size, as in the source). -/
def PlanCfg.volume_bounds_in_data_blocks (cfg : PlanCfg) (lod_index : Nat) : Box3i :=
  ⟨cfg.volume_bounds_in_voxels.pos.shr (cfg.data_block_size_po2 + lod_index),
    cfg.volume_bounds_in_voxels.size.shr (cfg.data_block_size_po2 + lod_index)⟩

/-- Body of the per-LOD mesh box loop of `process_viewers`: base box, merge
with the neighboring-rule minimum box derived from the child LOD's box, then
clip to the volume bounds.  `child_box` is `none` exactly at LOD 0. -/
def mesh_box_step (cfg : PlanCfg) (pos : V3) (vd : Int) (lod_index : Nat)
    (child_box : Option Box3i) : Box3i :=
  let lod_mesh_block_size : Int := 2 ^ (cfg.mesh_block_size_po2 + lod_index)
  let ld : Int :=
    if lod_index = cfg.lod_count - 1 then cfg.last_lod_distance_in_mesh_chunks vd
    else cfg.lod_distance_in_mesh_chunks
  let base := get_base_box_in_chunks pos (ld * lod_mesh_block_size) lod_mesh_block_size
    (decide (lod_index ≠ cfg.lod_count - 1))
  let merged :=
    match child_box with
    | none => base
    | some cb =>
      let min_box := (Box3i.mk (cb.pos.shr 1) (cb.size.shr 1)).padded 2
      let min_box :=
        if lod_index ≠ cfg.lod_count - 1 then (min_box.downscaled 2).scaled 2 else min_box
      base.merge_with min_box
  merged.clipped (cfg.volume_bounds_in_mesh_blocks lod_index)

/-- Mesh boxes per LOD for one paired viewer requiring meshes, by the LOD 0 to
`lod_count - 1` recurrence of `process_viewers`. -/
def mesh_box_per_lod (cfg : PlanCfg) (pos : V3) (vd : Int) : Nat → Box3i
  | 0 => mesh_box_step cfg pos vd 0 none
  | n + 1 => mesh_box_step cfg pos vd (n + 1) (some (mesh_box_per_lod cfg pos vd n))

/-- Derivation of a data box from the mesh box of the same LOD: scale by the
mesh-to-data factor, pad by 1 for meshing neighbors, clip to volume bounds. -/
def data_box_from_mesh_box (cfg : PlanCfg) (mesh_box : Box3i) (lod_index : Nat) : Box3i :=
  ((mesh_box.scaled cfg.mesh_to_data_factor).padded 1).clipped
    (cfg.volume_bounds_in_data_blocks lod_index)

/-- Data boxes per LOD for a paired viewer requiring meshes. -/
def data_box_per_lod (cfg : PlanCfg) (pos : V3) (vd : Int) (lod_index : Nat) : Box3i :=
  data_box_from_mesh_box cfg (mesh_box_per_lod cfg pos vd lod_index) lod_index

/-- Data boxes per LOD for a paired viewer requiring no meshes (built directly
from the base box construction). -/
def data_box_per_lod_nomesh (cfg : PlanCfg) (lod_index : Nat) (pos : V3) : Box3i :=
  let lod_data_block_size : Int := 2 ^ (cfg.data_block_size_po2 + lod_index)
  let ld : Int :=
    if lod_index = cfg.lod_count - 1 then cfg.lod_distance_in_data_chunks
    else cfg.last_lod_distance_in_data_chunks
  (get_base_box_in_chunks pos (ld * lod_data_block_size) lod_data_block_size
      (decide (lod_index ≠ cfg.lod_count - 1))).clipped
    (cfg.volume_bounds_in_data_blocks lod_index)

theorem Box3i.contains_clipped_of_contains {b lim : Box3i}
    (h : lim.contains_box b = true) : (b.clipped lim).contains_box b = true := by
  simp only [Box3i.contains_box, Box3i.clipped, Bool.and_eq_true, decide_eq_true_eq] at h ⊢
  obtain ⟨⟨⟨⟨⟨h1, h2⟩, h3⟩, h4⟩, h5⟩, h6⟩ := h
  simp only [V3.clampv_x, V3.clampv_y, V3.clampv_z, V3.add_x, V3.add_y, V3.add_z,
    V3.sub_x, V3.sub_y, V3.sub_z]
  omega

/-- Counterexample for C3 as stated: with a 16³-voxel volume, one LOD and
16-voxel blocks, a viewer at the origin gets a data box clipped to the volume
bounds that does not contain the mesh box scaled and padded by 1. -/
theorem claim_C3_counterexample :
    ¬ (Box3i.contains_box
        (data_box_per_lod ⟨4, 4, 1, 1, 512, ⟨⟨0, 0, 0⟩, ⟨16, 16, 16⟩⟩⟩ ⟨0, 0, 0⟩ 0 0)
        (((mesh_box_per_lod ⟨4, 4, 1, 1, 512, ⟨⟨0, 0, 0⟩, ⟨16, 16, 16⟩⟩⟩ ⟨0, 0, 0⟩ 0
              0).scaled
            (PlanCfg.mesh_to_data_factor ⟨4, 4, 1, 1, 512, ⟨⟨0, 0, 0⟩, ⟨16, 16, 16⟩⟩⟩)).padded
          1) = true) := by
  decide

/-- C3 (amended).  For every paired viewer requiring meshes and every LOD, the
planned data box equals the mesh box scaled by the mesh-to-data factor, padded
by 1 on each side and clipped to the volume bounds in data blocks at that LOD;
it contains the padded scaled mesh box whenever that padded box lies within the
volume bounds (the claim's unconditional containment fails at the bounds,
see the counterexample). -/
theorem claim_C3_data_box (cfg : PlanCfg) (pos : V3) (vd : Int) (lod_index : Nat)
    (hb : Box3i.contains_box (cfg.volume_bounds_in_data_blocks lod_index)
        (((mesh_box_per_lod cfg pos vd lod_index).scaled cfg.mesh_to_data_factor).padded 1) =
      true) :
    data_box_per_lod cfg pos vd lod_index =
      (((mesh_box_per_lod cfg pos vd lod_index).scaled cfg.mesh_to_data_factor).padded 1).clipped
        (cfg.volume_bounds_in_data_blocks lod_index) ∧
    Box3i.contains_box (data_box_per_lod cfg pos vd lod_index)
      (((mesh_box_per_lod cfg pos vd lod_index).scaled cfg.mesh_to_data_factor).padded 1) =
      true := by
  refine ⟨rfl, ?_⟩
  exact Box3i.contains_clipped_of_contains hb

/-- Witness for C3 (amended) at a concrete input where the padded scaled mesh
box lies within the volume bounds. -/
theorem claim_C3_data_box_witness :
    Box3i.contains_box
        (PlanCfg.volume_bounds_in_data_blocks ⟨4, 4, 1, 1, 512, ⟨⟨0, 0, 0⟩, ⟨128, 128, 128⟩⟩⟩ 0)
        (((mesh_box_per_lod ⟨4, 4, 1, 1, 512, ⟨⟨0, 0, 0⟩, ⟨128, 128, 128⟩⟩⟩ ⟨48, 48, 48⟩ 0
              0).scaled
            (PlanCfg.mesh_to_data_factor
              ⟨4, 4, 1, 1, 512, ⟨⟨0, 0, 0⟩, ⟨128, 128, 128⟩⟩⟩)).padded
          1) = true ∧
    (data_box_per_lod ⟨4, 4, 1, 1, 512, ⟨⟨0, 0, 0⟩, ⟨128, 128, 128⟩⟩⟩ ⟨48, 48, 48⟩ 0 0 =
        (((mesh_box_per_lod ⟨4, 4, 1, 1, 512, ⟨⟨0, 0, 0⟩, ⟨128, 128, 128⟩⟩⟩ ⟨48, 48, 48⟩ 0
                0).scaled
              (PlanCfg.mesh_to_data_factor
                ⟨4, 4, 1, 1, 512, ⟨⟨0, 0, 0⟩, ⟨128, 128, 128⟩⟩⟩)).padded
            1).clipped
          (PlanCfg.volume_bounds_in_data_blocks ⟨4, 4, 1, 1, 512, ⟨⟨0, 0, 0⟩, ⟨128, 128, 128⟩⟩⟩
            0) ∧
      Box3i.contains_box
        (data_box_per_lod ⟨4, 4, 1, 1, 512, ⟨⟨0, 0, 0⟩, ⟨128, 128, 128⟩⟩⟩ ⟨48, 48, 48⟩ 0 0)
        (((mesh_box_per_lod ⟨4, 4, 1, 1, 512, ⟨⟨0, 0, 0⟩, ⟨128, 128, 128⟩⟩⟩ ⟨48, 48, 48⟩ 0
              0).scaled
            (PlanCfg.mesh_to_data_factor
              ⟨4, 4, 1, 1, 512, ⟨⟨0, 0, 0⟩, ⟨128, 128, 128⟩⟩⟩)).padded
          1) = true) :=
  ⟨by decide, claim_C3_data_box _ ⟨48, 48, 48⟩ 0 0 (by decide)⟩

theorem V3.evenv_add {a b : V3} (ha : a.evenv) (hb : b.evenv) : (a + b).evenv := by
  obtain ⟨ha1, ha2, ha3⟩ := ha
  obtain ⟨hb1, hb2, hb3⟩ := hb
  exact ⟨dvd_add ha1 hb1, dvd_add ha2 hb2, dvd_add ha3 hb3⟩

theorem Int.dvd_min {k a b : Int} (ha : k ∣ a) (hb : k ∣ b) : k ∣ min a b := by
  rcases min_choice a b with h | h <;> rw [h] <;> assumption

theorem Int.dvd_max {k a b : Int} (ha : k ∣ a) (hb : k ∣ b) : k ∣ max a b := by
  rcases max_choice a b with h | h <;> rw [h] <;> assumption

theorem V3.evenv_minv {a b : V3} (ha : a.evenv) (hb : b.evenv) : (a.minv b).evenv :=
  ⟨Int.dvd_min ha.1 hb.1, Int.dvd_min ha.2.1 hb.2.1, Int.dvd_min ha.2.2 hb.2.2⟩

theorem V3.evenv_maxv {a b : V3} (ha : a.evenv) (hb : b.evenv) : (a.maxv b).evenv :=
  ⟨Int.dvd_max ha.1 hb.1, Int.dvd_max ha.2.1 hb.2.1, Int.dvd_max ha.2.2 hb.2.2⟩

theorem Box3i.evenb_base_box (p : V3) (d c : Int) :
    (get_base_box_in_chunks p d c true).evenb :=
  ⟨V3.evenv_of_fdiv_scale _,
    V3.evenv_sub (V3.evenv_of_cdiv_scale _) (V3.evenv_of_fdiv_scale _)⟩

theorem Box3i.evenb_scaled2 (b : Box3i) : (b.scaled 2).evenb :=
  ⟨⟨dvd_mul_left 2 _, dvd_mul_left 2 _, dvd_mul_left 2 _⟩,
    ⟨dvd_mul_left 2 _, dvd_mul_left 2 _, dvd_mul_left 2 _⟩⟩

theorem Box3i.evenb_merge {a b : Box3i} (ha : a.evenb) (hb : b.evenb) :
    (a.merge_with b).evenb := by
  refine ⟨V3.evenv_minv ha.1 hb.1, V3.evenv_sub ?_ (V3.evenv_minv ha.1 hb.1)⟩
  exact V3.evenv_maxv (V3.evenv_add ha.1 ha.2) (V3.evenv_add hb.1 hb.2)

theorem Box3i.evenb_clipped {b lim : Box3i} (hb : b.evenb) (hpos : lim.pos.evenv)
    (hend : (lim.pos + lim.size).evenv) : (b.clipped lim).evenb := by
  have hp : (V3.clampv b.pos lim.pos (lim.pos + lim.size)).evenv :=
    V3.evenv_minv (V3.evenv_maxv hb.1 hpos) hend
  refine ⟨hp, V3.evenv_sub ?_ hp⟩
  exact V3.evenv_minv (V3.evenv_maxv (V3.evenv_add hb.1 hb.2) hp) hend

/-- Valid configurations have volume bounds aligned to the largest LOD's mesh
chunk size (unaligned bounds are an InvalidConfiguration error). -/
def PlanCfg.aligned_bounds (cfg : PlanCfg) : Prop :=
  ((2 : Int) ^ (cfg.mesh_block_size_po2 + (cfg.lod_count - 1)) ∣
      cfg.volume_bounds_in_voxels.pos.x) ∧
  ((2 : Int) ^ (cfg.mesh_block_size_po2 + (cfg.lod_count - 1)) ∣
      cfg.volume_bounds_in_voxels.pos.y) ∧
  ((2 : Int) ^ (cfg.mesh_block_size_po2 + (cfg.lod_count - 1)) ∣
      cfg.volume_bounds_in_voxels.pos.z) ∧
  ((2 : Int) ^ (cfg.mesh_block_size_po2 + (cfg.lod_count - 1)) ∣
      cfg.volume_bounds_in_voxels.size.x) ∧
  ((2 : Int) ^ (cfg.mesh_block_size_po2 + (cfg.lod_count - 1)) ∣
      cfg.volume_bounds_in_voxels.size.y) ∧
  ((2 : Int) ^ (cfg.mesh_block_size_po2 + (cfg.lod_count - 1)) ∣
      cfg.volume_bounds_in_voxels.size.z)

instance (cfg : PlanCfg) : Decidable cfg.aligned_bounds := by
  unfold PlanCfg.aligned_bounds
  infer_instance

theorem floordiv_even_of_align {a : Int} (po2 k : Nat) (hk : 1 ≤ k)
    (h : (2 : Int) ^ (po2 + k) ∣ a) : 2 ∣ floordiv a (2 ^ po2) := by
  obtain ⟨t, rfl⟩ := h
  rw [pow_add, mul_assoc]
  unfold floordiv
  rw [Int.mul_fdiv_cancel_left _ (by positivity)]
  exact Dvd.dvd.mul_right (dvd_pow_self 2 (by omega)) t

theorem ceildiv_even_of_align {a : Int} (po2 k : Nat) (hk : 1 ≤ k)
    (h : (2 : Int) ^ (po2 + k) ∣ a) : 2 ∣ ceildiv a (2 ^ po2) := by
  obtain ⟨t, rfl⟩ := h
  rw [pow_add, mul_assoc]
  unfold ceildiv
  rw [← Int.mul_neg, Int.mul_fdiv_cancel_left _ (by positivity), neg_neg]
  exact Dvd.dvd.mul_right (dvd_pow_self 2 (by omega)) t

theorem volume_bounds_in_mesh_blocks_even (cfg : PlanCfg) (lod_index : Nat)
    (hroot : lod_index + 1 < cfg.lod_count) (halign : cfg.aligned_bounds) :
    (cfg.volume_bounds_in_mesh_blocks lod_index).pos.evenv ∧
    ((cfg.volume_bounds_in_mesh_blocks lod_index).pos +
        (cfg.volume_bounds_in_mesh_blocks lod_index).size).evenv := by
  obtain ⟨h1, h2, h3, h4, h5, h6⟩ := halign
  have hk : 1 ≤ cfg.lod_count - 1 - lod_index := by omega
  have hsplit : cfg.mesh_block_size_po2 + (cfg.lod_count - 1) =
      (cfg.mesh_block_size_po2 + lod_index) + (cfg.lod_count - 1 - lod_index) := by omega
  rw [hsplit] at h1 h2 h3 h4 h5 h6
  constructor
  · exact ⟨floordiv_even_of_align _ _ hk h1, floordiv_even_of_align _ _ hk h2,
      floordiv_even_of_align _ _ hk h3⟩
  · rw [show (cfg.volume_bounds_in_mesh_blocks lod_index).pos +
        (cfg.volume_bounds_in_mesh_blocks lod_index).size =
        ((cfg.volume_bounds_in_voxels.pos +
          cfg.volume_bounds_in_voxels.size).cdivS
          (2 ^ (cfg.mesh_block_size_po2 + lod_index))) from V3.add_sub_cancel_v _ _]
    exact ⟨ceildiv_even_of_align _ _ hk (dvd_add h1 h4),
      ceildiv_even_of_align _ _ hk (dvd_add h2 h5),
      ceildiv_even_of_align _ _ hk (dvd_add h3 h6)⟩

theorem mesh_box_step_even (cfg : PlanCfg) (pos : V3) (vd : Int) (lod_index : Nat)
    (child : Option Box3i) (hroot : lod_index + 1 < cfg.lod_count)
    (halign : cfg.aligned_bounds) : (mesh_box_step cfg pos vd lod_index child).evenb := by
  have hne : lod_index ≠ cfg.lod_count - 1 := by omega
  obtain ⟨hbp, hbe⟩ := volume_bounds_in_mesh_blocks_even cfg lod_index hroot halign
  cases child with
  | none =>
    unfold mesh_box_step
    dsimp only
    rw [decide_eq_true hne]
    exact Box3i.evenb_clipped (Box3i.evenb_base_box _ _ _) hbp hbe
  | some cb =>
    unfold mesh_box_step
    dsimp only
    rw [decide_eq_true hne, if_pos hne]
    exact Box3i.evenb_clipped
      (Box3i.evenb_merge (Box3i.evenb_base_box _ _ _) (Box3i.evenb_scaled2 _)) hbp hbe

/-- C4.  For every paired viewer requiring meshes and every non-root LOD, the
planned mesh box — after the base box, the neighboring-rule merge and the clip
to the volume bounds — has even position and even size on every axis (the
volume bounds are aligned to the largest LOD's mesh chunk size, as required
for a valid configuration). -/
theorem claim_C4_mesh_box_even (cfg : PlanCfg) (pos : V3) (vd : Int) (lod_index : Nat)
    (hroot : lod_index + 1 < cfg.lod_count) (halign : cfg.aligned_bounds) :
    (mesh_box_per_lod cfg pos vd lod_index).evenb := by
  cases lod_index with
  | zero => exact mesh_box_step_even cfg pos vd 0 none hroot halign
  | succ n => exact mesh_box_step_even cfg pos vd (n + 1) _ hroot halign

/-- Witness for C4 at a concrete configuration with two LODs and aligned
64³-voxel bounds. -/
theorem claim_C4_mesh_box_even_witness :
    (0 + 1 < (2 : Nat) ∧
      PlanCfg.aligned_bounds ⟨4, 4, 2, 32, 512, ⟨⟨0, 0, 0⟩, ⟨64, 64, 64⟩⟩⟩) ∧
    (mesh_box_per_lod ⟨4, 4, 2, 32, 512, ⟨⟨0, 0, 0⟩, ⟨64, 64, 64⟩⟩⟩ ⟨7, -5, 11⟩ 100 0).evenb :=
  ⟨⟨by decide, by decide⟩,
    claim_C4_mesh_box_even ⟨4, 4, 2, 32, 512, ⟨⟨0, 0, 0⟩, ⟨64, 64, 64⟩⟩⟩ ⟨7, -5, 11⟩ 100 0
      (by decide) (by decide)⟩

/-- Mesh block lifecycle states (`VoxelLodTerrainUpdateData::MeshState`). -/
inductive MeshState
  | MESH_NEVER_UPDATED
  | MESH_NEED_UPDATE
  | MESH_UPDATE_NOT_SENT
  | MESH_UPDATE_SENT
deriving DecidableEq, Repr

/-- Modelled from the spec: `MeshBlockState` (its declaring header is not under
the provided sources): meshing state, visibility, load flag and the two viewer
refcounts. -/
structure MeshBlockState where
  state : MeshState
  active : Bool
  loaded : Bool
  mesh_viewers : Nat
  collision_viewers : Nat
deriving DecidableEq, Repr

/-- Modelled from the spec: a default-constructed mesh map entry starts never
updated, inactive, unloaded and unreferenced. -/
def MeshBlockState.fresh : MeshBlockState :=
  ⟨.MESH_NEVER_UPDATED, false, false, 0, 0⟩

/-- Pointwise map update used to model `std::unordered_map` insert/erase
(`none` erases). -/
def mupdate {α : Type} (m : V3 → Option α) (k : V3) (v : Option α) : V3 → Option α :=
  fun p => if p = k then v else m p

@[simp] theorem mupdate_self {α : Type} (m : V3 → Option α) (k : V3) (v : Option α) :
    mupdate m k v k = v := by
  simp [mupdate]

theorem mupdate_other {α : Type} (m : V3 → Option α) (k : V3) (v : Option α) {p : V3}
    (h : p ≠ k) : mupdate m k v p = m p := by
  simp [mupdate, h]

/-- Per-LOD streaming state (`VoxelLodTerrainUpdateData::Lod`), restricted to
the fields the clipbox streaming logic touches.  The mesh map and the loading
map are total functions to options; a `LoadingDataBlock` is its viewer
refcount. -/
structure Lod where
  mesh_map : V3 → Option MeshBlockState
  loading_blocks : V3 → Option Nat
  mesh_blocks_pending_update : List V3
  mesh_blocks_to_activate : List V3
  mesh_blocks_to_deactivate : List V3
  mesh_blocks_to_unload : List V3

/-- Per-LOD state with empty maps and queues. -/
def Lod.empty : Lod := ⟨fun _ => none, fun _ => none, [], [], [], []⟩

/-- Box state of a paired viewer (`ViewerBoxState`); boxes are per-LOD
functions. -/
structure ViewerBoxState where
  view_distance_voxels : Int
  local_position_voxels : V3
  requires_collisions : Bool
  requires_meshes : Bool
  data_box_per_lod : Nat → Box3i
  mesh_box_per_lod : Nat → Box3i

/-- Default-constructed viewer box state: zero distances and empty boxes. -/
def ViewerBoxState.initial : ViewerBoxState :=
  ⟨0, ⟨0, 0, 0⟩, false, false, fun _ => Box3i.default, fun _ => Box3i.default⟩

/-- A paired viewer (`VoxelLodTerrainUpdateData::PairedViewer`). -/
structure PairedViewer where
  id : Nat
  state : ViewerBoxState
  prev_state : ViewerBoxState

/-- The streaming state: per-LOD states and the clipbox pairing state
(`VoxelLodTerrainUpdateData::State` restricted to what the clipbox logic
touches). -/
structure StreamState where
  lods : Nat → Lod
  paired_viewers : List PairedViewer

/-- Replace one per-LOD state. -/
def StreamState.setLod (s : StreamState) (i : Nat) (l : Lod) : StreamState :=
  { s with lods := fun j => if j = i then l else s.lods j }

@[simp] theorem StreamState.setLod_self (s : StreamState) (i : Nat) (l : Lod) :
    (s.setLod i l).lods i = l := by
  simp [StreamState.setLod]

theorem StreamState.setLod_other (s : StreamState) (i : Nat) (l : Lod) {j : Nat}
    (h : j ≠ i) : (s.setLod i l).lods j = s.lods j := by
  simp [StreamState.setLod, h]

/-- Child position from the first sibling (`get_child_position_from_first_sibling`):
the three child-index bits select the offset on each axis. -/
def get_child_position_from_first_sibling (first_sibling_position : V3)
    (child_index : Nat) : V3 :=
  ⟨first_sibling_position.x + ((child_index &&& 1 : Nat) : Int),
    first_sibling_position.y + (((child_index &&& 2) >>> 1 : Nat) : Int),
    first_sibling_position.z + (((child_index &&& 4) >>> 2 : Nat) : Int)⟩

/-- Child position of a parent chunk (`get_child_position`). -/
def get_child_position (parent_position : V3) (child_index : Nat) : V3 :=
  get_child_position_from_first_sibling (parent_position.scale 2) child_index

/-- Per-cell body of the mesh unload pass of `process_mesh_blocks_sliding_box`:
decrement both viewer refcounts, erase and queue the unload when both reach
zero. -/
def mesh_unload_cell (lod : Lod) (bpos : V3) : Lod :=
  match lod.mesh_map bpos with
  | none => lod
  | some mesh_block =>
    let mb := { mesh_block with
      mesh_viewers := mesh_block.mesh_viewers - 1,
      collision_viewers := mesh_block.collision_viewers - 1 }
    if mb.mesh_viewers = 0 ∧ mb.collision_viewers = 0 then
      { lod with
        mesh_map := mupdate lod.mesh_map bpos none,
        mesh_blocks_to_unload := lod.mesh_blocks_to_unload ++ [bpos] }
    else
      { lod with mesh_map := mupdate lod.mesh_map bpos (some mb) }

/-- Per-parent-cell body of the parent re-activation pass: re-activate an
inactive parent unless its first child (`bpos << 1`) still exists in the child
LOD's mesh map.  The child map is fixed during this pass (the pass only writes
parent entries), so it is passed as a value. -/
def activate_parents_step (child_map : V3 → Option MeshBlockState) (parent_lod : Lod)
    (bpos : V3) : Lod :=
  match parent_lod.mesh_map bpos with
  | none => parent_lod
  | some mesh_block =>
    if mesh_block.active then parent_lod
    else
      match child_map (bpos.shl 1) with
      | some _ => parent_lod
      | none =>
        { parent_lod with
          mesh_map := mupdate parent_lod.mesh_map bpos (some { mesh_block with active := true }),
          mesh_blocks_to_activate := parent_lod.mesh_blocks_to_activate ++ [bpos] }

/-- Processing of one out-of-range box emitted by the mesh box differ:
unload every cell, then re-activate the parents of the removed cells when no
child remains (`process_mesh_blocks_sliding_box`, removal lambda). -/
def mesh_unload_box (state : StreamState) (lod_index lod_count : Nat)
    (out_of_range_box : Box3i) : StreamState :=
  let lod := state.lods lod_index
  let lod1 := out_of_range_box.cells.foldl mesh_unload_cell lod
  let state1 := state.setLod lod_index lod1
  let parent_lod_index := lod_index + 1
  if parent_lod_index < lod_count then
    let parent_box : Box3i := ⟨out_of_range_box.pos.shr 1, out_of_range_box.size.shr 1⟩
    let parent_lod := state1.lods parent_lod_index
    let parent_lod1 := parent_box.cells.foldl (activate_parents_step lod1.mesh_map) parent_lod
    state1.setLod parent_lod_index parent_lod1
  else state1

/-- Per-cell body of the mesh load pass of `process_mesh_blocks_sliding_box`:
insert a fresh entry when absent (queueing an immediate mesh update in full
load mode), then add one reference to both viewer refcounts. -/
def mesh_view_cell (is_full_load_mode : Bool) (lod : Lod) (bpos : V3) : Lod :=
  match lod.mesh_map bpos with
  | none =>
    let mesh_block := MeshBlockState.fresh
    let lod1 :=
      if is_full_load_mode then
        { lod with
          mesh_blocks_pending_update := lod.mesh_blocks_pending_update ++ [bpos],
          mesh_map := mupdate lod.mesh_map bpos
            (some
              { mesh_block with
                state := MeshState.MESH_UPDATE_NOT_SENT,
                mesh_viewers := 1,
                collision_viewers := 1 }) }
      else
        { lod with
          mesh_map := mupdate lod.mesh_map bpos
            (some { mesh_block with mesh_viewers := 1, collision_viewers := 1 }) }
    lod1
  | some mesh_block =>
    { lod with
      mesh_map := mupdate lod.mesh_map bpos
        (some
          { mesh_block with
            mesh_viewers := mesh_block.mesh_viewers + 1,
            collision_viewers := mesh_block.collision_viewers + 1 }) }

/-- Body of `update_mesh_block_load` for one LOD.  `recurse` is the function
for the child LOD, present exactly when `lod_index > 0` (the source guards the
child loops with `lod_index > 0`).  Besides the updated state it returns the
trace of every invocation's `(bpos, lod_index)` arguments, so the recursion
structure itself can be examined.  The inner child loop of the sibling pass
recurses on `get_child_position sibling_bpos sibling_index` — exactly as the
source does, whose loop variable `child_index` is unused there. -/
def update_mesh_block_load_go (lod_count lod_index : Nat)
    (recurse : Option (StreamState → V3 → StreamState × List (V3 × Nat)))
    (state : StreamState) (bpos : V3) : StreamState × List (V3 × Nat) :=
  let trace0 : List (V3 × Nat) := [(bpos, lod_index)]
  let lod := state.lods lod_index
  match lod.mesh_map bpos with
  | none => (state, trace0)
  | some mesh_block =>
    if mesh_block.loaded = false then (state, trace0)
    else
      let parent_lod_index := lod_index + 1
      if parent_lod_index = lod_count then
        let lod1 :=
          if mesh_block.active = false then
            { lod with
              mesh_map := mupdate lod.mesh_map bpos (some { mesh_block with active := true }),
              mesh_blocks_to_activate := lod.mesh_blocks_to_activate ++ [bpos] }
          else lod
        let state1 := state.setLod lod_index lod1
        match recurse with
        | none => (state1, trace0)
        | some rec_child =>
          (List.range 8).foldl
            (fun acc child_index =>
              let r := rec_child acc.1 (get_child_position bpos child_index)
              (r.1, acc.2 ++ r.2))
            (state1, trace0)
      else
        let parent_bpos := bpos.shr 1
        let parent_lod := state.lods parent_lod_index
        match parent_lod.mesh_map parent_bpos with
        | none => (state, trace0)
        | some parent_mesh_block =>
          if parent_mesh_block.active = false then (state, trace0)
          else
            let all_siblings_loaded := (List.range 8).all fun sibling_index =>
              match (state.lods lod_index).mesh_map
                  (get_child_position parent_bpos sibling_index) with
              | none => false
              | some sibling => sibling.loaded
            if all_siblings_loaded = false then (state, trace0)
            else
              let parent_lod1 :=
                { parent_lod with
                  mesh_map := mupdate parent_lod.mesh_map parent_bpos
                    (some { parent_mesh_block with active := false }),
                  mesh_blocks_to_deactivate :=
                    parent_lod.mesh_blocks_to_deactivate ++ [parent_bpos] }
              let state1 := state.setLod parent_lod_index parent_lod1
              (List.range 8).foldl
                (fun acc sibling_index =>
                  let sibling_bpos := get_child_position parent_bpos sibling_index
                  let st := acc.1
                  let lodc := st.lods lod_index
                  let lodc1 :=
                    match lodc.mesh_map sibling_bpos with
                    | none => lodc
                    | some sibling =>
                      { lodc with
                        mesh_map := mupdate lodc.mesh_map sibling_bpos
                          (some { sibling with active := true }),
                        mesh_blocks_to_activate :=
                          lodc.mesh_blocks_to_activate ++ [sibling_bpos] }
                  let st1 := st.setLod lod_index lodc1
                  match recurse with
                  | none => (st1, acc.2)
                  | some rec_child =>
                    (List.range 8).foldl
                      (fun acc2 _child_index =>
                        let r := rec_child acc2.1
                          (get_child_position sibling_bpos sibling_index)
                        (r.1, acc2.2 ++ r.2))
                      (st1, acc.2))
                (state1, trace0)

/-- `update_mesh_block_load`: octree subdivision from one loaded mesh block,
activating finer LODs and hiding the parent when all 8 siblings are loaded. -/
def update_mesh_block_load (lod_count : Nat) :
    Nat → StreamState → V3 → StreamState × List (V3 × Nat)
  | 0 => update_mesh_block_load_go lod_count 0 none
  | n + 1 =>
    update_mesh_block_load_go lod_count (n + 1) (some (update_mesh_block_load lod_count n))

/-- A streaming state (3 LODs) where the parent of mesh block `(0,0,0)` at
LOD 1 is active and loaded, and all 8 LOD-1 siblings are present and loaded. -/
def stateC1 : StreamState :=
  { lods := fun i =>
      if i = 2 then
        { Lod.empty with
          mesh_map := fun p =>
            if p = ⟨0, 0, 0⟩ then some ⟨MeshState.MESH_UPDATE_SENT, true, true, 1, 1⟩
            else none }
      else if i = 1 then
        { Lod.empty with
          mesh_map := fun p =>
            if Box3i.contains_point ⟨⟨0, 0, 0⟩, ⟨2, 2, 2⟩⟩ p then
              some ⟨MeshState.MESH_UPDATE_SENT, false, true, 1, 1⟩
            else none }
      else Lod.empty,
    paired_viewers := [] }

/-- C1 (code bug).  When block `(0,0,0)` at LOD 1 becomes loaded with its
parent active and all 8 siblings loaded, the parent is deactivated and the
siblings activated as the claim states; but the recursion into the children
visits `get_child_position sibling_bpos sibling_index` — the same position —
eight times per sibling (here `(3,0,0)` for sibling `(1,0,0)`), and never
visits the other children such as `(2,0,0)`, because the source's inner loop
uses `sibling_index` where its unused loop variable `child_index` was meant. -/
theorem claim_C1_sibling_recursion_trace :
    (update_mesh_block_load 3 1 stateC1 ⟨0, 0, 0⟩).2.count (⟨3, 0, 0⟩, 0) = 8 ∧
    (update_mesh_block_load 3 1 stateC1 ⟨0, 0, 0⟩).2.count (⟨2, 0, 0⟩, 0) = 0 ∧
    ((update_mesh_block_load 3 1 stateC1 ⟨0, 0, 0⟩).1.lods 2).mesh_map ⟨0, 0, 0⟩ =
      some ⟨MeshState.MESH_UPDATE_SENT, false, true, 1, 1⟩ ∧
    ((update_mesh_block_load 3 1 stateC1 ⟨0, 0, 0⟩).1.lods 1).mesh_map ⟨1, 1, 1⟩ =
      some ⟨MeshState.MESH_UPDATE_SENT, true, true, 1, 1⟩ := by
  decide

@[simp] theorem V3.mk_x (a b c : Int) : (V3.mk a b c).x = a := rfl

@[simp] theorem V3.mk_y (a b c : Int) : (V3.mk a b c).y = b := rfl

@[simp] theorem V3.mk_z (a b c : Int) : (V3.mk a b c).z = c := rfl

theorem Box3i.mem_cells {b : Box3i} {p : V3} :
    p ∈ b.cells ↔ b.contains_point p = true := by
  constructor
  · intro hp
    unfold Box3i.cells at hp
    rw [List.mem_flatMap] at hp
    obtain ⟨ix, hix, hp⟩ := hp
    rw [List.mem_flatMap] at hp
    obtain ⟨iy, hiy, hp⟩ := hp
    rw [List.mem_map] at hp
    obtain ⟨iz, hiz, rfl⟩ := hp
    rw [List.mem_range] at hix hiy hiz
    unfold Box3i.contains_point
    simp only [V3.mk_x, V3.mk_y, V3.mk_z, Bool.and_eq_true, decide_eq_true_eq]
    omega
  · intro hp
    unfold Box3i.contains_point at hp
    simp only [Bool.and_eq_true, decide_eq_true_eq] at hp
    obtain ⟨⟨⟨hx1, hx2⟩, hy1, hy2⟩, hz1, hz2⟩ := hp
    unfold Box3i.cells
    rw [List.mem_flatMap]
    refine ⟨(p.x - b.pos.x).toNat, ?_, ?_⟩
    · rw [List.mem_range]
      omega
    rw [List.mem_flatMap]
    refine ⟨(p.y - b.pos.y).toNat, ?_, ?_⟩
    · rw [List.mem_range]
      omega
    rw [List.mem_map]
    refine ⟨(p.z - b.pos.z).toNat, ?_, ?_⟩
    · rw [List.mem_range]
      omega
    · rw [V3.eq_iff]
      simp only [V3.mk_x, V3.mk_y, V3.mk_z]
      omega

theorem Box3i.cells_nodup (b : Box3i) : b.cells.Nodup := by
  unfold Box3i.cells
  refine List.nodup_flatMap.2 ⟨fun ix _ => ?_, ?_⟩
  · refine List.nodup_flatMap.2 ⟨fun iy _ => ?_, ?_⟩
    · refine List.Nodup.map ?_ (List.nodup_range _)
      intro a c hac
      rw [V3.eq_iff] at hac
      simp only [V3.mk_x, V3.mk_y, V3.mk_z] at hac
      omega
    · refine (List.pairwise_lt_range _).imp ?_
      intro i j hij
      intro q hqi hqj
      simp only [List.mem_map] at hqi hqj
      obtain ⟨a, _, rfl⟩ := hqi
      obtain ⟨c, _, hc⟩ := hqj
      rw [V3.eq_iff] at hc
      simp only [V3.mk_x, V3.mk_y, V3.mk_z] at hc
      omega
  · refine (List.pairwise_lt_range _).imp ?_
    intro i j hij
    intro q hqi hqj
    simp only [List.mem_flatMap, List.mem_map] at hqi hqj
    obtain ⟨a, _, a2, _, rfl⟩ := hqi
    obtain ⟨c, _, c2, _, hc⟩ := hqj
    rw [V3.eq_iff] at hc
    simp only [V3.mk_x, V3.mk_y, V3.mk_z] at hc
    omega

/-- C10.  For every cell leaving a viewer's mesh box whose mesh map entry
exists, both viewer refcounts are decremented; the entry is erased, with its
position queued for unload, exactly when both decremented refcounts are zero,
and an entry with a nonzero remaining refcount is kept with the decremented
counts. -/
theorem claim_C10_mesh_unload_refcounts (lod : Lod) (bpos : V3) (mb : MeshBlockState)
    (h : lod.mesh_map bpos = some mb) :
    (mb.mesh_viewers - 1 = 0 ∧ mb.collision_viewers - 1 = 0 →
      (mesh_unload_cell lod bpos).mesh_map bpos = none ∧
      (mesh_unload_cell lod bpos).mesh_blocks_to_unload =
        lod.mesh_blocks_to_unload ++ [bpos]) ∧
    (¬ (mb.mesh_viewers - 1 = 0 ∧ mb.collision_viewers - 1 = 0) →
      (mesh_unload_cell lod bpos).mesh_map bpos =
        some
          { mb with
            mesh_viewers := mb.mesh_viewers - 1,
            collision_viewers := mb.collision_viewers - 1 } ∧
      (mesh_unload_cell lod bpos).mesh_blocks_to_unload = lod.mesh_blocks_to_unload) := by
  unfold mesh_unload_cell
  rw [h]
  dsimp only
  constructor
  · intro hz
    rw [if_pos hz]
    exact ⟨mupdate_self _ _ _, rfl⟩
  · intro hz
    rw [if_neg hz]
    exact ⟨mupdate_self _ _ _, rfl⟩

/-- Concrete per-LOD state for the C10 witness: one mesh map entry at the
origin with both refcounts 1. -/
def lodC10 : Lod :=
  { Lod.empty with
    mesh_map := fun p =>
      if p = ⟨0, 0, 0⟩ then some ⟨MeshState.MESH_UPDATE_SENT, true, true, 1, 1⟩
      else none }

/-- The mesh map entry of `lodC10` at the origin. -/
def mbC10 : MeshBlockState := ⟨MeshState.MESH_UPDATE_SENT, true, true, 1, 1⟩

/-- Witness for C10 at a concrete per-LOD state. -/
theorem claim_C10_mesh_unload_refcounts_witness :
    lodC10.mesh_map ⟨0, 0, 0⟩ = some mbC10 ∧
    ((mbC10.mesh_viewers - 1 = 0 ∧ mbC10.collision_viewers - 1 = 0 →
      (mesh_unload_cell lodC10 ⟨0, 0, 0⟩).mesh_map ⟨0, 0, 0⟩ = none ∧
      (mesh_unload_cell lodC10 ⟨0, 0, 0⟩).mesh_blocks_to_unload =
        lodC10.mesh_blocks_to_unload ++ [⟨0, 0, 0⟩]) ∧
    (¬ (mbC10.mesh_viewers - 1 = 0 ∧ mbC10.collision_viewers - 1 = 0) →
      (mesh_unload_cell lodC10 ⟨0, 0, 0⟩).mesh_map ⟨0, 0, 0⟩ =
        some
          { mbC10 with
            mesh_viewers := mbC10.mesh_viewers - 1,
            collision_viewers := mbC10.collision_viewers - 1 } ∧
      (mesh_unload_cell lodC10 ⟨0, 0, 0⟩).mesh_blocks_to_unload =
        lodC10.mesh_blocks_to_unload)) :=
  ⟨by decide, claim_C10_mesh_unload_refcounts lodC10 ⟨0, 0, 0⟩ mbC10 (by decide)⟩

theorem activate_parents_step_other (cm : V3 → Option MeshBlockState) (plod : Lod)
    (q : V3) {p : V3} (h : p ≠ q) :
    (activate_parents_step cm plod q).mesh_map p = plod.mesh_map p := by
  unfold activate_parents_step
  cases hq : plod.mesh_map q with
  | none => rfl
  | some mb =>
    by_cases ha : mb.active = true
    · simp only [ha, if_true]
    · simp only [ha, if_false, Bool.false_eq_true]
      cases hc : cm (q.shl 1) with
      | some _ => rfl
      | none =>
        dsimp only
        exact mupdate_other _ _ _ h

theorem activate_parents_fold_not_mem (cm : V3 → Option MeshBlockState)
    (cells : List V3) (plod : Lod) {p : V3} (hp : p ∉ cells) :
    (cells.foldl (activate_parents_step cm) plod).mesh_map p = plod.mesh_map p := by
  induction cells generalizing plod with
  | nil => rfl
  | cons q rest ih =>
    have hpq : p ≠ q := fun h => hp (h ▸ List.mem_cons_self q rest)
    have hrest : p ∉ rest := fun h => hp (List.mem_cons_of_mem q h)
    rw [List.foldl_cons, ih _ hrest, activate_parents_step_other cm plod q hpq]

theorem activate_parents_fold_mem (cm : V3 → Option MeshBlockState)
    (cells : List V3) (plod : Lod) {p : V3} (mb : MeshBlockState)
    (hnd : cells.Nodup) (hp : p ∈ cells) (hmb : plod.mesh_map p = some mb)
    (hact : mb.active = false) :
    (cells.foldl (activate_parents_step cm) plod).mesh_map p =
      (if cm (p.shl 1) = none then some { mb with active := true } else some mb) := by
  induction cells generalizing plod with
  | nil => cases hp
  | cons q rest ih =>
    rw [List.nodup_cons] at hnd
    rw [List.foldl_cons]
    by_cases hpq : p = q
    · subst hpq
      have hstep : (activate_parents_step cm plod p).mesh_map p =
          (if cm (p.shl 1) = none then some { mb with active := true } else some mb) := by
        unfold activate_parents_step
        rw [hmb]
        simp only [hact, Bool.false_eq_true, if_false]
        cases hc : cm (p.shl 1) with
        | some v =>
          simp only [hc, reduceCtorEq, if_false]
          exact hmb
        | none =>
          dsimp only
          simp only [hc, if_true]
          exact mupdate_self _ _ _
      rw [activate_parents_fold_not_mem cm rest _ hnd.1, hstep]
    · have hrest : p ∈ rest := by
        cases hp with
        | head => exact absurd rfl hpq
        | tail _ h => exact h
      refine ih _ hnd.2 hrest ?_
      rw [activate_parents_step_other cm plod q hpq]
      exact hmb

/-- A streaming state (2 LODs) in which the parent `(0,0,0)` at LOD 1 is
inactive, its first child `(0,0,0)` at LOD 0 is referenced once, and the child
`(1,1,1)` is referenced twice (a second viewer still references it). -/
def stateC5 : StreamState :=
  { lods := fun i =>
      if i = 1 then
        { Lod.empty with
          mesh_map := fun p =>
            if p = ⟨0, 0, 0⟩ then some ⟨MeshState.MESH_UPDATE_SENT, false, true, 1, 1⟩
            else none }
      else if i = 0 then
        { Lod.empty with
          mesh_map := fun p =>
            if p = ⟨0, 0, 0⟩ then some ⟨MeshState.MESH_UPDATE_SENT, true, true, 1, 1⟩
            else if p = ⟨1, 1, 1⟩ then some ⟨MeshState.MESH_UPDATE_SENT, true, true, 2, 2⟩
            else none }
      else Lod.empty,
    paired_viewers := [] }

/-- Counterexample for C5 as stated: after the cells of the box `[0,2)³` leave
the LOD-0 mesh box, the parent `(0,0,0)` at LOD 1 is re-activated even though
the child `(1,1,1)` still exists in the LOD-0 mesh map (only the first child is
checked by the source). -/
theorem claim_C5_counterexample :
    ((mesh_unload_box stateC5 0 2 ⟨⟨0, 0, 0⟩, ⟨2, 2, 2⟩⟩).lods 1).mesh_map ⟨0, 0, 0⟩ =
      some ⟨MeshState.MESH_UPDATE_SENT, true, true, 1, 1⟩ ∧
    ((mesh_unload_box stateC5 0 2 ⟨⟨0, 0, 0⟩, ⟨2, 2, 2⟩⟩).lods 0).mesh_map ⟨1, 1, 1⟩ =
      some ⟨MeshState.MESH_UPDATE_SENT, true, true, 1, 1⟩ := by
  decide

/-- C5 (amended).  When mesh chunks leave a viewer's mesh box at LOD `L` with
`L + 1 < lod_count`, a parent chunk present in the LOD `L+1` mesh map and
inactive is re-activated if and only if the *first* child of that parent
(position `parent << 1`) no longer exists in the LOD-`L` mesh map after the
removals (the source checks only that child, assuming children come in
complete groups of 8; the claim's "no child of that parent" fails when another
child is still referenced by a second viewer, see the counterexample). -/
theorem claim_C5_parent_reactivation (state : StreamState) (lod_index lod_count : Nat)
    (box : Box3i) (p : V3) (mb : MeshBlockState)
    (hlc : lod_index + 1 < lod_count)
    (hp : p ∈ (Box3i.mk (box.pos.shr 1) (box.size.shr 1)).cells)
    (hmb : (state.lods (lod_index + 1)).mesh_map p = some mb)
    (hact : mb.active = false) :
    ((mesh_unload_box state lod_index lod_count box).lods (lod_index + 1)).mesh_map p =
      (if (box.cells.foldl mesh_unload_cell (state.lods lod_index)).mesh_map (p.shl 1) = none
       then some { mb with active := true } else some mb) := by
  unfold mesh_unload_box
  dsimp only
  rw [if_pos hlc]
  rw [StreamState.setLod_self]
  rw [StreamState.setLod_other _ _ _ (by omega : lod_index + 1 ≠ lod_index)]
  exact activate_parents_fold_mem _ _ _ mb (Box3i.cells_nodup _) hp hmb hact

/-- Witness for C5 (amended) at the concrete state of the counterexample. -/
theorem claim_C5_parent_reactivation_witness :
    (0 + 1 < 2 ∧
      (⟨0, 0, 0⟩ : V3) ∈
        (Box3i.mk ((⟨⟨0, 0, 0⟩, ⟨2, 2, 2⟩⟩ : Box3i).pos.shr 1)
          ((⟨⟨0, 0, 0⟩, ⟨2, 2, 2⟩⟩ : Box3i).size.shr 1)).cells ∧
      (stateC5.lods (0 + 1)).mesh_map ⟨0, 0, 0⟩ =
        some ⟨MeshState.MESH_UPDATE_SENT, false, true, 1, 1⟩ ∧
      (⟨MeshState.MESH_UPDATE_SENT, false, true, 1, 1⟩ : MeshBlockState).active = false) ∧
    ((mesh_unload_box stateC5 0 2 ⟨⟨0, 0, 0⟩, ⟨2, 2, 2⟩⟩).lods (0 + 1)).mesh_map ⟨0, 0, 0⟩ =
      (if ((⟨⟨0, 0, 0⟩, ⟨2, 2, 2⟩⟩ : Box3i).cells.foldl mesh_unload_cell
            (stateC5.lods 0)).mesh_map ((⟨0, 0, 0⟩ : V3).shl 1) = none
       then some
          { (⟨MeshState.MESH_UPDATE_SENT, false, true, 1, 1⟩ : MeshBlockState) with
            active := true }
       else some ⟨MeshState.MESH_UPDATE_SENT, false, true, 1, 1⟩) :=
  ⟨⟨by decide, by decide, by decide, by decide⟩,
    claim_C5_parent_reactivation stateC5 0 2 ⟨⟨0, 0, 0⟩, ⟨2, 2, 2⟩⟩ ⟨0, 0, 0⟩
      ⟨MeshState.MESH_UPDATE_SENT, false, true, 1, 1⟩ (by decide) (by decide) (by decide)
      (by decide)⟩

/-- Cancellation of pending mesh updates in `process_data_blocks_sliding_box`:
every pending position outside the given box (the new data box padded inwards
by 1 and converted to mesh coordinates) is dropped from the queue and, when
still present in the mesh map, its state reverts to `MESH_NEED_UPDATE`.
Modelled from the spec: `unordered_remove_if` applies the predicate to every
element exactly once; the queue order, which the source permutes, is kept
stable here. -/
def cancel_pending_step (mesh_box : Box3i) (acc : (V3 → Option MeshBlockState) × List V3)
    (bpos : V3) : (V3 → Option MeshBlockState) × List V3 :=
  if mesh_box.contains_point bpos then (acc.1, acc.2 ++ [bpos])
  else
    match acc.1 bpos with
    | none => (acc.1, acc.2)
    | some mb =>
      (mupdate acc.1 bpos (some { mb with state := MeshState.MESH_NEED_UPDATE }), acc.2)

def cancel_mesh_updates_outside_data_box (lod : Lod) (mesh_box : Box3i) : Lod :=
  let r := lod.mesh_blocks_pending_update.foldl (cancel_pending_step mesh_box)
    (lod.mesh_map, [])
  { lod with mesh_map := r.1, mesh_blocks_pending_update := r.2 }

/-- Cancellation of pending mesh updates at the end of
`process_mesh_blocks_sliding_box`: positions outside the new mesh box are
dropped from the queue; the mesh map is not touched. -/
def cancel_mesh_updates_outside_mesh_box (lod : Lod) (new_mesh_box : Box3i) : Lod :=
  { lod with
    mesh_blocks_pending_update :=
      lod.mesh_blocks_pending_update.filter fun bpos => new_mesh_box.contains_point bpos }

/-- A per-LOD state with one pending mesh update whose map entry is in state
`MESH_UPDATE_NOT_SENT`. -/
def lodC7 : Lod :=
  { Lod.empty with
    mesh_map := fun p =>
      if p = ⟨5, 0, 0⟩ then some ⟨MeshState.MESH_UPDATE_NOT_SENT, false, false, 1, 1⟩
      else none,
    mesh_blocks_pending_update := [⟨5, 0, 0⟩] }

/-- Counterexample for C7 as stated: position `(5,0,0)` is cancelled for
falling outside the new mesh box (the empty box), yet its mesh map entry keeps
state `MESH_UPDATE_NOT_SENT` — the mesh-box cancellation never reverts state to
`MESH_NEED_UPDATE`. -/
theorem claim_C7_counterexample :
    (cancel_mesh_updates_outside_mesh_box lodC7 Box3i.default).mesh_blocks_pending_update
        = [] ∧
    (cancel_mesh_updates_outside_mesh_box lodC7 Box3i.default).mesh_map ⟨5, 0, 0⟩ =
      some ⟨MeshState.MESH_UPDATE_NOT_SENT, false, false, 1, 1⟩ := by
  decide


theorem cancel_pending_step_in (mesh_box : Box3i) (m : V3 → Option MeshBlockState)
    (kept : List V3) {q : V3} (hq : mesh_box.contains_point q = true) :
    cancel_pending_step mesh_box (m, kept) q = (m, kept ++ [q]) := by
  unfold cancel_pending_step
  rw [if_pos hq]

theorem cancel_pending_step_out_none (mesh_box : Box3i) (m : V3 → Option MeshBlockState)
    (kept : List V3) {q : V3} (hq : mesh_box.contains_point q = false) (hm : m q = none) :
    cancel_pending_step mesh_box (m, kept) q = (m, kept) := by
  unfold cancel_pending_step
  rw [if_neg (by intro h; rw [hq] at h; cases h)]
  dsimp only
  rw [hm]

theorem cancel_pending_step_out_some (mesh_box : Box3i) (m : V3 → Option MeshBlockState)
    (kept : List V3) {q : V3} (hq : mesh_box.contains_point q = false) {mb : MeshBlockState}
    (hm : m q = some mb) :
    cancel_pending_step mesh_box (m, kept) q =
      (mupdate m q (some { mb with state := MeshState.MESH_NEED_UPDATE }), kept) := by
  unfold cancel_pending_step
  rw [if_neg (by intro h; rw [hq] at h; cases h)]
  dsimp only
  rw [hm]

theorem cancel_pending_fold_untouched (mesh_box : Box3i) (pending : List V3)
    (m : V3 → Option MeshBlockState) (kept : List V3) {p : V3} (hp : p ∉ pending) :
    (pending.foldl (cancel_pending_step mesh_box) (m, kept)).1 p = m p := by
  induction pending generalizing m kept with
  | nil => rfl
  | cons q rest ih =>
    have hpq : p ≠ q := fun h => hp (h ▸ List.mem_cons_self q rest)
    have hrest : p ∉ rest := fun h => hp (List.mem_cons_of_mem q h)
    rw [List.foldl_cons]
    by_cases hq : mesh_box.contains_point q = true
    · rw [cancel_pending_step_in mesh_box m kept hq]
      exact ih _ _ hrest
    · rw [Bool.not_eq_true] at hq
      cases hm : m q with
      | none =>
        rw [cancel_pending_step_out_none mesh_box m kept hq hm]
        exact ih _ _ hrest
      | some mb =>
        rw [cancel_pending_step_out_some mesh_box m kept hq hm]
        rw [ih _ _ hrest]
        exact mupdate_other _ _ _ hpq

theorem cancel_pending_fold_dropped (mesh_box : Box3i) (pending : List V3)
    (m : V3 → Option MeshBlockState) (kept : List V3) {p : V3}
    (hout : mesh_box.contains_point p = false) (hkept : p ∉ kept) :
    p ∉ (pending.foldl (cancel_pending_step mesh_box) (m, kept)).2 := by
  induction pending generalizing m kept with
  | nil => exact hkept
  | cons q rest ih =>
    rw [List.foldl_cons]
    by_cases hq : mesh_box.contains_point q = true
    · rw [cancel_pending_step_in mesh_box m kept hq]
      refine ih _ _ ?_
      intro hmem
      rcases List.mem_append.1 hmem with h | h
      · exact hkept h
      · rw [List.mem_singleton] at h
        subst h
        rw [hout] at hq
        cases hq
    · rw [Bool.not_eq_true] at hq
      cases hm : m q with
      | none =>
        rw [cancel_pending_step_out_none mesh_box m kept hq hm]
        exact ih _ _ hkept
      | some mb =>
        rw [cancel_pending_step_out_some mesh_box m kept hq hm]
        exact ih _ _ hkept

theorem cancel_pending_fold_map (mesh_box : Box3i) (pending : List V3)
    (m : V3 → Option MeshBlockState) (kept : List V3) {p : V3}
    (hout : mesh_box.contains_point p = false) (hp : p ∈ pending) (mb : MeshBlockState)
    (hm : m p = some mb) :
    (pending.foldl (cancel_pending_step mesh_box) (m, kept)).1 p =
      some { mb with state := MeshState.MESH_NEED_UPDATE } := by
  induction pending generalizing m kept mb with
  | nil => cases hp
  | cons q rest ih =>
    rw [List.foldl_cons]
    by_cases hpq : p = q
    · subst hpq
      rw [cancel_pending_step_out_some mesh_box m kept hout hm]
      by_cases hrest : p ∈ rest
      · exact ih _ _ hrest { mb with state := MeshState.MESH_NEED_UPDATE }
          (mupdate_self _ _ _)
      · rw [cancel_pending_fold_untouched mesh_box rest _ _ hrest]
        exact mupdate_self _ _ _
    · have hrest : p ∈ rest := by
        cases hp with
        | head => exact absurd rfl hpq
        | tail _ h => exact h
      by_cases hq : mesh_box.contains_point q = true
      · rw [cancel_pending_step_in mesh_box m kept hq]
        exact ih _ _ hrest _ hm
      · rw [Bool.not_eq_true] at hq
        cases hmq : m q with
        | none =>
          rw [cancel_pending_step_out_none mesh_box m kept hq hmq]
          exact ih _ _ hrest _ hm
        | some mbq =>
          rw [cancel_pending_step_out_some mesh_box m kept hq hmq]
          refine ih _ _ hrest _ ?_
          rw [mupdate_other _ _ _ hpq]
          exact hm

/-- C7 (amended).  A pending mesh update cancelled by the data-box phase (the
position falls outside the new data box padded inwards by 1) is dropped from
the queue and, when the position is still present in the mesh map, its state
reverts to `MESH_NEED_UPDATE`; the cancellation at the end of the mesh-box
phase, however, only drops positions outside the new mesh box and never
touches the mesh map, so those cancellations do not revert state (see the
counterexample). -/
theorem claim_C7_cancel_revert (lod : Lod) (mesh_box new_mesh_box : Box3i) (p : V3)
    (mb : MeshBlockState) (hp : p ∈ lod.mesh_blocks_pending_update)
    (hout : mesh_box.contains_point p = false) (hm : lod.mesh_map p = some mb) :
    ((cancel_mesh_updates_outside_data_box lod mesh_box).mesh_map p =
        some { mb with state := MeshState.MESH_NEED_UPDATE } ∧
      p ∉ (cancel_mesh_updates_outside_data_box lod mesh_box).mesh_blocks_pending_update) ∧
    ((cancel_mesh_updates_outside_mesh_box lod new_mesh_box).mesh_map = lod.mesh_map ∧
      (cancel_mesh_updates_outside_mesh_box lod new_mesh_box).mesh_blocks_pending_update =
        lod.mesh_blocks_pending_update.filter fun q => new_mesh_box.contains_point q) := by
  refine ⟨⟨?_, ?_⟩, rfl, rfl⟩
  · exact cancel_pending_fold_map mesh_box _ _ _ hout hp mb hm
  · exact cancel_pending_fold_dropped mesh_box _ _ _ hout (List.not_mem_nil p)

/-- Witness for C7 (amended) at the concrete state of the counterexample. -/
theorem claim_C7_cancel_revert_witness :
    ((⟨5, 0, 0⟩ : V3) ∈ lodC7.mesh_blocks_pending_update ∧
      Box3i.contains_point Box3i.default ⟨5, 0, 0⟩ = false ∧
      lodC7.mesh_map ⟨5, 0, 0⟩ =
        some ⟨MeshState.MESH_UPDATE_NOT_SENT, false, false, 1, 1⟩) ∧
    (((cancel_mesh_updates_outside_data_box lodC7 Box3i.default).mesh_map ⟨5, 0, 0⟩ =
        some { (⟨MeshState.MESH_UPDATE_NOT_SENT, false, false, 1, 1⟩ : MeshBlockState) with
          state := MeshState.MESH_NEED_UPDATE } ∧
      (⟨5, 0, 0⟩ : V3) ∉
        (cancel_mesh_updates_outside_data_box lodC7
          Box3i.default).mesh_blocks_pending_update) ∧
    ((cancel_mesh_updates_outside_mesh_box lodC7 Box3i.default).mesh_map = lodC7.mesh_map ∧
      (cancel_mesh_updates_outside_mesh_box lodC7 Box3i.default).mesh_blocks_pending_update =
        lodC7.mesh_blocks_pending_update.filter fun q =>
          Box3i.contains_point Box3i.default q)) :=
  ⟨⟨by decide, by decide, by decide⟩,
    claim_C7_cancel_revert lodC7 Box3i.default Box3i.default ⟨5, 0, 0⟩
      ⟨MeshState.MESH_UPDATE_NOT_SENT, false, false, 1, 1⟩ (by decide) (by decide) (by decide)⟩

/-- A block position together with its LOD (`BlockLocation`). -/
structure BlockLocation where
  position : V3
  lod : Nat
deriving DecidableEq, Repr

/-- `add_loading_block`: create the entry with one viewer reference, or add a
reference to the existing entry; returns whether the entry was created (the
caller then emits a load request). -/
def add_loading_block (lod : Lod) (position : V3) : Lod × Bool :=
  match lod.loading_blocks position with
  | none => ({ lod with loading_blocks := mupdate lod.loading_blocks position (some 1) }, true)
  | some n =>
    ({ lod with loading_blocks := mupdate lod.loading_blocks position (some (n + 1)) }, false)

/-- Modelled from the spec: cancelling a load removes the matching entry from
`data_blocks_to_load`; the source swaps it with the last element and pops,
which is reproduced here (the remainder is permuted accordingly). -/
def remove_first_swap (l : List BlockLocation) (bloc : BlockLocation) : List BlockLocation :=
  match l.findIdx? (fun b => b = bloc) with
  | none => l
  | some i => (l.set i (l.getLast?.getD bloc)).dropLast

/-- The unview loop over the missing blocks reported by `unview_area`
(`process_data_blocks_sliding_box`, unload phase): decrement the loading
block's viewer refcount; erase the entry and cancel the queued load when it
reaches zero.  When a block is not found in `loading_blocks`, the source logs
and executes `return`, which aborts the whole differ: the Boolean result is
`true` exactly in that case, and the remaining missing blocks are left
unprocessed. -/
def unview_missing_blocks (lod_index : Nat) :
    List V3 → Lod → List BlockLocation → Bool × Lod × List BlockLocation
  | [], lod, data_blocks_to_load => (false, lod, data_blocks_to_load)
  | bpos :: rest, lod, data_blocks_to_load =>
    match lod.loading_blocks bpos with
    | none => (true, lod, data_blocks_to_load)
    | some n =>
      let n1 := n - 1
      if n1 = 0 then
        unview_missing_blocks lod_index rest
          { lod with loading_blocks := mupdate lod.loading_blocks bpos none }
          (remove_first_swap data_blocks_to_load ⟨bpos, lod_index⟩)
      else
        unview_missing_blocks lod_index rest
          { lod with loading_blocks := mupdate lod.loading_blocks bpos (some n1) }
          data_blocks_to_load

/-- A per-LOD state whose loading map holds only `(0,0,0)` with one viewer
reference. -/
def lodC8 : Lod :=
  { Lod.empty with
    loading_blocks := fun p => if p = ⟨0, 0, 0⟩ then some 1 else none }

/-- C8 (code bug).  Unviewing the batch `[(9,9,9), (0,0,0)]` at LOD 0, where
`(9,9,9)` was never requested but `(0,0,0)` is in `loading_blocks` with
refcount 1: the source executes `return` on the unknown cell, aborting the
whole differ, so the remaining cell `(0,0,0)` keeps its refcount, stays in
`loading_blocks`, and its queued load is not cancelled — the claim requires
processing to continue and `(0,0,0)` to be decremented, erased and removed
from the load queue. -/
theorem claim_C8_unview_early_return :
    (unview_missing_blocks 0 [⟨9, 9, 9⟩, ⟨0, 0, 0⟩] lodC8 [⟨⟨0, 0, 0⟩, 0⟩]).1 = true ∧
    (unview_missing_blocks 0 [⟨9, 9, 9⟩, ⟨0, 0, 0⟩] lodC8
        [⟨⟨0, 0, 0⟩, 0⟩]).2.1.loading_blocks ⟨0, 0, 0⟩ = some 1 ∧
    (unview_missing_blocks 0 [⟨9, 9, 9⟩, ⟨0, 0, 0⟩] lodC8 [⟨⟨0, 0, 0⟩, 0⟩]).2.2 =
      [⟨⟨0, 0, 0⟩, 0⟩] ∧
    (unview_missing_blocks 0 [⟨0, 0, 0⟩] lodC8 [⟨⟨0, 0, 0⟩, 0⟩]).2.1.loading_blocks
        ⟨0, 0, 0⟩ = none ∧
    (unview_missing_blocks 0 [⟨0, 0, 0⟩] lodC8 [⟨⟨0, 0, 0⟩, 0⟩]).2.2 = [] := by
  decide

/-- Inputs of `GenerateDistanceNormalMapGPUTask::prepare`: input sizes, the
modifier shader's presence and validity, and the dispatch-shaping parameters. -/
structure GpuPrepareInputs where
  mesh_vertices_count : Nat
  mesh_indices_count : Nat
  cell_triangles_count : Nat
  tile_count : Nat
  shader_present : Bool
  shader_valid : Bool
  tile_size_pixels : Int
  texture_width : Int
  texture_height : Int
deriving DecidableEq, Repr

/-- Modelled from the spec: the rendering device's behaviour during one
`prepare` call — whether each resource allocation (texture, buffer, pipeline)
returns a valid handle, and whether the shared shaders' handles are valid. -/
structure GpuPrepareEnv where
  texture0_ok : Bool
  texture1_ok : Bool
  mesh_vertices_buffer_ok : Bool
  mesh_indices_buffer_ok : Bool
  cell_triangles_buffer_ok : Bool
  tile_data_buffer_ok : Bool
  gather_hits_params_buffer_ok : Bool
  hit_positions_buffer_ok : Bool
  modifier_params_buffer_ok : Bool
  sd_buffer0_ok : Bool
  sd_buffer1_ok : Bool
  normalmap_params_buffer_ok : Bool
  dilation_params_buffer_ok : Bool
  gather_hits_shader_ok : Bool
  gather_hits_pipeline_ok : Bool
  detail_modifier_pipeline_ok : Bool
  detail_normalmap_shader_ok : Bool
  detail_normalmap_pipeline_ok : Bool
  dilation_shader_ok : Bool
  dilation_pipeline_ok : Bool
deriving DecidableEq, Repr

/-- Observable outcome of `prepare`: whether the compute list was begun and
which dispatches were recorded on it. -/
structure GpuPrepareResult where
  compute_list_begun : Bool
  dispatches : List (Int × Int × Int)
deriving DecidableEq, Repr

/-- Outcome of an early return (`ERR_FAIL_COND`): no compute list, no
dispatch. -/
def gpuPrepareAborted : GpuPrepareResult := ⟨false, []⟩

/-- `GenerateDistanceNormalMapGPUTask::prepare`, with the source's checks in
order.  The `ERR_FAIL_COND` guards cover the two textures, the first five
storage buffers, the dilation uniform buffer, the shared shader handles and
the four pipelines; the hit-positions, modifier-params, both SD and the
normalmap-params buffer allocations have no null check in the source, and the
number of tiles is never checked (the `cell_triangles` input is).  All checks
precede `compute_list_begin`, after which the five dispatches are recorded. -/
def generate_distance_normalmap_gpu_task_prepare (inp : GpuPrepareInputs)
    (env : GpuPrepareEnv) : GpuPrepareResult :=
  if inp.mesh_vertices_count = 0 then gpuPrepareAborted
  else if inp.mesh_indices_count = 0 then gpuPrepareAborted
  else if inp.cell_triangles_count = 0 then gpuPrepareAborted
  else if inp.shader_present = false then gpuPrepareAborted
  else if inp.shader_valid = false then gpuPrepareAborted
  else if env.texture0_ok = false then gpuPrepareAborted
  else if env.texture1_ok = false then gpuPrepareAborted
  else if env.mesh_vertices_buffer_ok = false then gpuPrepareAborted
  else if env.mesh_indices_buffer_ok = false then gpuPrepareAborted
  else if env.cell_triangles_buffer_ok = false then gpuPrepareAborted
  else if env.tile_data_buffer_ok = false then gpuPrepareAborted
  else if env.gather_hits_params_buffer_ok = false then gpuPrepareAborted
  else if env.dilation_params_buffer_ok = false then gpuPrepareAborted
  else if env.gather_hits_shader_ok = false then gpuPrepareAborted
  else if env.gather_hits_pipeline_ok = false then gpuPrepareAborted
  else if env.detail_modifier_pipeline_ok = false then gpuPrepareAborted
  else if env.detail_normalmap_shader_ok = false then gpuPrepareAborted
  else if env.detail_normalmap_pipeline_ok = false then gpuPrepareAborted
  else if env.dilation_shader_ok = false then gpuPrepareAborted
  else if env.dilation_pipeline_ok = false then gpuPrepareAborted
  else
    { compute_list_begun := true,
      dispatches :=
        [(ceildiv inp.tile_size_pixels 4, ceildiv inp.tile_size_pixels 4,
            ceildiv (inp.tile_count : Int) 4),
          (ceildiv inp.tile_size_pixels 4, ceildiv inp.tile_size_pixels 4,
            ceildiv (inp.tile_count : Int) 4),
          (ceildiv inp.tile_size_pixels 4, ceildiv inp.tile_size_pixels 4,
            ceildiv (inp.tile_count : Int) 4),
          (ceildiv inp.texture_width 8, ceildiv inp.texture_height 8, 1),
          (ceildiv inp.texture_width 8, ceildiv inp.texture_height 8, 1)] }

/-- Counterexample for C9 as stated: with valid shaders and non-empty
vertex/index/cell-triangle inputs, `prepare` begins the compute list and
records all five dispatches even though the hit-positions buffer allocation
returned a null handle and the tile input is empty. -/
theorem claim_C9_counterexample :
    (generate_distance_normalmap_gpu_task_prepare
        ⟨3, 9, 5, 0, true, true, 16, 64, 64⟩
        ⟨true, true, true, true, true, true, true, false, false, false, false, false, true,
          true, true, true, true, true, true, true⟩).compute_list_begun = true ∧
    (generate_distance_normalmap_gpu_task_prepare
        ⟨3, 9, 5, 0, true, true, 16, 64, 64⟩
        ⟨true, true, true, true, true, true, true, false, false, false, false, false, true,
          true, true, true, true, true, true, true⟩).dispatches =
      [(4, 4, 0), (4, 4, 0), (4, 4, 0), (8, 8, 1), (8, 8, 1)] := by
  decide

/-- C9 (amended).  `prepare` aborts without beginning the compute list (no
dispatch is recorded) when the modifier compute shader is null or invalid,
when the mesh vertex, mesh index or cell-triangles input is empty, or when any
of the checked allocations — the two textures, the mesh-vertex, mesh-index,
cell-triangles, tile-data and gather-hits-params storage buffers, the dilation
uniform buffer, the shared shader handles and the four pipelines — returns a
null handle.  An empty tile input is not checked, and the hit-positions,
modifier-params, SD and normalmap-params buffer allocations are not checked
(see the counterexample). -/
theorem claim_C9_prepare_aborts (inp : GpuPrepareInputs) (env : GpuPrepareEnv)
    (h : inp.mesh_vertices_count = 0 ∨ inp.mesh_indices_count = 0 ∨
      inp.cell_triangles_count = 0 ∨ inp.shader_present = false ∨
      inp.shader_valid = false ∨ env.texture0_ok = false ∨ env.texture1_ok = false ∨
      env.mesh_vertices_buffer_ok = false ∨ env.mesh_indices_buffer_ok = false ∨
      env.cell_triangles_buffer_ok = false ∨ env.tile_data_buffer_ok = false ∨
      env.gather_hits_params_buffer_ok = false ∨ env.dilation_params_buffer_ok = false ∨
      env.gather_hits_shader_ok = false ∨ env.gather_hits_pipeline_ok = false ∨
      env.detail_modifier_pipeline_ok = false ∨ env.detail_normalmap_shader_ok = false ∨
      env.detail_normalmap_pipeline_ok = false ∨ env.dilation_shader_ok = false ∨
      env.dilation_pipeline_ok = false) :
    (generate_distance_normalmap_gpu_task_prepare inp env).compute_list_begun = false ∧
    (generate_distance_normalmap_gpu_task_prepare inp env).dispatches = [] := by
  unfold generate_distance_normalmap_gpu_task_prepare
  rcases h with h | h | h | h | h | h | h | h | h | h | h | h | h | h | h | h | h | h | h | h <;>
    simp [h, gpuPrepareAborted]

/-- Witness for C9 (amended): a null gather-hits pipeline aborts `prepare`. -/
theorem claim_C9_prepare_aborts_witness :
    ((3 : Nat) = 0 ∨ (9 : Nat) = 0 ∨ (5 : Nat) = 0 ∨ true = false ∨ true = false ∨
      true = false ∨ true = false ∨ true = false ∨ true = false ∨ true = false ∨
      true = false ∨ true = false ∨ true = false ∨ true = false ∨ false = false ∨
      true = false ∨ true = false ∨ true = false ∨ true = false ∨ true = false) ∧
    ((generate_distance_normalmap_gpu_task_prepare ⟨3, 9, 5, 4, true, true, 16, 64, 64⟩
        ⟨true, true, true, true, true, true, true, true, true, true, true, true, true,
          true, false, true, true, true, true, true⟩).compute_list_begun = false ∧
      (generate_distance_normalmap_gpu_task_prepare ⟨3, 9, 5, 4, true, true, 16, 64, 64⟩
        ⟨true, true, true, true, true, true, true, true, true, true, true, true, true,
          true, false, true, true, true, true, true⟩).dispatches = []) :=
  ⟨by decide,
    claim_C9_prepare_aborts ⟨3, 9, 5, 4, true, true, 16, 64, 64⟩
      ⟨true, true, true, true, true, true, true, true, true, true, true, true, true,
        true, false, true, true, true, true, true⟩ (by decide)⟩

/-- Modelled from the spec: `Box3i::difference` decomposes `a \ b` into up to
six axis-aligned sub-boxes (canonical 3D box difference), peeling slabs off
each face in turn; when the boxes do not overlap, `a` itself is emitted. -/
def Box3i.difference (a b : Box3i) : List Box3i :=
  if a.intersects b = true then
    let aMinX := a.pos.x
    let aMinY := a.pos.y
    let aMinZ := a.pos.z
    let aMaxX := a.pos.x + a.size.x
    let aMaxY := a.pos.y + a.size.y
    let aMaxZ := a.pos.z + a.size.z
    let bMinX := b.pos.x
    let bMinY := b.pos.y
    let bMinZ := b.pos.z
    let bMaxX := b.pos.x + b.size.x
    let bMaxY := b.pos.y + b.size.y
    let bMaxZ := b.pos.z + b.size.z
    let l1 := if aMinX < bMinX then
      [Box3i.mk ⟨aMinX, aMinY, aMinZ⟩ ⟨bMinX - aMinX, aMaxY - aMinY, aMaxZ - aMinZ⟩] else []
    let mX := max aMinX bMinX
    let l2 := if aMinY < bMinY then
      [Box3i.mk ⟨mX, aMinY, aMinZ⟩ ⟨aMaxX - mX, bMinY - aMinY, aMaxZ - aMinZ⟩] else []
    let mY := max aMinY bMinY
    let l3 := if aMinZ < bMinZ then
      [Box3i.mk ⟨mX, mY, aMinZ⟩ ⟨aMaxX - mX, aMaxY - mY, bMinZ - aMinZ⟩] else []
    let mZ := max aMinZ bMinZ
    let l4 := if bMaxX < aMaxX then
      [Box3i.mk ⟨bMaxX, mY, mZ⟩ ⟨aMaxX - bMaxX, aMaxY - mY, aMaxZ - mZ⟩] else []
    let nX := min aMaxX bMaxX
    let l5 := if bMaxY < aMaxY then
      [Box3i.mk ⟨mX, bMaxY, mZ⟩ ⟨nX - mX, aMaxY - bMaxY, aMaxZ - mZ⟩] else []
    let nY := min aMaxY bMaxY
    let l6 := if bMaxZ < aMaxZ then
      [Box3i.mk ⟨mX, mY, bMaxZ⟩ ⟨nX - mX, nY - mY, aMaxZ - bMaxZ⟩] else []
    l1 ++ l2 ++ l3 ++ l4 ++ l5 ++ l6
  else [a]

/-- All cells of the set difference `a \ b`, in sub-box order. -/
def Box3i.difference_cells (a b : Box3i) : List V3 :=
  (a.difference b).flatMap Box3i.cells

theorem mem_flatMap_cells_ite {c : Prop} [Decidable c] {u : Box3i} {p : V3} :
    (p ∈ (if c then [u] else []).flatMap Box3i.cells) ↔ (c ∧ p ∈ u.cells) := by
  by_cases h : c <;> simp [h]

theorem Box3i.mem_difference_cells {a b : Box3i} {p : V3} :
    p ∈ a.difference_cells b ↔
      (a.contains_point p = true ∧ ¬ b.contains_point p = true) := by
  unfold Box3i.difference_cells Box3i.difference
  by_cases hi : a.intersects b = true
  · rw [if_pos hi]
    unfold Box3i.intersects at hi
    simp only [Bool.and_eq_true, decide_eq_true_eq] at hi
    simp only [List.flatMap_append, List.mem_append, mem_flatMap_cells_ite,
      Box3i.mem_cells, Box3i.contains_point, Bool.and_eq_true, decide_eq_true_eq,
      V3.mk_x, V3.mk_y, V3.mk_z]
    constructor
    · intro h
      rcases h with (((((⟨hc, h⟩ | ⟨hc, h⟩) | ⟨hc, h⟩) | ⟨hc, h⟩) | ⟨hc, h⟩) | ⟨hc, h⟩) <;>
        omega
    · intro h
      by_cases c1 : p.x < b.pos.x
      · left; left; left; left; left
        refine ⟨by omega, by omega⟩
      by_cases c2 : p.y < b.pos.y
      · left; left; left; left; right
        refine ⟨by omega, by omega⟩
      by_cases c3 : p.z < b.pos.z
      · left; left; left; right
        refine ⟨by omega, by omega⟩
      by_cases c4 : b.pos.x + b.size.x ≤ p.x
      · left; left; right
        refine ⟨by omega, by omega⟩
      by_cases c5 : b.pos.y + b.size.y ≤ p.y
      · left; right
        refine ⟨by omega, by omega⟩
      · right
        refine ⟨by omega, by omega⟩
  · rw [if_neg hi]
    unfold Box3i.intersects at hi
    simp only [Bool.and_eq_true, decide_eq_true_eq, not_and_or] at hi
    simp only [List.flatMap_cons, List.flatMap_nil, List.append_nil, List.mem_append,
      Box3i.mem_cells, Box3i.contains_point, Bool.and_eq_true, decide_eq_true_eq]
    constructor
    · intro h
      refine ⟨h, ?_⟩
      intro hb
      rcases hi with h1 | h1 | h1 <;> omega
    · intro h
      exact h.1

theorem mem_ite_singleton_box {c : Prop} [Decidable c] {u x : Box3i}
    (h : x ∈ (if c then [u] else [])) : c ∧ x = u := by
  by_cases hc : c
  · rw [if_pos hc] at h
    exact ⟨hc, List.mem_singleton.1 h⟩
  · rw [if_neg hc] at h
    cases h

theorem pairwise_ite_singleton {R : Box3i → Box3i → Prop} {c : Prop} [Decidable c]
    {u : Box3i} : List.Pairwise R (if c then [u] else []) := by
  by_cases h : c <;> simp [h]

theorem nodup_flatMap_cells_of_disjoint (L : List Box3i)
    (h : L.Pairwise (fun u v => ∀ p, p ∈ u.cells → p ∉ v.cells)) :
    (L.flatMap Box3i.cells).Nodup := by
  refine List.nodup_flatMap.2 ⟨fun bx _ => Box3i.cells_nodup bx, ?_⟩
  exact h.imp fun {u v} huv => List.disjoint_left.2 fun {p} hp hq => huv p hp hq

theorem Box3i.difference_cells_nodup (a b : Box3i)
    (hb : 0 ≤ b.size.x ∧ 0 ≤ b.size.y ∧ 0 ≤ b.size.z) :
    (a.difference_cells b).Nodup := by
  obtain ⟨hbx, hby, hbz⟩ := hb
  unfold Box3i.difference_cells Box3i.difference
  by_cases hi : a.intersects b = true
  · rw [if_pos hi]
    refine nodup_flatMap_cells_of_disjoint _ ?_
    refine List.pairwise_append.2
      ⟨List.pairwise_append.2
        ⟨List.pairwise_append.2
          ⟨List.pairwise_append.2
            ⟨List.pairwise_append.2
              ⟨pairwise_ite_singleton, pairwise_ite_singleton, ?_⟩,
              pairwise_ite_singleton, ?_⟩,
            pairwise_ite_singleton, ?_⟩,
          pairwise_ite_singleton, ?_⟩,
        pairwise_ite_singleton, ?_⟩
    · intro x hx y hy
      obtain ⟨cy, rfl⟩ := mem_ite_singleton_box hy
      all_goals
        obtain ⟨cj, rfl⟩ := mem_ite_singleton_box hx
        intro p hp1 hp2
        rw [Box3i.mem_cells] at hp1 hp2
        revert hp1 hp2
        simp only [Box3i.contains_point, Bool.and_eq_true, decide_eq_true_eq,
          V3.mk_x, V3.mk_y, V3.mk_z]
        omega
    · intro x hx y hy
      obtain ⟨cy, rfl⟩ := mem_ite_singleton_box hy
      simp only [List.mem_append] at hx
      rcases hx with (hx | hx)
      all_goals
        obtain ⟨cj, rfl⟩ := mem_ite_singleton_box hx
        intro p hp1 hp2
        rw [Box3i.mem_cells] at hp1 hp2
        revert hp1 hp2
        simp only [Box3i.contains_point, Bool.and_eq_true, decide_eq_true_eq,
          V3.mk_x, V3.mk_y, V3.mk_z]
        omega
    · intro x hx y hy
      obtain ⟨cy, rfl⟩ := mem_ite_singleton_box hy
      simp only [List.mem_append] at hx
      rcases hx with ((hx | hx) | hx)
      all_goals
        obtain ⟨cj, rfl⟩ := mem_ite_singleton_box hx
        intro p hp1 hp2
        rw [Box3i.mem_cells] at hp1 hp2
        revert hp1 hp2
        simp only [Box3i.contains_point, Bool.and_eq_true, decide_eq_true_eq,
          V3.mk_x, V3.mk_y, V3.mk_z]
        omega
    · intro x hx y hy
      obtain ⟨cy, rfl⟩ := mem_ite_singleton_box hy
      simp only [List.mem_append] at hx
      rcases hx with (((hx | hx) | hx) | hx)
      all_goals
        obtain ⟨cj, rfl⟩ := mem_ite_singleton_box hx
        intro p hp1 hp2
        rw [Box3i.mem_cells] at hp1 hp2
        revert hp1 hp2
        simp only [Box3i.contains_point, Bool.and_eq_true, decide_eq_true_eq,
          V3.mk_x, V3.mk_y, V3.mk_z]
        omega
    · intro x hx y hy
      obtain ⟨cy, rfl⟩ := mem_ite_singleton_box hy
      simp only [List.mem_append] at hx
      rcases hx with ((((hx | hx) | hx) | hx) | hx)
      all_goals
        obtain ⟨cj, rfl⟩ := mem_ite_singleton_box hx
        intro p hp1 hp2
        rw [Box3i.mem_cells] at hp1 hp2
        revert hp1 hp2
        simp only [Box3i.contains_point, Bool.and_eq_true, decide_eq_true_eq,
          V3.mk_x, V3.mk_y, V3.mk_z]
        omega
  · rw [if_neg hi]
    simp only [List.flatMap_cons, List.flatMap_nil, List.append_nil]
    exact Box3i.cells_nodup a

/-- An engine-side viewer as seen by the pairing code.  The volume transform
is the identity, so the world position (integer voxels) is the local
position. -/
structure Viewer where
  id : Nat
  world_position : V3
  view_distance : Int
  require_visuals : Bool
  require_collisions : Bool

/-- Membership of a viewer id in the engine's viewer list (`contains`). -/
def viewers_contains (viewers : List Viewer) (id : Nat) : Bool :=
  viewers.any fun v => v.id = id

/-- Handling of a destroyed viewer in `process_viewers`: nullify the view
distance, copy state to previous state, then zero the boxes so the differ
emits full unloads. -/
def zero_viewer_boxes (pv : PairedViewer) : PairedViewer :=
  let st := { pv.state with view_distance_voxels := 0 }
  let pv := { pv with state := st, prev_state := st }
  { pv with
    state :=
      { pv.state with
        data_box_per_lod := fun _ => Box3i.default,
        mesh_box_per_lod := fun _ => Box3i.default } }

/-- First pass of `process_viewers`: detect destroyed viewers, zero their
boxes and record their indexes (ascending). -/
def process_destroyed_viewers (paired : List PairedViewer) (viewers : List Viewer) :
    List PairedViewer × List Nat :=
  (paired.map fun pv =>
      if viewers_contains viewers pv.id then pv else zero_viewer_boxes pv,
    (List.range paired.length).filter fun i =>
      match paired.get? i with
      | some pv => !(viewers_contains viewers pv.id)
      | none => false)

/-- The planned box state of one viewer for this tick (`process_viewers` loop
body): clamp the view distance, then build mesh and data boxes per LOD —
derived from mesh boxes when meshes or collisions are required, directly from
the base box otherwise. -/
def plan_viewer_state (cfg : PlanCfg) (can_mesh : Bool) (viewer : Viewer) : ViewerBoxState :=
  let vd := cfg.clamped_view_distance viewer.view_distance
  let pos := viewer.world_position
  let requires_meshes := viewer.require_visuals && can_mesh
  let requires_collisions := viewer.require_collisions
  if requires_collisions || requires_meshes then
    { view_distance_voxels := vd,
      local_position_voxels := pos,
      requires_collisions := requires_collisions,
      requires_meshes := requires_meshes,
      data_box_per_lod := fun l => data_box_per_lod cfg pos vd l,
      mesh_box_per_lod := fun l => mesh_box_per_lod cfg pos vd l }
  else
    { view_distance_voxels := vd,
      local_position_voxels := pos,
      requires_collisions := requires_collisions,
      requires_meshes := requires_meshes,
      data_box_per_lod := fun l => data_box_per_lod_nomesh cfg l pos,
      mesh_box_per_lod := fun _ => Box3i.default }

/-- Move the current state to the previous state and store the newly planned
state. -/
def update_paired_viewer (cfg : PlanCfg) (can_mesh : Bool) (pv : PairedViewer)
    (viewer : Viewer) : PairedViewer :=
  { pv with prev_state := pv.state, state := plan_viewer_state cfg can_mesh viewer }

/-- A freshly paired viewer before its first planning. -/
def default_paired_viewer (id : Nat) : PairedViewer :=
  ⟨id, ViewerBoxState.initial, ViewerBoxState.initial⟩

/-- Update the paired entry with the matching id in place, if any. -/
def pair_update (cfg : PlanCfg) (can_mesh : Bool) (viewer : Viewer) :
    List PairedViewer → Option (List PairedViewer)
  | [] => none
  | pv :: rest =>
    if pv.id = viewer.id then some (update_paired_viewer cfg can_mesh pv viewer :: rest)
    else (pair_update cfg can_mesh viewer rest).map (pv :: ·)

/-- Second pass of `process_viewers` for one listed viewer: update its paired
entry, pairing it first when new. -/
def pair_viewers_step (cfg : PlanCfg) (can_mesh : Bool) (paired : List PairedViewer)
    (viewer : Viewer) : List PairedViewer :=
  match pair_update cfg can_mesh viewer paired with
  | some paired1 => paired1
  | none => paired ++ [update_paired_viewer cfg can_mesh (default_paired_viewer viewer.id) viewer]

/-- `process_viewers`: zero destroyed viewers (recording their indexes for the
later removal pass), then plan boxes for every listed viewer. -/
def process_viewers (cfg : PlanCfg) (can_mesh : Bool) (paired : List PairedViewer)
    (viewers : List Viewer) : List PairedViewer × List Nat :=
  let r := process_destroyed_viewers paired viewers
  (viewers.foldl (pair_viewers_step cfg can_mesh) r.1, r.2)

/-- One swap-remove of `remove_unpaired_viewers`: overwrite the entry with the
last element and pop the back. -/
def remove_one_unpaired (l : List PairedViewer) (vi : Nat) : List PairedViewer :=
  match l.getLast? with
  | none => l
  | some last => (l.set vi last).dropLast

/-- `remove_unpaired_viewers`: remove the recorded indexes, iterating
backwards so earlier indexes stay valid. -/
def remove_unpaired_viewers (unpaired_viewers_to_remove : List Nat)
    (paired_viewers : List PairedViewer) : List PairedViewer :=
  unpaired_viewers_to_remove.reverse.foldl remove_one_unpaired paired_viewers

/-- Load-phase step of the data differ for one missing (entering) cell: count
a viewer on the loading block and queue a load request when newly created. -/
def data_load_step (lod_index : Nat) (acc : Lod × List BlockLocation) (bpos : V3) :
    Lod × List BlockLocation :=
  let r := add_loading_block acc.1 bpos
  (r.1, if r.2 then acc.2 ++ [BlockLocation.mk bpos lod_index] else acc.2)

/-- Per-LOD body of `process_data_blocks_sliding_box` for one paired viewer.
The data grid is modelled empty (no load completes during the round-trip
scenario), so `view_area` reports every entering cell missing and
`unview_area` reports every leaving cell missing and finds none to save.  The
Boolean is true when the unview loop executed the source's `return`, aborting
the whole differ. -/
def process_data_lod (cfg : PlanCfg) (can_load : Bool) (pv : PairedViewer)
    (lod_index : Nat) (state : StreamState) (data_blocks_to_load : List BlockLocation) :
    Bool × StreamState × List BlockLocation :=
  let lod := state.lods lod_index
  let new_data_box := pv.state.data_box_per_lod lod_index
  let prev_data_box := pv.prev_state.data_box_per_lod lod_index
  let r :=
    if prev_data_box ≠ new_data_box then
      let ra :=
        if can_load then
          (new_data_box.difference_cells prev_data_box).foldl (data_load_step lod_index)
            (lod, data_blocks_to_load)
        else (lod, data_blocks_to_load)
      unview_missing_blocks lod_index (prev_data_box.difference_cells new_data_box) ra.1 ra.2
    else (false, lod, data_blocks_to_load)
  if r.1 then (true, state.setLod lod_index r.2.1, r.2.2)
  else
    let padded_new_box := new_data_box.padded (-1)
    let mesh_box :=
      if cfg.data_block_size < cfg.mesh_block_size then
        padded_new_box.downscaled_inner cfg.mesh_to_data_factor
      else padded_new_box
    (false,
      state.setLod lod_index (cancel_mesh_updates_outside_data_box r.2.1 mesh_box),
      r.2.2)

/-- The per-viewer LOD loop of the data differ, from the highest LOD down, with
the early break when neither box intersects the bounds and the abort
propagation of the source's `return`.  The counter is the number of LODs still
to process; the current LOD index is `k` when the counter is `k + 1`. -/
def process_data_lods (cfg : PlanCfg) (can_load : Bool) (pv : PairedViewer) :
    Nat → StreamState × List BlockLocation → Bool × StreamState × List BlockLocation
  | 0, acc => (false, acc.1, acc.2)
  | k + 1, acc =>
    let new_data_box := pv.state.data_box_per_lod k
    let prev_data_box := pv.prev_state.data_box_per_lod k
    let bounds := cfg.volume_bounds_in_data_blocks k
    if ¬ new_data_box.intersects bounds = true ∧ ¬ prev_data_box.intersects bounds = true then
      (false, acc.1, acc.2)
    else
      let r := process_data_lod cfg can_load pv k acc.1 acc.2
      if r.1 then r
      else process_data_lods cfg can_load pv k (r.2.1, r.2.2)

/-- `process_data_blocks_sliding_box`: run the LOD loop for every paired
viewer; an abort (the source's `return`) skips everything that remains. -/
def process_data_blocks_sliding_box (cfg : PlanCfg) (can_load : Bool)
    (state : StreamState) : StreamState × List BlockLocation :=
  let r := state.paired_viewers.foldl
    (fun (acc : Bool × StreamState × List BlockLocation) pv =>
      if acc.1 then acc
      else process_data_lods cfg can_load pv cfg.lod_count (acc.2.1, acc.2.2))
    (false, state, [])
  (r.2.1, r.2.2)

/-- Per-LOD body of `process_mesh_blocks_sliding_box` for one paired viewer:
reference entering cells, unreference leaving cells (re-activating parents),
then cancel pending updates outside the new mesh box. -/
def process_mesh_lod (lod_count : Nat) (is_full_load_mode can_load : Bool)
    (pv : PairedViewer) (lod_index : Nat) (state : StreamState) : StreamState :=
  let new_mesh_box := pv.state.mesh_box_per_lod lod_index
  let prev_mesh_box := pv.prev_state.mesh_box_per_lod lod_index
  let state1 :=
    if prev_mesh_box ≠ new_mesh_box then
      let state_a :=
        if can_load then
          let lod := state.lods lod_index
          state.setLod lod_index
            ((new_mesh_box.difference_cells prev_mesh_box).foldl
              (mesh_view_cell is_full_load_mode) lod)
        else state
      (prev_mesh_box.difference new_mesh_box).foldl
        (fun st box => mesh_unload_box st lod_index lod_count box) state_a
    else state
  state1.setLod lod_index
    (cancel_mesh_updates_outside_mesh_box (state1.lods lod_index)
      (pv.state.mesh_box_per_lod lod_index))

/-- The per-viewer LOD loop of the mesh differ, from the highest LOD down,
with the early break when neither box intersects the bounds. -/
def process_mesh_lods (cfg : PlanCfg) (lod_count : Nat) (is_full_load_mode can_load : Bool)
    (pv : PairedViewer) : Nat → StreamState → StreamState
  | 0, state => state
  | k + 1, state =>
    let new_mesh_box := pv.state.mesh_box_per_lod k
    let prev_mesh_box := pv.prev_state.mesh_box_per_lod k
    let bounds := cfg.volume_bounds_in_mesh_blocks k
    if ¬ new_mesh_box.intersects bounds = true ∧ ¬ prev_mesh_box.intersects bounds = true then
      state
    else
      process_mesh_lods cfg lod_count is_full_load_mode can_load pv k
        (process_mesh_lod lod_count is_full_load_mode can_load pv k state)

/-- `process_mesh_blocks_sliding_box`: run the LOD loop for every paired
viewer. -/
def process_mesh_blocks_sliding_box (cfg : PlanCfg) (is_full_load_mode can_load : Bool)
    (state : StreamState) : StreamState :=
  state.paired_viewers.foldl
    (fun st pv => process_mesh_lods cfg cfg.lod_count is_full_load_mode can_load pv
      cfg.lod_count st)
    state

/-- One streaming update (`process_clipbox_streaming`) with streaming enabled:
pair and plan viewers, diff data boxes, diff mesh boxes, then remove unpaired
viewers.  The loaded-data and loaded-mesh inboxes are empty in the round-trip
scenario (no load completes), so the two trailing passes are no-ops and are
omitted. -/
def process_clipbox_streaming (cfg : PlanCfg) (viewers : List Viewer)
    (can_load can_mesh : Bool) (state : StreamState) :
    StreamState × List BlockLocation :=
  let r := process_viewers cfg can_mesh state.paired_viewers viewers
  let state1 := { state with paired_viewers := r.1 }
  let r2 := process_data_blocks_sliding_box cfg can_load state1
  let state2 := process_mesh_blocks_sliding_box cfg false can_load r2.1
  let state3 := { state2 with paired_viewers := remove_unpaired_viewers r.2 state2.paired_viewers }
  (state3, r2.2)

theorem floordiv_char (x : Int) {c : Int} (hc : 0 < c) :
    floordiv x c * c ≤ x ∧ x < floordiv x c * c + c := by
  unfold floordiv
  rw [Int.fdiv_eq_ediv _ (le_of_lt hc)]
  have h1 := Int.ediv_add_emod x c
  have h2 := Int.emod_lt_of_pos x hc
  have h3 := Int.emod_nonneg x (ne_of_gt hc)
  rw [mul_comm] at h1
  omega

theorem floordiv_unique {x c m : Int} (hc : 0 < c) (h1 : m * c ≤ x) (h2 : x < (m + 1) * c) :
    floordiv x c = m := by
  obtain ⟨hl, hr⟩ := floordiv_char x hc
  rw [add_mul, one_mul] at h2
  by_contra hne
  rcases lt_or_gt_of_ne hne with h | h
  · have hm : (floordiv x c + 1) * c ≤ m * c :=
      mul_le_mul_of_nonneg_right (by omega) (le_of_lt hc)
    rw [add_mul, one_mul] at hm
    omega
  · have hm : (m + 1) * c ≤ floordiv x c * c :=
      mul_le_mul_of_nonneg_right (by omega) (le_of_lt hc)
    rw [add_mul, one_mul] at hm
    omega

theorem ceildiv_char (x : Int) {c : Int} (hc : 0 < c) :
    x ≤ ceildiv x c * c ∧ ceildiv x c * c - c < x := by
  obtain ⟨h1, h2⟩ := floordiv_char (-x) hc
  unfold floordiv at h1 h2
  unfold ceildiv
  constructor
  · rw [neg_mul]
    omega
  · rw [neg_mul]
    omega

theorem ceildiv_unique {x c m : Int} (hc : 0 < c) (h1 : x ≤ m * c) (h2 : (m - 1) * c < x) :
    ceildiv x c = m := by
  have h1' : -m * c ≤ -x := by
    rw [neg_mul]
    omega
  have h2' : -x < (-m + 1) * c := by
    have e : (-m + 1) * c = -((m - 1) * c) := by ring
    rw [e]
    omega
  have h := floordiv_unique hc h1' h2'
  unfold floordiv at h
  unfold ceildiv
  rw [h]
  ring

theorem floordiv_mono {a b c : Int} (hc : 0 < c) (h : a ≤ b) :
    floordiv a c ≤ floordiv b c := by
  obtain ⟨ha1, ha2⟩ := floordiv_char a hc
  obtain ⟨hb1, hb2⟩ := floordiv_char b hc
  by_contra hlt
  push_neg at hlt
  have hm : (floordiv b c + 1) * c ≤ floordiv a c * c :=
    mul_le_mul_of_nonneg_right (by omega) (le_of_lt hc)
  rw [add_mul, one_mul] at hm
  omega

theorem ceildiv_mono {a b c : Int} (hc : 0 < c) (h : a ≤ b) :
    ceildiv a c ≤ ceildiv b c := by
  have hm := floordiv_mono hc (neg_le_neg h)
  unfold floordiv at hm
  unfold ceildiv
  omega

theorem floordiv_mul_cancel {m c : Int} (hc : 0 < c) : floordiv (m * c) c = m :=
  floordiv_unique hc (le_refl _) (by rw [add_mul, one_mul]; omega)

theorem ceildiv_mul_cancel {m c : Int} (hc : 0 < c) : ceildiv (m * c) c = m :=
  ceildiv_unique hc (le_refl _) (by rw [sub_mul, one_mul]; omega)

theorem floordiv_floordiv (x : Int) {a b : Int} (ha : 0 < a) (hb : 0 < b) :
    floordiv (floordiv x a) b = floordiv x (a * b) := by
  obtain ⟨hl1, hr1⟩ := floordiv_char x ha
  obtain ⟨hl2, hr2⟩ := floordiv_char (floordiv x a) hb
  refine (floordiv_unique (by positivity) ?_ ?_).symm
  · calc floordiv (floordiv x a) b * (a * b)
        = (floordiv (floordiv x a) b * b) * a := by ring
      _ ≤ floordiv x a * a := mul_le_mul_of_nonneg_right hl2 (le_of_lt ha)
      _ ≤ x := hl1
  · have h6 : (floordiv x a + 1) * a ≤ (floordiv (floordiv x a) b * b + b) * a :=
      mul_le_mul_of_nonneg_right (by omega) (le_of_lt ha)
    calc x < floordiv x a * a + a := hr1
      _ = (floordiv x a + 1) * a := by ring
      _ ≤ (floordiv (floordiv x a) b * b + b) * a := h6
      _ = (floordiv (floordiv x a) b + 1) * (a * b) := by ring

theorem ceildiv_le_two_mul (x : Int) {c : Int} (hc : 0 < c) :
    ceildiv x c ≤ 2 * ceildiv x (2 * c) := by
  have h2c : (0 : Int) < 2 * c := by omega
  obtain ⟨h1, h2⟩ := ceildiv_char x h2c
  obtain ⟨h3, h4⟩ := ceildiv_char x hc
  have e1 : ceildiv x (2 * c) * (2 * c) = 2 * (ceildiv x (2 * c) * c) := by ring
  rw [e1] at h1 h2
  by_contra hlt
  push_neg at hlt
  have hm : (2 * ceildiv x (2 * c) + 1) * c ≤ ceildiv x c * c :=
    mul_le_mul_of_nonneg_right (by omega) (le_of_lt hc)
  have e2 : (2 * ceildiv x (2 * c) + 1) * c = 2 * (ceildiv x (2 * c) * c) + c := by ring
  rw [e2] at hm
  omega

theorem floordiv_exact {x c : Int} (hc : 0 < c) (h : c ∣ x) : floordiv x c * c = x := by
  obtain ⟨t, rfl⟩ := h
  rw [mul_comm c t, floordiv_mul_cancel hc]

theorem ceildiv_eq_floordiv_of_dvd {x c : Int} (hc : 0 < c) (h : c ∣ x) :
    ceildiv x c = floordiv x c := by
  obtain ⟨t, rfl⟩ := h
  rw [mul_comm c t, floordiv_mul_cancel hc, ceildiv_mul_cancel hc]

/-- A box contains a point exactly when the point is between the corners on
every axis. -/
theorem Box3i.contains_point_iff {b : Box3i} {p : V3} :
    b.contains_point p = true ↔
      (b.pos.x ≤ p.x ∧ p.x < b.pos.x + b.size.x) ∧
      (b.pos.y ≤ p.y ∧ p.y < b.pos.y + b.size.y) ∧
      (b.pos.z ≤ p.z ∧ p.z < b.pos.z + b.size.z) := by
  unfold Box3i.contains_point
  simp only [Bool.and_eq_true, decide_eq_true_eq]
  tauto

/-- Two boxes holding a common point intersect. -/
theorem Box3i.intersects_of_point {a b : Box3i} {p : V3}
    (hpa : a.contains_point p = true) (hpb : b.contains_point p = true) :
    a.intersects b = true := by
  rw [Box3i.contains_point_iff] at hpa hpb
  unfold Box3i.intersects
  simp only [Bool.and_eq_true, decide_eq_true_eq]
  omega

/-- Point membership in a clamp-based clip is membership in both boxes. -/
theorem Box3i.mem_clipped_iff {b lim : Box3i} {p : V3} :
    (b.clipped lim).contains_point p = true ↔
      b.contains_point p = true ∧ lim.contains_point p = true := by
  simp only [Box3i.contains_point_iff, Box3i.clipped, V3.add_x, V3.add_y, V3.add_z,
    V3.clampv_x, V3.clampv_y, V3.clampv_z, V3.sub_x, V3.sub_y, V3.sub_z]
  omega

/-- The clamp-based clip never produces a negative size. -/
theorem Box3i.clipped_size_nonneg (b lim : Box3i) :
    0 ≤ (b.clipped lim).size.x ∧ 0 ≤ (b.clipped lim).size.y ∧ 0 ≤ (b.clipped lim).size.z := by
  simp only [Box3i.clipped, V3.add_x, V3.add_y, V3.add_z, V3.clampv_x, V3.clampv_y,
    V3.clampv_z, V3.sub_x, V3.sub_y, V3.sub_z]
  omega

/-- The clipped box's position is clamped into the closed limit region. -/
theorem Box3i.clipped_pos_range (b lim : Box3i)
    (h : lim.pos.x ≤ lim.endp.x ∧ lim.pos.y ≤ lim.endp.y ∧ lim.pos.z ≤ lim.endp.z) :
    (lim.pos.x ≤ (b.clipped lim).pos.x ∧ (b.clipped lim).pos.x ≤ lim.endp.x) ∧
    (lim.pos.y ≤ (b.clipped lim).pos.y ∧ (b.clipped lim).pos.y ≤ lim.endp.y) ∧
    (lim.pos.z ≤ (b.clipped lim).pos.z ∧ (b.clipped lim).pos.z ≤ lim.endp.z) := by
  simp only [Box3i.endp, V3.add_x, V3.add_y, V3.add_z] at h
  simp only [Box3i.clipped, Box3i.endp, V3.add_x, V3.add_y, V3.add_z, V3.clampv_x,
    V3.clampv_y, V3.clampv_z]
  omega

/-- A merge hull contains every point of the right operand. -/
theorem Box3i.mem_merge_right {b o : Box3i} {p : V3} (h : o.contains_point p = true) :
    (b.merge_with o).contains_point p = true := by
  rw [Box3i.contains_point_iff] at h ⊢
  simp only [Box3i.merge_with, V3.add_x, V3.add_y, V3.add_z, V3.minv_x, V3.minv_y, V3.minv_z,
    V3.maxv_x, V3.maxv_y, V3.maxv_z, V3.sub_x, V3.sub_y, V3.sub_z]
  omega

/-- The default box contains no point. -/
theorem Box3i.default_not_contains (p : V3) : Box3i.default.contains_point p = false := by
  rw [show Box3i.default.contains_point p = false ↔
      ¬ Box3i.default.contains_point p = true by simp]
  rw [Box3i.contains_point_iff]
  simp only [Box3i.default]
  omega

theorem dvd_pow_le {a : Int} {m n : Nat} (h : n ≤ m) (hd : (2 : Int) ^ m ∣ a) :
    (2 : Int) ^ n ∣ a :=
  dvd_trans (pow_dvd_pow 2 h) hd

theorem pos_of_mul_eq_pos {d c s : Int} (hc : 0 < c) (h : d * c = s) (hs : 0 < s) : 0 < d := by
  by_contra hd
  push_neg at hd
  have hm := mul_le_mul_of_nonneg_right hd (le_of_lt hc)
  rw [zero_mul] at hm
  omega

/-- With the data block size dividing the mesh block size, the C++ truncating
quotient is the exact power-of-two factor. -/
theorem mesh_to_data_factor_eq (cfg : PlanCfg)
    (hdm : cfg.data_block_size_po2 ≤ cfg.mesh_block_size_po2) :
    cfg.mesh_to_data_factor =
      2 ^ (cfg.mesh_block_size_po2 - cfg.data_block_size_po2) := by
  unfold PlanCfg.mesh_to_data_factor PlanCfg.mesh_block_size PlanCfg.data_block_size
  rw [show (2 : Int) ^ cfg.mesh_block_size_po2 =
      2 ^ (cfg.mesh_block_size_po2 - cfg.data_block_size_po2) *
        2 ^ cfg.data_block_size_po2 by
    rw [← pow_add]
    congr 1
    omega]
  exact Int.mul_tdiv_cancel _ (by positivity)

/-- Scalar core of the aligned-bounds corner arithmetic at one LOD: exact mesh
corners, the data corners as the mesh corners scaled by the factor, and
positive extents. -/
theorem scalar_bounds_facts {p s : Int} (mpo2 dpo2 l lc : Nat)
    (hl : l < lc) (hdm : dpo2 ≤ mpo2)
    (hdp : (2 : Int) ^ (mpo2 + (lc - 1)) ∣ p) (hds : (2 : Int) ^ (mpo2 + (lc - 1)) ∣ s)
    (hs : 0 < s) :
    floordiv p (2 ^ (mpo2 + l)) * 2 ^ (mpo2 + l) = p ∧
    ceildiv (p + s) (2 ^ (mpo2 + l)) * 2 ^ (mpo2 + l) = p + s ∧
    floordiv p (2 ^ (dpo2 + l)) =
      floordiv p (2 ^ (mpo2 + l)) * 2 ^ (mpo2 - dpo2) ∧
    floordiv p (2 ^ (dpo2 + l)) + floordiv s (2 ^ (dpo2 + l)) =
      ceildiv (p + s) (2 ^ (mpo2 + l)) * 2 ^ (mpo2 - dpo2) ∧
    floordiv p (2 ^ (mpo2 + l)) < ceildiv (p + s) (2 ^ (mpo2 + l)) ∧
    0 < floordiv s (2 ^ (dpo2 + l)) := by
  have hCm : (0 : Int) < 2 ^ (mpo2 + l) := by positivity
  have hCd : (0 : Int) < 2 ^ (dpo2 + l) := by positivity
  have hdpm : (2 : Int) ^ (mpo2 + l) ∣ p := dvd_pow_le (by omega) hdp
  have hdsm : (2 : Int) ^ (mpo2 + l) ∣ s := dvd_pow_le (by omega) hds
  have hdpd : (2 : Int) ^ (dpo2 + l) ∣ p := dvd_pow_le (by omega) hdp
  have hdsd : (2 : Int) ^ (dpo2 + l) ∣ s := dvd_pow_le (by omega) hds
  have hFC : (2 : Int) ^ (mpo2 - dpo2) * 2 ^ (dpo2 + l) = 2 ^ (mpo2 + l) := by
    rw [← pow_add]
    congr 1
    omega
  have e1 : floordiv p (2 ^ (mpo2 + l)) * 2 ^ (mpo2 + l) = p := floordiv_exact hCm hdpm
  have e2 : ceildiv (p + s) (2 ^ (mpo2 + l)) * 2 ^ (mpo2 + l) = p + s := by
    rw [ceildiv_eq_floordiv_of_dvd hCm (dvd_add hdpm hdsm)]
    exact floordiv_exact hCm (dvd_add hdpm hdsm)
  have e3 : floordiv p (2 ^ (dpo2 + l)) * 2 ^ (dpo2 + l) = p := floordiv_exact hCd hdpd
  have e4 : floordiv s (2 ^ (dpo2 + l)) * 2 ^ (dpo2 + l) = s := floordiv_exact hCd hdsd
  have hrel1 : floordiv p (2 ^ (dpo2 + l)) =
      floordiv p (2 ^ (mpo2 + l)) * 2 ^ (mpo2 - dpo2) := by
    apply mul_right_cancel₀ (b := (2 : Int) ^ (dpo2 + l)) (ne_of_gt hCd)
    rw [e3, mul_assoc, hFC, e1]
  have hrel2 : floordiv p (2 ^ (dpo2 + l)) + floordiv s (2 ^ (dpo2 + l)) =
      ceildiv (p + s) (2 ^ (mpo2 + l)) * 2 ^ (mpo2 - dpo2) := by
    apply mul_right_cancel₀ (b := (2 : Int) ^ (dpo2 + l)) (ne_of_gt hCd)
    rw [add_mul, e3, e4, mul_assoc, hFC, e2]
  refine ⟨e1, e2, hrel1, hrel2, ?_, ?_⟩
  · have hsub : (ceildiv (p + s) (2 ^ (mpo2 + l)) - floordiv p (2 ^ (mpo2 + l))) *
        2 ^ (mpo2 + l) = s := by
      rw [sub_mul]
      omega
    have := pos_of_mul_eq_pos hCm hsub hs
    omega
  · exact pos_of_mul_eq_pos hCd e4 hs

/-- The corners of `downscaled` are the floor and ceiling of the source
corners. -/
theorem Box3i.downscaled_corners (b : Box3i) (d : Int) :
    (b.downscaled d).pos = b.pos.fdivS d ∧
    (b.downscaled d).endp = (b.pos + b.size).cdivS d :=
  ⟨rfl, V3.add_sub_cancel_v _ _⟩

/-- Aligned-bounds facts at one LOD, expressed on the two per-LOD bounds boxes:
the data bounds corners are the mesh bounds corners scaled by the factor, and
both boxes are non-empty. -/
theorem bounds_facts (cfg : PlanCfg) (l : Nat) (hl : l < cfg.lod_count)
    (hdm : cfg.data_block_size_po2 ≤ cfg.mesh_block_size_po2)
    (halign : cfg.aligned_bounds)
    (hbpos : 0 < cfg.volume_bounds_in_voxels.size.x ∧
      0 < cfg.volume_bounds_in_voxels.size.y ∧ 0 < cfg.volume_bounds_in_voxels.size.z) :
    ((cfg.volume_bounds_in_data_blocks l).pos.x =
        (cfg.volume_bounds_in_mesh_blocks l).pos.x * cfg.mesh_to_data_factor ∧
      (cfg.volume_bounds_in_data_blocks l).pos.y =
        (cfg.volume_bounds_in_mesh_blocks l).pos.y * cfg.mesh_to_data_factor ∧
      (cfg.volume_bounds_in_data_blocks l).pos.z =
        (cfg.volume_bounds_in_mesh_blocks l).pos.z * cfg.mesh_to_data_factor) ∧
    ((cfg.volume_bounds_in_data_blocks l).endp.x =
        (cfg.volume_bounds_in_mesh_blocks l).endp.x * cfg.mesh_to_data_factor ∧
      (cfg.volume_bounds_in_data_blocks l).endp.y =
        (cfg.volume_bounds_in_mesh_blocks l).endp.y * cfg.mesh_to_data_factor ∧
      (cfg.volume_bounds_in_data_blocks l).endp.z =
        (cfg.volume_bounds_in_mesh_blocks l).endp.z * cfg.mesh_to_data_factor) ∧
    ((cfg.volume_bounds_in_mesh_blocks l).pos.x < (cfg.volume_bounds_in_mesh_blocks l).endp.x ∧
      (cfg.volume_bounds_in_mesh_blocks l).pos.y < (cfg.volume_bounds_in_mesh_blocks l).endp.y ∧
      (cfg.volume_bounds_in_mesh_blocks l).pos.z < (cfg.volume_bounds_in_mesh_blocks l).endp.z) ∧
    ((cfg.volume_bounds_in_data_blocks l).pos.x < (cfg.volume_bounds_in_data_blocks l).endp.x ∧
      (cfg.volume_bounds_in_data_blocks l).pos.y < (cfg.volume_bounds_in_data_blocks l).endp.y ∧
      (cfg.volume_bounds_in_data_blocks l).pos.z < (cfg.volume_bounds_in_data_blocks l).endp.z) := by
  obtain ⟨h1, h2, h3, h4, h5, h6⟩ := halign
  have fx := scalar_bounds_facts cfg.mesh_block_size_po2 cfg.data_block_size_po2 l
    cfg.lod_count hl hdm h1 h4 hbpos.1
  have fy := scalar_bounds_facts cfg.mesh_block_size_po2 cfg.data_block_size_po2 l
    cfg.lod_count hl hdm h2 h5 hbpos.2.1
  have fz := scalar_bounds_facts cfg.mesh_block_size_po2 cfg.data_block_size_po2 l
    cfg.lod_count hl hdm h3 h6 hbpos.2.2
  have hmpos : (cfg.volume_bounds_in_mesh_blocks l).pos =
      cfg.volume_bounds_in_voxels.pos.fdivS (2 ^ (cfg.mesh_block_size_po2 + l)) := rfl
  have hmend : (cfg.volume_bounds_in_mesh_blocks l).endp =
      (cfg.volume_bounds_in_voxels.pos + cfg.volume_bounds_in_voxels.size).cdivS
        (2 ^ (cfg.mesh_block_size_po2 + l)) := V3.add_sub_cancel_v _ _
  have hdposx : (cfg.volume_bounds_in_data_blocks l).pos =
      cfg.volume_bounds_in_voxels.pos.fdivS (2 ^ (cfg.data_block_size_po2 + l)) := rfl
  have hdend : (cfg.volume_bounds_in_data_blocks l).endp =
      cfg.volume_bounds_in_voxels.pos.fdivS (2 ^ (cfg.data_block_size_po2 + l)) +
        cfg.volume_bounds_in_voxels.size.fdivS (2 ^ (cfg.data_block_size_po2 + l)) := rfl
  rw [mesh_to_data_factor_eq cfg hdm, hmpos, hmend, hdposx, hdend]
  simp only [V3.add_x, V3.add_y, V3.add_z, V3.fdivS_x, V3.fdivS_y, V3.fdivS_z,
    V3.cdivS_x, V3.cdivS_y, V3.cdivS_z]
  refine ⟨⟨fx.2.2.1, fy.2.2.1, fz.2.2.1⟩, ⟨fx.2.2.2.1, fy.2.2.2.1, fz.2.2.2.1⟩,
    ⟨fx.2.2.2.2.1, fy.2.2.2.2.1, fz.2.2.2.2.1⟩, ?_⟩
  have gx := fx.2.2.1
  have gy := fy.2.2.1
  have gz := fz.2.2.1
  omega

/-- Every planned mesh box is a clip of some box to the per-LOD mesh bounds. -/
theorem mesh_box_per_lod_shape (cfg : PlanCfg) (pos : V3) (vd : Int) (l : Nat) :
    ∃ m, mesh_box_per_lod cfg pos vd l =
      Box3i.clipped m (cfg.volume_bounds_in_mesh_blocks l) := by
  cases l with
  | zero => exact ⟨_, rfl⟩
  | succ n => exact ⟨_, rfl⟩

/-- Points of a planned mesh box lie in the per-LOD mesh bounds. -/
theorem mesh_box_subset_bounds (cfg : PlanCfg) (pos : V3) (vd : Int) (l : Nat) {p : V3}
    (h : (mesh_box_per_lod cfg pos vd l).contains_point p = true) :
    (cfg.volume_bounds_in_mesh_blocks l).contains_point p = true := by
  obtain ⟨m, hm⟩ := mesh_box_per_lod_shape cfg pos vd l
  rw [hm] at h
  exact (Box3i.mem_clipped_iff.mp h).2

/-- Planned mesh boxes have non-negative size. -/
theorem mesh_box_size_nonneg (cfg : PlanCfg) (pos : V3) (vd : Int) (l : Nat) :
    0 ≤ (mesh_box_per_lod cfg pos vd l).size.x ∧
    0 ≤ (mesh_box_per_lod cfg pos vd l).size.y ∧
    0 ≤ (mesh_box_per_lod cfg pos vd l).size.z := by
  obtain ⟨m, hm⟩ := mesh_box_per_lod_shape cfg pos vd l
  rw [hm]
  exact Box3i.clipped_size_nonneg m _

/-- The planned mesh box's position is clamped into the closed mesh-bounds
region. -/
theorem mesh_box_pos_range (cfg : PlanCfg) (pos : V3) (vd : Int) (l : Nat)
    (h : (cfg.volume_bounds_in_mesh_blocks l).pos.x ≤ (cfg.volume_bounds_in_mesh_blocks l).endp.x ∧
      (cfg.volume_bounds_in_mesh_blocks l).pos.y ≤ (cfg.volume_bounds_in_mesh_blocks l).endp.y ∧
      (cfg.volume_bounds_in_mesh_blocks l).pos.z ≤ (cfg.volume_bounds_in_mesh_blocks l).endp.z) :
    ((cfg.volume_bounds_in_mesh_blocks l).pos.x ≤ (mesh_box_per_lod cfg pos vd l).pos.x ∧
      (mesh_box_per_lod cfg pos vd l).pos.x ≤ (cfg.volume_bounds_in_mesh_blocks l).endp.x) ∧
    ((cfg.volume_bounds_in_mesh_blocks l).pos.y ≤ (mesh_box_per_lod cfg pos vd l).pos.y ∧
      (mesh_box_per_lod cfg pos vd l).pos.y ≤ (cfg.volume_bounds_in_mesh_blocks l).endp.y) ∧
    ((cfg.volume_bounds_in_mesh_blocks l).pos.z ≤ (mesh_box_per_lod cfg pos vd l).pos.z ∧
      (mesh_box_per_lod cfg pos vd l).pos.z ≤ (cfg.volume_bounds_in_mesh_blocks l).endp.z) := by
  obtain ⟨m, hm⟩ := mesh_box_per_lod_shape cfg pos vd l
  rw [hm]
  exact Box3i.clipped_pos_range m _ h

/-- Planned data boxes always intersect the per-LOD data bounds: the mesh box
position is clamped into the mesh bounds, and its scaled, padded image always
straddles at least one data-bounds cell (the data bounds are non-empty under a
valid, aligned configuration). -/
theorem data_box_per_lod_intersects (cfg : PlanCfg) (ppos : V3) (vd : Int) (l : Nat)
    (hl : l < cfg.lod_count)
    (hdm : cfg.data_block_size_po2 ≤ cfg.mesh_block_size_po2)
    (halign : cfg.aligned_bounds)
    (hbpos : 0 < cfg.volume_bounds_in_voxels.size.x ∧
      0 < cfg.volume_bounds_in_voxels.size.y ∧ 0 < cfg.volume_bounds_in_voxels.size.z) :
    (data_box_per_lod cfg ppos vd l).intersects (cfg.volume_bounds_in_data_blocks l) = true := by
  obtain ⟨hrel1, hrel2, hbm, hbd⟩ := bounds_facts cfg l hl hdm halign hbpos
  have hrange := mesh_box_pos_range cfg ppos vd l ⟨le_of_lt hbm.1, le_of_lt hbm.2.1,
    le_of_lt hbm.2.2⟩
  have hsz := mesh_box_size_nonneg cfg ppos vd l
  have hF : (0 : Int) < cfg.mesh_to_data_factor := by
    rw [mesh_to_data_factor_eq cfg hdm]
    positivity
  have hA1x := mul_le_mul_of_nonneg_right hrange.1.1 (le_of_lt hF)
  have hA2x := mul_le_mul_of_nonneg_right hrange.1.2 (le_of_lt hF)
  have hA1y := mul_le_mul_of_nonneg_right hrange.2.1.1 (le_of_lt hF)
  have hA2y := mul_le_mul_of_nonneg_right hrange.2.1.2 (le_of_lt hF)
  have hA1z := mul_le_mul_of_nonneg_right hrange.2.2.1 (le_of_lt hF)
  have hA2z := mul_le_mul_of_nonneg_right hrange.2.2.2 (le_of_lt hF)
  have hSx := mul_nonneg hsz.1 (le_of_lt hF)
  have hSy := mul_nonneg hsz.2.1 (le_of_lt hF)
  have hSz := mul_nonneg hsz.2.2 (le_of_lt hF)
  have hex : (cfg.volume_bounds_in_data_blocks l).endp.x =
      (cfg.volume_bounds_in_data_blocks l).pos.x +
        (cfg.volume_bounds_in_data_blocks l).size.x := rfl
  have hey : (cfg.volume_bounds_in_data_blocks l).endp.y =
      (cfg.volume_bounds_in_data_blocks l).pos.y +
        (cfg.volume_bounds_in_data_blocks l).size.y := rfl
  have hez : (cfg.volume_bounds_in_data_blocks l).endp.z =
      (cfg.volume_bounds_in_data_blocks l).pos.z +
        (cfg.volume_bounds_in_data_blocks l).size.z := rfl
  have hcstar :
      (((mesh_box_per_lod cfg ppos vd l).scaled cfg.mesh_to_data_factor).padded
            1).contains_point
            ⟨min (max ((mesh_box_per_lod cfg ppos vd l).pos.x * cfg.mesh_to_data_factor)
                (cfg.volume_bounds_in_data_blocks l).pos.x)
              ((cfg.volume_bounds_in_data_blocks l).endp.x - 1),
              min (max ((mesh_box_per_lod cfg ppos vd l).pos.y * cfg.mesh_to_data_factor)
                (cfg.volume_bounds_in_data_blocks l).pos.y)
              ((cfg.volume_bounds_in_data_blocks l).endp.y - 1),
              min (max ((mesh_box_per_lod cfg ppos vd l).pos.z * cfg.mesh_to_data_factor)
                (cfg.volume_bounds_in_data_blocks l).pos.z)
              ((cfg.volume_bounds_in_data_blocks l).endp.z - 1)⟩ = true := by
    rw [Box3i.contains_point_iff]
    simp only [Box3i.scaled, Box3i.padded, V3.scale_x, V3.scale_y, V3.scale_z,
      V3.sub_x, V3.sub_y, V3.sub_z, V3.add_x, V3.add_y, V3.add_z,
      V3.splat_x, V3.splat_y, V3.splat_z, V3.mk_x, V3.mk_y, V3.mk_z]
    omega
  have hbdstar :
      (cfg.volume_bounds_in_data_blocks l).contains_point
            ⟨min (max ((mesh_box_per_lod cfg ppos vd l).pos.x * cfg.mesh_to_data_factor)
                (cfg.volume_bounds_in_data_blocks l).pos.x)
              ((cfg.volume_bounds_in_data_blocks l).endp.x - 1),
              min (max ((mesh_box_per_lod cfg ppos vd l).pos.y * cfg.mesh_to_data_factor)
                (cfg.volume_bounds_in_data_blocks l).pos.y)
              ((cfg.volume_bounds_in_data_blocks l).endp.y - 1),
              min (max ((mesh_box_per_lod cfg ppos vd l).pos.z * cfg.mesh_to_data_factor)
                (cfg.volume_bounds_in_data_blocks l).pos.z)
              ((cfg.volume_bounds_in_data_blocks l).endp.z - 1)⟩ = true := by
    rw [Box3i.contains_point_iff]
    simp only [V3.mk_x, V3.mk_y, V3.mk_z]
    omega
  have hmem : (data_box_per_lod cfg ppos vd l).contains_point
      ⟨min (max ((mesh_box_per_lod cfg ppos vd l).pos.x * cfg.mesh_to_data_factor)
          (cfg.volume_bounds_in_data_blocks l).pos.x)
        ((cfg.volume_bounds_in_data_blocks l).endp.x - 1),
        min (max ((mesh_box_per_lod cfg ppos vd l).pos.y * cfg.mesh_to_data_factor)
          (cfg.volume_bounds_in_data_blocks l).pos.y)
        ((cfg.volume_bounds_in_data_blocks l).endp.y - 1),
        min (max ((mesh_box_per_lod cfg ppos vd l).pos.z * cfg.mesh_to_data_factor)
          (cfg.volume_bounds_in_data_blocks l).pos.z)
        ((cfg.volume_bounds_in_data_blocks l).endp.z - 1)⟩ = true := by
    unfold data_box_per_lod data_box_from_mesh_box
    rw [Box3i.mem_clipped_iff]
    exact ⟨hcstar, hbdstar⟩
  exact Box3i.intersects_of_point hmem hbdstar

/-- Outward snapping to even coordinates keeps every point. -/
theorem Box3i.mem_snap2 {b : Box3i} {p : V3} (h : b.contains_point p = true) :
    ((b.downscaled 2).scaled 2).contains_point p = true := by
  rw [Box3i.contains_point_iff] at h ⊢
  simp only [Box3i.downscaled, Box3i.scaled, Box3i.from_min_max, V3.scale_x, V3.scale_y,
    V3.scale_z, V3.sub_x, V3.sub_y, V3.sub_z, V3.add_x, V3.add_y, V3.add_z,
    V3.fdivS_x, V3.fdivS_y, V3.fdivS_z, V3.cdivS_x, V3.cdivS_y, V3.cdivS_z]
  obtain ⟨f1, _⟩ := floordiv_char b.pos.x (show (0 : Int) < 2 by omega)
  obtain ⟨f2, _⟩ := floordiv_char b.pos.y (show (0 : Int) < 2 by omega)
  obtain ⟨f3, _⟩ := floordiv_char b.pos.z (show (0 : Int) < 2 by omega)
  obtain ⟨c1, _⟩ := ceildiv_char (b.pos.x + b.size.x) (show (0 : Int) < 2 by omega)
  obtain ⟨c2, _⟩ := ceildiv_char (b.pos.y + b.size.y) (show (0 : Int) < 2 by omega)
  obtain ⟨c3, _⟩ := ceildiv_char (b.pos.z + b.size.z) (show (0 : Int) < 2 by omega)
  omega

/-- Scalar core of the parent-LOD bounds step: a coordinate strictly inside
the aligned mesh bounds at LOD `l` lands strictly inside the bounds at LOD
`l + 1` after halving. -/
theorem scalar_parent_bounds {x p s : Int} (mpo2 l lc : Nat)
    (hl : l + 1 < lc)
    (hdp : (2 : Int) ^ (mpo2 + (lc - 1)) ∣ p) (hds : (2 : Int) ^ (mpo2 + (lc - 1)) ∣ s)
    (hx1 : floordiv p (2 ^ (mpo2 + l)) ≤ x)
    (hx2 : x < ceildiv (p + s) (2 ^ (mpo2 + l))) :
    floordiv p (2 ^ (mpo2 + (l + 1))) ≤ floordiv x 2 ∧
    floordiv x 2 < ceildiv (p + s) (2 ^ (mpo2 + (l + 1))) := by
  have hC : (0 : Int) < 2 ^ (mpo2 + l) := by positivity
  have hC1 : (0 : Int) < 2 ^ (mpo2 + (l + 1)) := by positivity
  have hCs : (2 : Int) ^ (mpo2 + (l + 1)) = 2 ^ (mpo2 + l) * 2 := by
    rw [← pow_succ]
    congr 1
  have hdpl : (2 : Int) ^ (mpo2 + l) ∣ p := dvd_pow_le (by omega) hdp
  have hdsl : (2 : Int) ^ (mpo2 + l) ∣ s := dvd_pow_le (by omega) hds
  have hdpl1 : (2 : Int) ^ (mpo2 + (l + 1)) ∣ p := dvd_pow_le (by omega) hdp
  have hdsl1 : (2 : Int) ^ (mpo2 + (l + 1)) ∣ s := dvd_pow_le (by omega) hds
  have e1 : floordiv p (2 ^ (mpo2 + l)) * 2 ^ (mpo2 + l) = p := floordiv_exact hC hdpl
  have e2 : ceildiv (p + s) (2 ^ (mpo2 + l)) * 2 ^ (mpo2 + l) = p + s := by
    rw [ceildiv_eq_floordiv_of_dvd hC (dvd_add hdpl hdsl)]
    exact floordiv_exact hC (dvd_add hdpl hdsl)
  have e3 : floordiv p (2 ^ (mpo2 + (l + 1))) * 2 ^ (mpo2 + (l + 1)) = p :=
    floordiv_exact hC1 hdpl1
  have e4 : ceildiv (p + s) (2 ^ (mpo2 + (l + 1))) * 2 ^ (mpo2 + (l + 1)) = p + s := by
    rw [ceildiv_eq_floordiv_of_dvd hC1 (dvd_add hdpl1 hdsl1)]
    exact floordiv_exact hC1 (dvd_add hdpl1 hdsl1)
  have hP : floordiv p (2 ^ (mpo2 + l)) = 2 * floordiv p (2 ^ (mpo2 + (l + 1))) := by
    apply mul_right_cancel₀ (b := (2 : Int) ^ (mpo2 + l)) (ne_of_gt hC)
    rw [e1, show 2 * floordiv p (2 ^ (mpo2 + (l + 1))) * 2 ^ (mpo2 + l) =
      floordiv p (2 ^ (mpo2 + (l + 1))) * (2 ^ (mpo2 + l) * 2) by ring, ← hCs, e3]
  have hE : ceildiv (p + s) (2 ^ (mpo2 + l)) = 2 * ceildiv (p + s) (2 ^ (mpo2 + (l + 1))) := by
    apply mul_right_cancel₀ (b := (2 : Int) ^ (mpo2 + l)) (ne_of_gt hC)
    rw [e2, show 2 * ceildiv (p + s) (2 ^ (mpo2 + (l + 1))) * 2 ^ (mpo2 + l) =
      ceildiv (p + s) (2 ^ (mpo2 + (l + 1))) * (2 ^ (mpo2 + l) * 2) by ring, ← hCs, e4]
  constructor
  · have hm := floordiv_mono (show (0 : Int) < 2 by omega) hx1
    rw [hP] at hm
    rw [show (2 : Int) * floordiv p (2 ^ (mpo2 + (l + 1))) =
      floordiv p (2 ^ (mpo2 + (l + 1))) * 2 by ring, floordiv_mul_cancel
      (show (0 : Int) < 2 by omega)] at hm
    exact hm
  · have hx2' : x ≤ 2 * ceildiv (p + s) (2 ^ (mpo2 + (l + 1))) - 1 := by
      rw [hE] at hx2
      omega
    have hm := floordiv_mono (show (0 : Int) < 2 by omega) hx2'
    have hu : floordiv (2 * ceildiv (p + s) (2 ^ (mpo2 + (l + 1))) - 1) 2 =
        ceildiv (p + s) (2 ^ (mpo2 + (l + 1))) - 1 := by
      apply floordiv_unique (show (0 : Int) < 2 by omega)
      · rw [sub_mul, one_mul]
        omega
      · rw [sub_add_cancel]
        omega
    rw [hu] at hm
    omega
/-- L-B: if the planned mesh box at LOD `l` holds a point, the planned mesh
box at LOD `l + 1` holds its halved position — via the neighboring-rule merge
of the halved child box and the aligned bounds. -/
theorem mesh_box_nonempty_up (cfg : PlanCfg) (pos : V3) (vd : Int) (l : Nat)
    (hl : l + 1 < cfg.lod_count) (halign : cfg.aligned_bounds)
    (hp : ∃ p, (mesh_box_per_lod cfg pos vd l).contains_point p = true) :
    ∃ q, (mesh_box_per_lod cfg pos vd (l + 1)).contains_point q = true := by
  obtain ⟨p, hp⟩ := hp
  have hcb : (mesh_box_per_lod cfg pos vd l).contains_point
      (mesh_box_per_lod cfg pos vd l).pos = true := by
    rw [Box3i.contains_point_iff] at hp ⊢
    omega
  have hbnd := mesh_box_subset_bounds cfg pos vd l hcb
  refine ⟨(mesh_box_per_lod cfg pos vd l).pos.fdivS 2, ?_⟩
  show (mesh_box_step cfg pos vd (l + 1) (some (mesh_box_per_lod cfg pos vd l))).contains_point
    ((mesh_box_per_lod cfg pos vd l).pos.fdivS 2) = true
  unfold mesh_box_step
  dsimp only
  rw [Box3i.mem_clipped_iff]
  constructor
  · -- the point is in the merged box via the min_box operand
    apply Box3i.mem_merge_right
    have hmin : ((Box3i.mk ((mesh_box_per_lod cfg pos vd l).pos.shr 1)
        ((mesh_box_per_lod cfg pos vd l).size.shr 1)).padded 2).contains_point
        ((mesh_box_per_lod cfg pos vd l).pos.fdivS 2) = true := by
      rw [Box3i.contains_point_iff] at hp ⊢
      simp only [Box3i.padded, V3.shr, V3.sub_x, V3.sub_y, V3.sub_z, V3.add_x, V3.add_y,
        V3.add_z, V3.splat_x, V3.splat_y, V3.splat_z, V3.fdivS_x, V3.fdivS_y, V3.fdivS_z,
        pow_one]
      obtain ⟨f1, g1⟩ := floordiv_char (mesh_box_per_lod cfg pos vd l).size.x
        (show (0 : Int) < 2 by omega)
      obtain ⟨f2, g2⟩ := floordiv_char (mesh_box_per_lod cfg pos vd l).size.y
        (show (0 : Int) < 2 by omega)
      obtain ⟨f3, g3⟩ := floordiv_char (mesh_box_per_lod cfg pos vd l).size.z
        (show (0 : Int) < 2 by omega)
      omega
    by_cases hsnap : l + 1 ≠ cfg.lod_count - 1
    · rw [if_pos hsnap]
      exact Box3i.mem_snap2 hmin
    · rw [if_neg hsnap]
      exact hmin
  · -- the halved position is inside the parent-LOD bounds
    obtain ⟨h1, h2, h3, h4, h5, h6⟩ := halign
    rw [Box3i.contains_point_iff] at hbnd ⊢
    have hco : (cfg.volume_bounds_in_mesh_blocks l).endp =
        (cfg.volume_bounds_in_voxels.pos + cfg.volume_bounds_in_voxels.size).cdivS
          (2 ^ (cfg.mesh_block_size_po2 + l)) := V3.add_sub_cancel_v _ _
    have hco1 : (cfg.volume_bounds_in_mesh_blocks (l + 1)).endp =
        (cfg.volume_bounds_in_voxels.pos + cfg.volume_bounds_in_voxels.size).cdivS
          (2 ^ (cfg.mesh_block_size_po2 + (l + 1))) := V3.add_sub_cancel_v _ _
    have hpxx : (cfg.volume_bounds_in_mesh_blocks l).pos.x =
        floordiv cfg.volume_bounds_in_voxels.pos.x (2 ^ (cfg.mesh_block_size_po2 + l)) := rfl
    have hpxy : (cfg.volume_bounds_in_mesh_blocks l).pos.y =
        floordiv cfg.volume_bounds_in_voxels.pos.y (2 ^ (cfg.mesh_block_size_po2 + l)) := rfl
    have hpxz : (cfg.volume_bounds_in_mesh_blocks l).pos.z =
        floordiv cfg.volume_bounds_in_voxels.pos.z (2 ^ (cfg.mesh_block_size_po2 + l)) := rfl
    have hcox : (cfg.volume_bounds_in_mesh_blocks l).pos.x +
        (cfg.volume_bounds_in_mesh_blocks l).size.x =
        ceildiv (cfg.volume_bounds_in_voxels.pos.x + cfg.volume_bounds_in_voxels.size.x)
          (2 ^ (cfg.mesh_block_size_po2 + l)) := by
      have h := congrArg V3.x hco
      simp only [Box3i.endp, V3.add_x, V3.cdivS_x] at h
      exact h
    have hcoy : (cfg.volume_bounds_in_mesh_blocks l).pos.y +
        (cfg.volume_bounds_in_mesh_blocks l).size.y =
        ceildiv (cfg.volume_bounds_in_voxels.pos.y + cfg.volume_bounds_in_voxels.size.y)
          (2 ^ (cfg.mesh_block_size_po2 + l)) := by
      have h := congrArg V3.y hco
      simp only [Box3i.endp, V3.add_y, V3.cdivS_y] at h
      exact h
    have hcoz : (cfg.volume_bounds_in_mesh_blocks l).pos.z +
        (cfg.volume_bounds_in_mesh_blocks l).size.z =
        ceildiv (cfg.volume_bounds_in_voxels.pos.z + cfg.volume_bounds_in_voxels.size.z)
          (2 ^ (cfg.mesh_block_size_po2 + l)) := by
      have h := congrArg V3.z hco
      simp only [Box3i.endp, V3.add_z, V3.cdivS_z] at h
      exact h
    have hpxx1 : (cfg.volume_bounds_in_mesh_blocks (l + 1)).pos.x =
        floordiv cfg.volume_bounds_in_voxels.pos.x (2 ^ (cfg.mesh_block_size_po2 + (l + 1))) :=
      rfl
    have hpxy1 : (cfg.volume_bounds_in_mesh_blocks (l + 1)).pos.y =
        floordiv cfg.volume_bounds_in_voxels.pos.y (2 ^ (cfg.mesh_block_size_po2 + (l + 1))) :=
      rfl
    have hpxz1 : (cfg.volume_bounds_in_mesh_blocks (l + 1)).pos.z =
        floordiv cfg.volume_bounds_in_voxels.pos.z (2 ^ (cfg.mesh_block_size_po2 + (l + 1))) :=
      rfl
    have hcox1 : (cfg.volume_bounds_in_mesh_blocks (l + 1)).pos.x +
        (cfg.volume_bounds_in_mesh_blocks (l + 1)).size.x =
        ceildiv (cfg.volume_bounds_in_voxels.pos.x + cfg.volume_bounds_in_voxels.size.x)
          (2 ^ (cfg.mesh_block_size_po2 + (l + 1))) := by
      have h := congrArg V3.x hco1
      simp only [Box3i.endp, V3.add_x, V3.cdivS_x] at h
      exact h
    have hcoy1 : (cfg.volume_bounds_in_mesh_blocks (l + 1)).pos.y +
        (cfg.volume_bounds_in_mesh_blocks (l + 1)).size.y =
        ceildiv (cfg.volume_bounds_in_voxels.pos.y + cfg.volume_bounds_in_voxels.size.y)
          (2 ^ (cfg.mesh_block_size_po2 + (l + 1))) := by
      have h := congrArg V3.y hco1
      simp only [Box3i.endp, V3.add_y, V3.cdivS_y] at h
      exact h
    have hcoz1 : (cfg.volume_bounds_in_mesh_blocks (l + 1)).pos.z +
        (cfg.volume_bounds_in_mesh_blocks (l + 1)).size.z =
        ceildiv (cfg.volume_bounds_in_voxels.pos.z + cfg.volume_bounds_in_voxels.size.z)
          (2 ^ (cfg.mesh_block_size_po2 + (l + 1))) := by
      have h := congrArg V3.z hco1
      simp only [Box3i.endp, V3.add_z, V3.cdivS_z] at h
      exact h
    have hsx := scalar_parent_bounds cfg.mesh_block_size_po2 l cfg.lod_count hl h1 h4
      (x := (mesh_box_per_lod cfg pos vd l).pos.x)
      (by rw [← hpxx]; omega) (by rw [← hcox]; omega)
    have hsy := scalar_parent_bounds cfg.mesh_block_size_po2 l cfg.lod_count hl h2 h5
      (x := (mesh_box_per_lod cfg pos vd l).pos.y)
      (by rw [← hpxy]; omega) (by rw [← hcoy]; omega)
    have hsz := scalar_parent_bounds cfg.mesh_block_size_po2 l cfg.lod_count hl h3 h6
      (x := (mesh_box_per_lod cfg pos vd l).pos.z)
      (by rw [← hpxz]; omega) (by rw [← hcoz]; omega)
    simp only [V3.fdivS_x, V3.fdivS_y, V3.fdivS_z]
    omega

/-- The two viewer refcounts of a mesh map entry, the part of the entry the
round-trip argument tracks. -/
def mesh_counts (t : Option MeshBlockState) : Option (Nat × Nat) :=
  t.map fun e => (e.mesh_viewers, e.collision_viewers)

/-- Refcount effect of one `mesh_unload_cell` on the cell it processes. -/
def unload_counts : Option (Nat × Nat) → Option (Nat × Nat)
  | none => none
  | some t => if t.1 - 1 = 0 ∧ t.2 - 1 = 0 then none else some (t.1 - 1, t.2 - 1)

/-- A mesh map is exactly the single-viewer indicator of a box. -/
def mesh_inv (m : V3 → Option MeshBlockState) (box : Box3i) : Prop :=
  ∀ p, mesh_counts (m p) = if box.contains_point p = true then some (1, 1) else none

/-- A loading map is exactly the single-viewer indicator of a box. -/
def load_inv (lb : V3 → Option Nat) (box : Box3i) : Prop :=
  ∀ p, lb p = if box.contains_point p = true then some 1 else none

theorem data_load_step_lb_other (li : Nat) (acc : Lod × List BlockLocation) (bpos : V3)
    {p : V3} (hp : p ≠ bpos) :
    ((data_load_step li acc bpos).1).loading_blocks p = acc.1.loading_blocks p := by
  unfold data_load_step add_loading_block
  cases hcase : acc.1.loading_blocks bpos <;>
    simp only [hcase] <;>
    exact mupdate_other _ _ _ hp

theorem data_load_step_lb_self (li : Nat) (acc : Lod × List BlockLocation) (bpos : V3)
    (h : acc.1.loading_blocks bpos = none) :
    ((data_load_step li acc bpos).1).loading_blocks bpos = some 1 := by
  unfold data_load_step add_loading_block
  simp only [h, mupdate_self]

theorem data_load_step_fields (li : Nat) (acc : Lod × List BlockLocation) (bpos : V3) :
    ((data_load_step li acc bpos).1).mesh_map = acc.1.mesh_map ∧
    ((data_load_step li acc bpos).1).mesh_blocks_pending_update =
      acc.1.mesh_blocks_pending_update := by
  unfold data_load_step add_loading_block
  cases hcase : acc.1.loading_blocks bpos <;> simp only [hcase] <;> exact ⟨trivial, trivial⟩

theorem data_load_fold_untouched (li : Nat) (l : List V3) (acc : Lod × List BlockLocation)
    {p : V3} (hp : p ∉ l) :
    ((l.foldl (data_load_step li) acc).1).loading_blocks p = acc.1.loading_blocks p := by
  induction l generalizing acc with
  | nil => rfl
  | cons a rest ih =>
    simp only [List.mem_cons, not_or] at hp
    rw [List.foldl_cons, ih _ hp.2]
    exact data_load_step_lb_other li acc a hp.1

theorem data_load_fold_mem (li : Nat) (l : List V3) (acc : Lod × List BlockLocation)
    {p : V3} (hnd : l.Nodup) (hp : p ∈ l) (hnone : acc.1.loading_blocks p = none) :
    ((l.foldl (data_load_step li) acc).1).loading_blocks p = some 1 := by
  induction l generalizing acc with
  | nil => cases hp
  | cons a rest ih =>
    rw [List.foldl_cons]
    rw [List.nodup_cons] at hnd
    rcases List.mem_cons.mp hp with rfl | hmem
    · rw [data_load_fold_untouched li rest _ hnd.1]
      exact data_load_step_lb_self li acc p hnone
    · exact ih (data_load_step li acc a) hnd.2 hmem (by
        rw [data_load_step_lb_other li acc a (by rintro rfl; exact hnd.1 hmem)]
        exact hnone)

theorem data_load_fold_fields (li : Nat) (l : List V3) (acc : Lod × List BlockLocation) :
    ((l.foldl (data_load_step li) acc).1).mesh_map = acc.1.mesh_map ∧
    ((l.foldl (data_load_step li) acc).1).mesh_blocks_pending_update =
      acc.1.mesh_blocks_pending_update := by
  induction l generalizing acc with
  | nil => exact ⟨rfl, rfl⟩
  | cons a rest ih =>
    rw [List.foldl_cons]
    obtain ⟨h1, h2⟩ := ih (data_load_step li acc a)
    obtain ⟨g1, g2⟩ := data_load_step_fields li acc a
    exact ⟨h1.trans g1, h2.trans g2⟩

theorem unview_fold_untouched (li : Nat) (l : List V3) (lod : Lod)
    (dbtl : List BlockLocation) {p : V3} (hp : p ∉ l) :
    (unview_missing_blocks li l lod dbtl).2.1.loading_blocks p = lod.loading_blocks p := by
  induction l generalizing lod dbtl with
  | nil => rfl
  | cons a rest ih =>
    simp only [List.mem_cons, not_or] at hp
    unfold unview_missing_blocks
    cases hcase : lod.loading_blocks a with
    | none => rfl
    | some n =>
      dsimp only
      by_cases hz : n - 1 = 0
      · rw [if_pos hz, ih _ _ hp.2]
        exact mupdate_other _ _ _ hp.1
      · rw [if_neg hz, ih _ _ hp.2]
        exact mupdate_other _ _ _ hp.1

theorem unview_fold_fields (li : Nat) (l : List V3) (lod : Lod)
    (dbtl : List BlockLocation) :
    (unview_missing_blocks li l lod dbtl).2.1.mesh_map = lod.mesh_map ∧
    (unview_missing_blocks li l lod dbtl).2.1.mesh_blocks_pending_update =
      lod.mesh_blocks_pending_update := by
  induction l generalizing lod dbtl with
  | nil => exact ⟨rfl, rfl⟩
  | cons a rest ih =>
    unfold unview_missing_blocks
    cases hcase : lod.loading_blocks a with
    | none => exact ⟨rfl, rfl⟩
    | some n =>
      dsimp only
      by_cases hz : n - 1 = 0
      · rw [if_pos hz]
        exact ih _ _
      · rw [if_neg hz]
        exact ih _ _

theorem unview_fold_ok (li : Nat) (l : List V3) (lod : Lod) (dbtl : List BlockLocation)
    (hnd : l.Nodup) (hall : ∀ q ∈ l, lod.loading_blocks q = some 1) :
    (unview_missing_blocks li l lod dbtl).1 = false ∧
    ∀ p ∈ l, (unview_missing_blocks li l lod dbtl).2.1.loading_blocks p = none := by
  induction l generalizing lod dbtl with
  | nil => exact ⟨rfl, fun p hp => absurd hp (List.not_mem_nil p)⟩
  | cons a rest ih =>
    rw [List.nodup_cons] at hnd
    have ha : lod.loading_blocks a = some 1 := hall a (List.mem_cons_self a rest)
    unfold unview_missing_blocks
    rw [ha]
    dsimp only
    rw [if_pos (by omega : 1 - 1 = 0)]
    have hrest : ∀ q ∈ rest,
        ({ lod with loading_blocks := mupdate lod.loading_blocks a none } : Lod).loading_blocks
          q = some 1 := by
      intro q hq
      show mupdate lod.loading_blocks a none q = some 1
      rw [mupdate_other _ _ _ (by rintro rfl; exact hnd.1 hq)]
      exact hall q (List.mem_cons_of_mem a hq)
    obtain ⟨hok, hmem⟩ := ih _ (remove_first_swap dbtl ⟨a, li⟩) hnd.2 hrest
    refine ⟨hok, ?_⟩
    intro p hp
    rcases List.mem_cons.mp hp with rfl | hpm
    · rw [unview_fold_untouched li rest _ _ hnd.1]
      exact mupdate_self _ _ _
    · exact hmem p hpm

theorem mesh_view_cell_other (lod : Lod) (bpos : V3) {p : V3} (hp : p ≠ bpos) :
    (mesh_view_cell false lod bpos).mesh_map p = lod.mesh_map p := by
  unfold mesh_view_cell
  cases hcase : lod.mesh_map bpos <;> simp only [hcase] <;>
    exact mupdate_other _ _ _ hp

theorem mesh_view_cell_self_none (lod : Lod) (bpos : V3) (h : lod.mesh_map bpos = none) :
    (mesh_view_cell false lod bpos).mesh_map bpos =
      some { MeshBlockState.fresh with mesh_viewers := 1, collision_viewers := 1 } := by
  unfold mesh_view_cell
  simp only [h]
  exact mupdate_self _ _ _

theorem mesh_view_cell_fields (lod : Lod) (bpos : V3) :
    (mesh_view_cell false lod bpos).loading_blocks = lod.loading_blocks ∧
    (mesh_view_cell false lod bpos).mesh_blocks_pending_update =
      lod.mesh_blocks_pending_update := by
  unfold mesh_view_cell
  cases hcase : lod.mesh_map bpos <;> simp only [hcase] <;> constructor <;> trivial

theorem mesh_view_fold_untouched (l : List V3) (lod : Lod) {p : V3} (hp : p ∉ l) :
    ((l.foldl (mesh_view_cell false) lod).mesh_map) p = lod.mesh_map p := by
  induction l generalizing lod with
  | nil => rfl
  | cons a rest ih =>
    simp only [List.mem_cons, not_or] at hp
    rw [List.foldl_cons, ih _ hp.2]
    exact mesh_view_cell_other lod a hp.1

theorem mesh_view_fold_mem (l : List V3) (lod : Lod) {p : V3} (hnd : l.Nodup) (hp : p ∈ l)
    (hnone : lod.mesh_map p = none) :
    ((l.foldl (mesh_view_cell false) lod).mesh_map) p =
      some { MeshBlockState.fresh with mesh_viewers := 1, collision_viewers := 1 } := by
  induction l generalizing lod with
  | nil => cases hp
  | cons a rest ih =>
    rw [List.foldl_cons]
    rw [List.nodup_cons] at hnd
    rcases List.mem_cons.mp hp with rfl | hmem
    · rw [mesh_view_fold_untouched rest _ hnd.1]
      exact mesh_view_cell_self_none lod p hnone
    · exact ih (mesh_view_cell false lod a) hnd.2 hmem (by
        rw [mesh_view_cell_other lod a (by rintro rfl; exact hnd.1 hmem)]
        exact hnone)

theorem mesh_view_fold_fields (l : List V3) (lod : Lod) :
    ((l.foldl (mesh_view_cell false) lod).loading_blocks) = lod.loading_blocks ∧
    ((l.foldl (mesh_view_cell false) lod).mesh_blocks_pending_update) =
      lod.mesh_blocks_pending_update := by
  induction l generalizing lod with
  | nil => exact ⟨rfl, rfl⟩
  | cons a rest ih =>
    rw [List.foldl_cons]
    obtain ⟨h1, h2⟩ := ih (mesh_view_cell false lod a)
    obtain ⟨g1, g2⟩ := mesh_view_cell_fields lod a
    exact ⟨h1.trans g1, h2.trans g2⟩

theorem mesh_unload_cell_other (lod : Lod) (bpos : V3) {p : V3} (hp : p ≠ bpos) :
    (mesh_unload_cell lod bpos).mesh_map p = lod.mesh_map p := by
  unfold mesh_unload_cell
  cases hcase : lod.mesh_map bpos with
  | none => rfl
  | some mb =>
    dsimp only
    by_cases hz : mb.mesh_viewers - 1 = 0 ∧ mb.collision_viewers - 1 = 0
    · rw [if_pos hz]
      exact mupdate_other _ _ _ hp
    · rw [if_neg hz]
      exact mupdate_other _ _ _ hp

theorem mesh_unload_cell_self (lod : Lod) (bpos : V3) :
    mesh_counts ((mesh_unload_cell lod bpos).mesh_map bpos) =
      unload_counts (mesh_counts (lod.mesh_map bpos)) := by
  cases hcase : lod.mesh_map bpos with
  | none => simp [mesh_unload_cell, mesh_counts, unload_counts, hcase]
  | some mb =>
    by_cases hz : mb.mesh_viewers - 1 = 0 ∧ mb.collision_viewers - 1 = 0
    · simp [mesh_unload_cell, mesh_counts, unload_counts, hcase, hz]
    · simp [mesh_unload_cell, mesh_counts, unload_counts, hcase, hz]

theorem mesh_unload_cell_fields (lod : Lod) (bpos : V3) :
    (mesh_unload_cell lod bpos).loading_blocks = lod.loading_blocks ∧
    (mesh_unload_cell lod bpos).mesh_blocks_pending_update =
      lod.mesh_blocks_pending_update := by
  unfold mesh_unload_cell
  cases hcase : lod.mesh_map bpos with
  | none => exact ⟨rfl, rfl⟩
  | some mb =>
    dsimp only
    by_cases hz : mb.mesh_viewers - 1 = 0 ∧ mb.collision_viewers - 1 = 0
    · rw [if_pos hz]
      exact ⟨rfl, rfl⟩
    · rw [if_neg hz]
      exact ⟨rfl, rfl⟩

theorem mesh_unload_fold_untouched (l : List V3) (lod : Lod) {p : V3} (hp : p ∉ l) :
    ((l.foldl mesh_unload_cell lod).mesh_map) p = lod.mesh_map p := by
  induction l generalizing lod with
  | nil => rfl
  | cons a rest ih =>
    simp only [List.mem_cons, not_or] at hp
    rw [List.foldl_cons, ih _ hp.2]
    exact mesh_unload_cell_other lod a hp.1

theorem mesh_unload_fold_mem (l : List V3) (lod : Lod) {p : V3} (hnd : l.Nodup)
    (hp : p ∈ l) :
    mesh_counts (((l.foldl mesh_unload_cell lod).mesh_map) p) =
      unload_counts (mesh_counts (lod.mesh_map p)) := by
  induction l generalizing lod with
  | nil => cases hp
  | cons a rest ih =>
    rw [List.foldl_cons]
    rw [List.nodup_cons] at hnd
    rcases List.mem_cons.mp hp with rfl | hmem
    · rw [mesh_unload_fold_untouched rest _ hnd.1]
      exact mesh_unload_cell_self lod p
    · rw [ih (mesh_unload_cell lod a) hnd.2 hmem,
        mesh_unload_cell_other lod a (by rintro rfl; exact hnd.1 hmem)]

theorem mesh_unload_fold_fields (l : List V3) (lod : Lod) :
    ((l.foldl mesh_unload_cell lod).loading_blocks) = lod.loading_blocks ∧
    ((l.foldl mesh_unload_cell lod).mesh_blocks_pending_update) =
      lod.mesh_blocks_pending_update := by
  induction l generalizing lod with
  | nil => exact ⟨rfl, rfl⟩
  | cons a rest ih =>
    rw [List.foldl_cons]
    obtain ⟨h1, h2⟩ := ih (mesh_unload_cell lod a)
    obtain ⟨g1, g2⟩ := mesh_unload_cell_fields lod a
    exact ⟨h1.trans g1, h2.trans g2⟩

theorem activate_step_counts (cm : V3 → Option MeshBlockState) (plod : Lod) (b : V3)
    (p : V3) :
    mesh_counts ((activate_parents_step cm plod b).mesh_map p) =
      mesh_counts (plod.mesh_map p) := by
  unfold activate_parents_step
  cases hcase : plod.mesh_map b with
  | none => rfl
  | some mb =>
    dsimp only
    by_cases hact : mb.active
    · rw [if_pos hact]
    · rw [if_neg hact]
      cases hchild : cm (b.shl 1) with
      | some _ => rfl
      | none =>
        dsimp only
        by_cases hpb : p = b
        · subst hpb
          rw [mupdate_self, hcase]
          rfl
        · rw [mupdate_other _ _ _ hpb]

theorem activate_step_fields (cm : V3 → Option MeshBlockState) (plod : Lod) (b : V3) :
    (activate_parents_step cm plod b).loading_blocks = plod.loading_blocks ∧
    (activate_parents_step cm plod b).mesh_blocks_pending_update =
      plod.mesh_blocks_pending_update := by
  unfold activate_parents_step
  cases hcase : plod.mesh_map b with
  | none => exact ⟨rfl, rfl⟩
  | some mb =>
    dsimp only
    by_cases hact : mb.active
    · rw [if_pos hact]
      exact ⟨rfl, rfl⟩
    · rw [if_neg hact]
      cases hchild : cm (b.shl 1) with
      | some _ => exact ⟨rfl, rfl⟩
      | none => exact ⟨rfl, rfl⟩

theorem activate_fold_counts (cm : V3 → Option MeshBlockState) (l : List V3) (plod : Lod)
    (p : V3) :
    mesh_counts (((l.foldl (activate_parents_step cm) plod).mesh_map) p) =
      mesh_counts (plod.mesh_map p) := by
  induction l generalizing plod with
  | nil => rfl
  | cons a rest ih =>
    rw [List.foldl_cons, ih (activate_parents_step cm plod a)]
    exact activate_step_counts cm plod a p

theorem activate_fold_fields (cm : V3 → Option MeshBlockState) (l : List V3) (plod : Lod) :
    ((l.foldl (activate_parents_step cm) plod).loading_blocks) = plod.loading_blocks ∧
    ((l.foldl (activate_parents_step cm) plod).mesh_blocks_pending_update) =
      plod.mesh_blocks_pending_update := by
  induction l generalizing plod with
  | nil => exact ⟨rfl, rfl⟩
  | cons a rest ih =>
    rw [List.foldl_cons]
    obtain ⟨h1, h2⟩ := ih (activate_parents_step cm plod a)
    obtain ⟨g1, g2⟩ := activate_step_fields cm plod a
    exact ⟨h1.trans g1, h2.trans g2⟩

theorem cancel_data_box_pending_nil (lod : Lod) (box : Box3i)
    (h : lod.mesh_blocks_pending_update = []) :
    cancel_mesh_updates_outside_data_box lod box = lod := by
  obtain ⟨mm, lb, pend, act, deact, unl⟩ := lod
  simp only at h
  subst h
  rfl

theorem cancel_mesh_box_pending_nil (lod : Lod) (box : Box3i)
    (h : lod.mesh_blocks_pending_update = []) :
    cancel_mesh_updates_outside_mesh_box lod box = lod := by
  obtain ⟨mm, lb, pend, act, deact, unl⟩ := lod
  simp only at h
  subst h
  rfl

/-- Effect of unloading one out-of-range box: the processed LOD's mesh
refcounts are transformed on the box's cells, every other LOD's refcounts are
preserved (parent activation only flips activity), and loading maps and
pending queues are untouched everywhere. -/
theorem mesh_unload_box_effects (st : StreamState) (k lc : Nat) (box : Box3i) :
    (∀ p, mesh_counts (((mesh_unload_box st k lc box).lods k).mesh_map p) =
        if box.contains_point p = true then
          unload_counts (mesh_counts ((st.lods k).mesh_map p))
        else mesh_counts ((st.lods k).mesh_map p)) ∧
    (∀ j, j ≠ k → ∀ p, mesh_counts (((mesh_unload_box st k lc box).lods j).mesh_map p) =
        mesh_counts ((st.lods j).mesh_map p)) ∧
    (∀ j, ((mesh_unload_box st k lc box).lods j).loading_blocks =
        (st.lods j).loading_blocks ∧
      ((mesh_unload_box st k lc box).lods j).mesh_blocks_pending_update =
        (st.lods j).mesh_blocks_pending_update) := by
  unfold mesh_unload_box
  by_cases hpar : k + 1 < lc
  · rw [if_pos hpar]
    refine ⟨?_, ?_, ?_⟩
    · intro p
      rw [StreamState.setLod_other _ _ _ (by omega : k ≠ k + 1), StreamState.setLod_self]
      by_cases hp : box.contains_point p = true
      · rw [if_pos hp]
        exact mesh_unload_fold_mem box.cells _ (Box3i.cells_nodup box)
          (Box3i.mem_cells.mpr hp)
      · rw [if_neg hp]
        rw [mesh_unload_fold_untouched box.cells _
          (fun hmem => hp (Box3i.mem_cells.mp hmem))]
    · intro j hj p
      by_cases hjp : j = k + 1
      · subst hjp
        rw [StreamState.setLod_self, activate_fold_counts,
          StreamState.setLod_other _ _ _ (by omega : k + 1 ≠ k)]
      · rw [StreamState.setLod_other _ _ _ hjp, StreamState.setLod_other _ _ _ hj]
    · intro j
      by_cases hjk : j = k
      · subst hjk
        rw [StreamState.setLod_other _ _ _ (by omega : j ≠ j + 1), StreamState.setLod_self]
        obtain ⟨f1, f2⟩ := mesh_unload_fold_fields box.cells (st.lods j)
        exact ⟨f1, f2⟩
      · by_cases hjp : j = k + 1
        · subst hjp
          rw [StreamState.setLod_self]
          obtain ⟨a1, a2⟩ := activate_fold_fields
            ((box.cells.foldl mesh_unload_cell (st.lods k)).mesh_map)
            (Box3i.cells ⟨box.pos.shr 1, box.size.shr 1⟩)
            ((st.setLod k (box.cells.foldl mesh_unload_cell (st.lods k))).lods (k + 1))
          rw [a1, a2, StreamState.setLod_other _ _ _ (by omega : k + 1 ≠ k)]
          exact ⟨rfl, rfl⟩
        · rw [StreamState.setLod_other _ _ _ hjp, StreamState.setLod_other _ _ _ hjk]
          exact ⟨rfl, rfl⟩
  · rw [if_neg hpar]
    refine ⟨?_, ?_, ?_⟩
    · intro p
      rw [StreamState.setLod_self]
      by_cases hp : box.contains_point p = true
      · rw [if_pos hp]
        exact mesh_unload_fold_mem box.cells _ (Box3i.cells_nodup box)
          (Box3i.mem_cells.mpr hp)
      · rw [if_neg hp]
        rw [mesh_unload_fold_untouched box.cells _
          (fun hmem => hp (Box3i.mem_cells.mp hmem))]
    · intro j hj p
      rw [StreamState.setLod_other _ _ _ hj]
    · intro j
      by_cases hjk : j = k
      · subst hjk
        rw [StreamState.setLod_self]
        exact mesh_unload_fold_fields box.cells (st.lods j)
      · rw [StreamState.setLod_other _ _ _ hjk]
        exact ⟨rfl, rfl⟩

/-- Folding `mesh_unload_box` over a list of pairwise cell-disjoint boxes
transforms the processed LOD's refcounts exactly on the union of the cells. -/
theorem mesh_unload_boxes_fold (boxes : List Box3i) (st : StreamState) (k lc : Nat)
    (hnd : (boxes.flatMap Box3i.cells).Nodup) :
    (∀ p, mesh_counts (((boxes.foldl (fun s b => mesh_unload_box s k lc b) st).lods k).mesh_map
          p) =
        if p ∈ boxes.flatMap Box3i.cells then
          unload_counts (mesh_counts ((st.lods k).mesh_map p))
        else mesh_counts ((st.lods k).mesh_map p)) ∧
    (∀ j, j ≠ k →
      ∀ p, mesh_counts (((boxes.foldl (fun s b => mesh_unload_box s k lc b) st).lods j).mesh_map
          p) = mesh_counts ((st.lods j).mesh_map p)) ∧
    (∀ j, ((boxes.foldl (fun s b => mesh_unload_box s k lc b) st).lods j).loading_blocks =
        (st.lods j).loading_blocks ∧
      ((boxes.foldl (fun s b => mesh_unload_box s k lc b) st).lods
          j).mesh_blocks_pending_update =
        (st.lods j).mesh_blocks_pending_update) := by
  induction boxes generalizing st with
  | nil =>
    refine ⟨fun p => ?_, fun j hj p => rfl, fun j => ⟨rfl, rfl⟩⟩
    simp
  | cons b rest ih =>
    rw [List.flatMap_cons] at hnd
    have hsplit := List.nodup_append.mp hnd
    obtain ⟨hnb, hnr, hdisj⟩ := hsplit
    obtain ⟨e1, e2, e3⟩ := mesh_unload_box_effects st k lc b
    obtain ⟨i1, i2, i3⟩ := ih (mesh_unload_box st k lc b) hnr
    rw [List.foldl_cons]
    refine ⟨fun p => ?_, fun j hj p => ?_, fun j => ?_⟩
    · simp only [List.flatMap_cons, List.mem_append]
      by_cases hpb : p ∈ b.cells
      · have hpr : p ∉ rest.flatMap Box3i.cells := fun hmem => hdisj hpb hmem
        rw [i1 p, if_neg hpr, e1 p, if_pos (Box3i.mem_cells.mp hpb),
          if_pos (Or.inl hpb)]
      · by_cases hpr : p ∈ rest.flatMap Box3i.cells
        · rw [i1 p, if_pos hpr, e1 p, if_neg (fun hc => hpb (Box3i.mem_cells.mpr hc)),
            if_pos (Or.inr hpr)]
        · rw [i1 p, if_neg hpr, e1 p, if_neg (fun hc => hpb (Box3i.mem_cells.mpr hc)),
            if_neg (by rintro (h | h) <;> [exact hpb h; exact hpr h])]
    · rw [i2 j hj p, e2 j hj p]
    · obtain ⟨f1, f2⟩ := i3 j
      obtain ⟨g1, g2⟩ := e3 j
      exact ⟨f1.trans g1, f2.trans g2⟩

theorem mesh_counts_none {t : Option MeshBlockState} : mesh_counts t = none ↔ t = none := by
  cases t <;> simp [mesh_counts]

/-- Effect of the data differ at one LOD under the single-viewer indicator
invariant: no abort, and the loading map becomes the indicator of the new
data box; the mesh map is untouched and the pending queue stays empty. -/
theorem process_data_lod_effect (cfg : PlanCfg) (pv : PairedViewer) (k : Nat)
    (st : StreamState) (dbtl : List BlockLocation)
    (hinv : load_inv ((st.lods k).loading_blocks) (pv.prev_state.data_box_per_lod k))
    (hpend : (st.lods k).mesh_blocks_pending_update = [])
    (hprevsz : 0 ≤ (pv.prev_state.data_box_per_lod k).size.x ∧
      0 ≤ (pv.prev_state.data_box_per_lod k).size.y ∧
      0 ≤ (pv.prev_state.data_box_per_lod k).size.z)
    (hnewsz : 0 ≤ (pv.state.data_box_per_lod k).size.x ∧
      0 ≤ (pv.state.data_box_per_lod k).size.y ∧
      0 ≤ (pv.state.data_box_per_lod k).size.z) :
    (process_data_lod cfg true pv k st dbtl).1 = false ∧
    ∃ lod', (process_data_lod cfg true pv k st dbtl).2.1 = st.setLod k lod' ∧
      load_inv lod'.loading_blocks (pv.state.data_box_per_lod k) ∧
      lod'.mesh_map = (st.lods k).mesh_map ∧
      lod'.mesh_blocks_pending_update = [] := by
  by_cases hne : pv.prev_state.data_box_per_lod k = pv.state.data_box_per_lod k
  case pos =>
    -- boxes equal: nothing to diff
    unfold process_data_lod
    dsimp only
    rw [if_neg (not_not_intro hne)]
    dsimp only
    rw [if_neg Bool.false_ne_true]
    rw [cancel_data_box_pending_nil _ _ hpend]
    refine ⟨rfl, st.lods k, rfl, ?_, rfl, hpend⟩
    rw [← hne]
    exact hinv
  case neg =>
    -- boxes differ: the add fold then the unview fold run
    have hmid : ∀ p,
        ((((pv.state.data_box_per_lod k).difference_cells
              (pv.prev_state.data_box_per_lod k)).foldl (data_load_step k)
            (st.lods k, dbtl)).1).loading_blocks p =
          if (pv.prev_state.data_box_per_lod k).contains_point p = true ∨
              (pv.state.data_box_per_lod k).contains_point p = true then some 1
          else none := by
      intro p
      by_cases hp : p ∈ (pv.state.data_box_per_lod k).difference_cells
          (pv.prev_state.data_box_per_lod k)
      · obtain ⟨hpn, hpp⟩ := Box3i.mem_difference_cells.mp hp
        rw [data_load_fold_mem k _ _
          (Box3i.difference_cells_nodup _ _ hprevsz) hp
          (by rw [hinv p, if_neg hpp])]
        rw [if_pos (Or.inr hpn)]
      · rw [data_load_fold_untouched k _ _ hp, hinv p]
        rw [Box3i.mem_difference_cells] at hp
        push_neg at hp
        by_cases hprev : (pv.prev_state.data_box_per_lod k).contains_point p = true
        · rw [if_pos hprev, if_pos (Or.inl hprev)]
        · rw [if_neg hprev]
          by_cases hnew : (pv.state.data_box_per_lod k).contains_point p = true
          · exact absurd (hp hnew) (by simp [hprev])
          · rw [if_neg (by rintro (h | h) <;> [exact hprev h; exact hnew h])]
    have hall : ∀ q ∈ (pv.prev_state.data_box_per_lod k).difference_cells
        (pv.state.data_box_per_lod k),
        ((((pv.state.data_box_per_lod k).difference_cells
              (pv.prev_state.data_box_per_lod k)).foldl (data_load_step k)
            (st.lods k, dbtl)).1).loading_blocks q = some 1 := by
      intro q hq
      obtain ⟨hqp, hqn⟩ := Box3i.mem_difference_cells.mp hq
      rw [hmid q, if_pos (Or.inl hqp)]
    obtain ⟨hok, hgone⟩ := unview_fold_ok k
      ((pv.prev_state.data_box_per_lod k).difference_cells (pv.state.data_box_per_lod k))
      _ _ (Box3i.difference_cells_nodup _ _ hnewsz) hall
    have hfin : ∀ p,
        (unview_missing_blocks k
            ((pv.prev_state.data_box_per_lod k).difference_cells
              (pv.state.data_box_per_lod k))
            ((((pv.state.data_box_per_lod k).difference_cells
                  (pv.prev_state.data_box_per_lod k)).foldl (data_load_step k)
                (st.lods k, dbtl)).1)
            ((((pv.state.data_box_per_lod k).difference_cells
                  (pv.prev_state.data_box_per_lod k)).foldl (data_load_step k)
                (st.lods k, dbtl)).2)).2.1.loading_blocks p =
          if (pv.state.data_box_per_lod k).contains_point p = true then some 1
          else none := by
      intro p
      by_cases hp : p ∈ (pv.prev_state.data_box_per_lod k).difference_cells
          (pv.state.data_box_per_lod k)
      · rw [hgone p hp]
        obtain ⟨hpp, hpn⟩ := Box3i.mem_difference_cells.mp hp
        rw [if_neg hpn]
      · rw [unview_fold_untouched k _ _ _ hp, hmid p]
        rw [Box3i.mem_difference_cells] at hp
        push_neg at hp
        by_cases hnew : (pv.state.data_box_per_lod k).contains_point p = true
        · rw [if_pos hnew, if_pos (Or.inr hnew)]
        · rw [if_neg hnew]
          by_cases hprev : (pv.prev_state.data_box_per_lod k).contains_point p = true
          · exact absurd (hp hprev) (by simp [hnew])
          · rw [if_neg (by rintro (h | h) <;> [exact hprev h; exact hnew h])]
    obtain ⟨hvm, hvp⟩ := unview_fold_fields k
      ((pv.prev_state.data_box_per_lod k).difference_cells (pv.state.data_box_per_lod k))
      ((((pv.state.data_box_per_lod k).difference_cells
            (pv.prev_state.data_box_per_lod k)).foldl (data_load_step k)
          (st.lods k, dbtl)).1)
      ((((pv.state.data_box_per_lod k).difference_cells
            (pv.prev_state.data_box_per_lod k)).foldl (data_load_step k)
          (st.lods k, dbtl)).2)
    obtain ⟨ham, hap⟩ := data_load_fold_fields k
      ((pv.state.data_box_per_lod k).difference_cells (pv.prev_state.data_box_per_lod k))
      (st.lods k, dbtl)
    have hpend2 : (unview_missing_blocks k
        ((pv.prev_state.data_box_per_lod k).difference_cells (pv.state.data_box_per_lod k))
        ((((pv.state.data_box_per_lod k).difference_cells
              (pv.prev_state.data_box_per_lod k)).foldl (data_load_step k)
            (st.lods k, dbtl)).1)
        ((((pv.state.data_box_per_lod k).difference_cells
              (pv.prev_state.data_box_per_lod k)).foldl (data_load_step k)
            (st.lods k, dbtl)).2)).2.1.mesh_blocks_pending_update = [] := by
      rw [hvp, hap]
      exact hpend
    unfold process_data_lod
    dsimp only
    rw [if_pos hne]
    rw [if_pos (rfl : true = true)]
    rw [hok]
    rw [if_neg Bool.false_ne_true]
    dsimp only
    rw [cancel_data_box_pending_nil _ _ hpend2]
    refine ⟨rfl, _, rfl, hfin, ?_, hpend2⟩
    rw [hvm, ham]

/-- Effect of the mesh differ at one LOD under the single-viewer indicator
invariant: the processed LOD's mesh map becomes the indicator of the new mesh
box with empty pending queue, loading maps are untouched, and every other
LOD's refcounts are preserved (parent re-activation only flips activity). -/
theorem process_mesh_lod_effect (lc : Nat) (pv : PairedViewer) (k : Nat) (st : StreamState)
    (hinv : mesh_inv ((st.lods k).mesh_map) (pv.prev_state.mesh_box_per_lod k))
    (hpend : (st.lods k).mesh_blocks_pending_update = [])
    (hprevsz : 0 ≤ (pv.prev_state.mesh_box_per_lod k).size.x ∧
      0 ≤ (pv.prev_state.mesh_box_per_lod k).size.y ∧
      0 ≤ (pv.prev_state.mesh_box_per_lod k).size.z)
    (hnewsz : 0 ≤ (pv.state.mesh_box_per_lod k).size.x ∧
      0 ≤ (pv.state.mesh_box_per_lod k).size.y ∧
      0 ≤ (pv.state.mesh_box_per_lod k).size.z) :
    mesh_inv (((process_mesh_lod lc false true pv k st).lods k).mesh_map)
      (pv.state.mesh_box_per_lod k) ∧
    ((process_mesh_lod lc false true pv k st).lods k).mesh_blocks_pending_update = [] ∧
    ((process_mesh_lod lc false true pv k st).lods k).loading_blocks =
      (st.lods k).loading_blocks ∧
    ∀ j, j ≠ k →
      (∀ p, mesh_counts (((process_mesh_lod lc false true pv k st).lods j).mesh_map p) =
          mesh_counts ((st.lods j).mesh_map p)) ∧
      ((process_mesh_lod lc false true pv k st).lods j).loading_blocks =
        (st.lods j).loading_blocks ∧
      ((process_mesh_lod lc false true pv k st).lods j).mesh_blocks_pending_update =
        (st.lods j).mesh_blocks_pending_update := by
  by_cases hne : pv.prev_state.mesh_box_per_lod k = pv.state.mesh_box_per_lod k
  case pos =>
    unfold process_mesh_lod
    dsimp only
    rw [if_neg (not_not_intro hne)]
    rw [cancel_mesh_box_pending_nil _ _ hpend]
    refine ⟨?_, ?_, ?_, ?_⟩
    · rw [StreamState.setLod_self, ← hne]
      exact hinv
    · rw [StreamState.setLod_self]
      exact hpend
    · rw [StreamState.setLod_self]
    · intro j hj
      rw [StreamState.setLod_other _ _ _ hj]
      exact ⟨fun p => rfl, rfl, rfl⟩
  case neg =>
    have hmidc : ∀ p,
        mesh_counts ((((pv.state.mesh_box_per_lod k).difference_cells
              (pv.prev_state.mesh_box_per_lod k)).foldl (mesh_view_cell false)
            (st.lods k)).mesh_map p) =
          if (pv.prev_state.mesh_box_per_lod k).contains_point p = true ∨
              (pv.state.mesh_box_per_lod k).contains_point p = true then some (1, 1)
          else none := by
      intro p
      by_cases hp : p ∈ (pv.state.mesh_box_per_lod k).difference_cells
          (pv.prev_state.mesh_box_per_lod k)
      · obtain ⟨hpn, hpp⟩ := Box3i.mem_difference_cells.mp hp
        rw [mesh_view_fold_mem _ _ (Box3i.difference_cells_nodup _ _ hprevsz) hp
          (mesh_counts_none.mp (by rw [hinv p, if_neg hpp]))]
        rw [if_pos (Or.inr hpn)]
        rfl
      · rw [mesh_view_fold_untouched _ _ hp, hinv p]
        rw [Box3i.mem_difference_cells] at hp
        push_neg at hp
        by_cases hprev : (pv.prev_state.mesh_box_per_lod k).contains_point p = true
        · rw [if_pos hprev, if_pos (Or.inl hprev)]
        · rw [if_neg hprev]
          by_cases hnew : (pv.state.mesh_box_per_lod k).contains_point p = true
          · exact absurd (hp hnew) (by simp [hprev])
          · rw [if_neg (by rintro (h | h) <;> [exact hprev h; exact hnew h])]
    obtain ⟨u1, u2, u3⟩ := mesh_unload_boxes_fold
      ((pv.prev_state.mesh_box_per_lod k).difference (pv.state.mesh_box_per_lod k))
      (st.setLod k
        (((pv.state.mesh_box_per_lod k).difference_cells
            (pv.prev_state.mesh_box_per_lod k)).foldl (mesh_view_cell false) (st.lods k)))
      k lc (Box3i.difference_cells_nodup _ _ hnewsz)
    obtain ⟨vf1, vf2⟩ := mesh_view_fold_fields
      ((pv.state.mesh_box_per_lod k).difference_cells (pv.prev_state.mesh_box_per_lod k))
      (st.lods k)
    have hpend1 : ((((pv.prev_state.mesh_box_per_lod k).difference
            (pv.state.mesh_box_per_lod k)).foldl
          (fun st box => mesh_unload_box st k lc box)
          (st.setLod k
            (((pv.state.mesh_box_per_lod k).difference_cells
                (pv.prev_state.mesh_box_per_lod k)).foldl (mesh_view_cell false)
              (st.lods k)))).lods k).mesh_blocks_pending_update = [] := by
      rw [(u3 k).2, StreamState.setLod_self, vf2]
      exact hpend
    unfold process_mesh_lod
    dsimp only
    rw [if_pos hne]
    rw [if_pos (rfl : true = true)]
    rw [cancel_mesh_box_pending_nil _ _ hpend1]
    refine ⟨?_, ?_, ?_, ?_⟩
    · intro p
      rw [StreamState.setLod_self]
      by_cases hp : p ∈ (pv.prev_state.mesh_box_per_lod k).difference_cells
          (pv.state.mesh_box_per_lod k)
      · obtain ⟨hpp, hpn⟩ := Box3i.mem_difference_cells.mp hp
        have hp2 : p ∈ ((pv.prev_state.mesh_box_per_lod k).difference
            (pv.state.mesh_box_per_lod k)).flatMap Box3i.cells := hp
        rw [u1 p, if_pos hp2, StreamState.setLod_self, hmidc p, if_pos (Or.inl hpp),
          if_neg hpn]
        rfl
      · have hp2 : p ∉ ((pv.prev_state.mesh_box_per_lod k).difference
            (pv.state.mesh_box_per_lod k)).flatMap Box3i.cells := hp
        rw [u1 p, if_neg hp2, StreamState.setLod_self, hmidc p]
        rw [Box3i.mem_difference_cells] at hp
        push_neg at hp
        by_cases hnew : (pv.state.mesh_box_per_lod k).contains_point p = true
        · rw [if_pos hnew, if_pos (Or.inr hnew)]
        · rw [if_neg hnew]
          by_cases hprev : (pv.prev_state.mesh_box_per_lod k).contains_point p = true
        
          · exact absurd (hp hprev) (by simp [hnew])
          · rw [if_neg (by rintro (h | h) <;> [exact hprev h; exact hnew h])]
    · rw [StreamState.setLod_self]
      exact hpend1
    · rw [StreamState.setLod_self, (u3 k).1, StreamState.setLod_self, vf1]
    · intro j hj
      rw [StreamState.setLod_other _ _ _ hj]
      refine ⟨fun p => ?_, ?_, ?_⟩
      · rw [u2 j hj p, StreamState.setLod_other _ _ _ hj]
      · rw [(u3 j).1, StreamState.setLod_other _ _ _ hj]
      · rw [(u3 j).2, StreamState.setLod_other _ _ _ hj]

/-- The data differ's LOD loop for one viewer: under the per-LOD indicator
invariant, with every LOD's boxes touching the bounds (so the early break
never fires) and box sizes non-negative, the loop never aborts, rewrites
every processed LOD's loading map to the new indicator, and leaves mesh maps,
pending queues and deeper LODs untouched. -/
theorem process_data_lods_effect (cfg : PlanCfg) (pv : PairedViewer) (k : Nat)
    (st : StreamState) (dbtl : List BlockLocation)
    (hinv : ∀ l, l < k →
      load_inv ((st.lods l).loading_blocks) (pv.prev_state.data_box_per_lod l) ∧
      (st.lods l).mesh_blocks_pending_update = [])
    (hbreak : ∀ l, l < k →
      (pv.state.data_box_per_lod l).intersects (cfg.volume_bounds_in_data_blocks l) = true ∨
      (pv.prev_state.data_box_per_lod l).intersects
        (cfg.volume_bounds_in_data_blocks l) = true)
    (hszp : ∀ l, l < k → 0 ≤ (pv.prev_state.data_box_per_lod l).size.x ∧
      0 ≤ (pv.prev_state.data_box_per_lod l).size.y ∧
      0 ≤ (pv.prev_state.data_box_per_lod l).size.z)
    (hszn : ∀ l, l < k → 0 ≤ (pv.state.data_box_per_lod l).size.x ∧
      0 ≤ (pv.state.data_box_per_lod l).size.y ∧
      0 ≤ (pv.state.data_box_per_lod l).size.z) :
    (process_data_lods cfg true pv k (st, dbtl)).1 = false ∧
    (∀ l, l < k →
      load_inv (((process_data_lods cfg true pv k (st, dbtl)).2.1.lods l).loading_blocks)
        (pv.state.data_box_per_lod l) ∧
      ((process_data_lods cfg true pv k (st, dbtl)).2.1.lods l).mesh_blocks_pending_update =
        [] ∧
      ((process_data_lods cfg true pv k (st, dbtl)).2.1.lods l).mesh_map =
        (st.lods l).mesh_map) ∧
    (∀ l, k ≤ l →
      (process_data_lods cfg true pv k (st, dbtl)).2.1.lods l = st.lods l) := by
  induction k generalizing st dbtl with
  | zero =>
    exact ⟨rfl, fun l hl => absurd hl (Nat.not_lt_zero l), fun l hl => rfl⟩
  | succ k ih =>
    have hbk := hbreak k (Nat.lt_succ_self k)
    obtain ⟨hok, lod', heq, hinv', hmesh', hpend'⟩ :=
      process_data_lod_effect cfg pv k st dbtl (hinv k (Nat.lt_succ_self k)).1
        (hinv k (Nat.lt_succ_self k)).2 (hszp k (Nat.lt_succ_self k))
        (hszn k (Nat.lt_succ_self k))
    have hloop : process_data_lods cfg true pv (k + 1) (st, dbtl) =
        process_data_lods cfg true pv k
          ((process_data_lod cfg true pv k st dbtl).2.1,
            (process_data_lod cfg true pv k st dbtl).2.2) := by
      conv_lhs => unfold process_data_lods
      dsimp only
      rw [if_neg (by rcases hbk with h | h <;> simp [h])]
      rw [hok]
      rw [if_neg Bool.false_ne_true]
    rw [hloop, heq]
    obtain ⟨iok, iinv, iuntouched⟩ := ih (st.setLod k lod')
      (process_data_lod cfg true pv k st dbtl).2.2
      (fun l hl => by
        rw [StreamState.setLod_other _ _ _ (by omega : l ≠ k)]
        exact hinv l (Nat.lt_succ_of_lt hl))
      (fun l hl => hbreak l (Nat.lt_succ_of_lt hl))
      (fun l hl => hszp l (Nat.lt_succ_of_lt hl))
      (fun l hl => hszn l (Nat.lt_succ_of_lt hl))
    refine ⟨iok, ?_, ?_⟩
    · intro l hl
      by_cases hlk : l < k
      · obtain ⟨a1, a2, a3⟩ := iinv l hlk
        exact ⟨a1, a2, a3.trans (by
          rw [StreamState.setLod_other _ _ _ (by omega : l ≠ k)])⟩
      · have hlk' : l = k := by omega
        subst hlk'
        rw [iuntouched l (le_refl l), StreamState.setLod_self]
        exact ⟨hinv', hpend', hmesh'⟩
    · intro l hl
      rw [iuntouched l (by omega), StreamState.setLod_other _ _ _ (by omega : l ≠ k)]

/-- Upward chaining of per-step non-emptiness propagation. -/
theorem chain_nonempty (box : Nat → Box3i) (lc : Nat)
    (hmon : ∀ l, l + 1 < lc → (∃ p, (box l).contains_point p = true) →
      ∃ p, (box (l + 1)).contains_point p = true) :
    ∀ l m, l ≤ m → m < lc → (∃ p, (box l).contains_point p = true) →
      ∃ p, (box m).contains_point p = true := by
  intro l m
  induction m with
  | zero =>
    intro hlm _ h
    have : l = 0 := by omega
    subst this
    exact h
  | succ m ihm =>
    intro hlm hmlt h
    by_cases hl : l = m + 1
    · subst hl
      exact h
    · exact hmon m hmlt (ihm (by omega) (by omega) h)

/-- The mesh differ's LOD loop for one viewer: under the indicator invariant,
with boxes that are monotonically non-empty upward and contained in the
per-LOD bounds (so the early break only skips LODs whose boxes are all
empty), every processed LOD's mesh map becomes the new indicator with an
empty pending queue; loading maps are untouched and deeper LODs keep their
refcounts. -/
theorem process_mesh_lods_effect (cfg : PlanCfg) (pv : PairedViewer) (k : Nat)
    (st : StreamState) (hk : k ≤ cfg.lod_count)
    (hinv : ∀ l, l < k →
      mesh_inv ((st.lods l).mesh_map) (pv.prev_state.mesh_box_per_lod l) ∧
      (st.lods l).mesh_blocks_pending_update = [])
    (hszp : ∀ l, l < k → 0 ≤ (pv.prev_state.mesh_box_per_lod l).size.x ∧
      0 ≤ (pv.prev_state.mesh_box_per_lod l).size.y ∧
      0 ≤ (pv.prev_state.mesh_box_per_lod l).size.z)
    (hszn : ∀ l, l < k → 0 ≤ (pv.state.mesh_box_per_lod l).size.x ∧
      0 ≤ (pv.state.mesh_box_per_lod l).size.y ∧
      0 ≤ (pv.state.mesh_box_per_lod l).size.z)
    (hsubp : ∀ l, l < k → ∀ p, (pv.prev_state.mesh_box_per_lod l).contains_point p = true →
      (cfg.volume_bounds_in_mesh_blocks l).contains_point p = true)
    (hsubn : ∀ l, l < k → ∀ p, (pv.state.mesh_box_per_lod l).contains_point p = true →
      (cfg.volume_bounds_in_mesh_blocks l).contains_point p = true)
    (hmonp : ∀ l, l + 1 < cfg.lod_count →
      (∃ p, (pv.prev_state.mesh_box_per_lod l).contains_point p = true) →
      ∃ p, (pv.prev_state.mesh_box_per_lod (l + 1)).contains_point p = true)
    (hmonn : ∀ l, l + 1 < cfg.lod_count →
      (∃ p, (pv.state.mesh_box_per_lod l).contains_point p = true) →
      ∃ p, (pv.state.mesh_box_per_lod (l + 1)).contains_point p = true) :
    (∀ l, l < k →
      mesh_inv (((process_mesh_lods cfg cfg.lod_count false true pv k st).lods l).mesh_map)
        (pv.state.mesh_box_per_lod l) ∧
      ((process_mesh_lods cfg cfg.lod_count false true pv k st).lods
          l).mesh_blocks_pending_update = [] ∧
      ((process_mesh_lods cfg cfg.lod_count false true pv k st).lods l).loading_blocks =
        (st.lods l).loading_blocks) ∧
    (∀ l, k ≤ l →
      (∀ p, mesh_counts
          (((process_mesh_lods cfg cfg.lod_count false true pv k st).lods l).mesh_map p) =
        mesh_counts ((st.lods l).mesh_map p)) ∧
      ((process_mesh_lods cfg cfg.lod_count false true pv k st).lods l).loading_blocks =
        (st.lods l).loading_blocks ∧
      ((process_mesh_lods cfg cfg.lod_count false true pv k st).lods
          l).mesh_blocks_pending_update = (st.lods l).mesh_blocks_pending_update) := by
  induction k generalizing st with
  | zero =>
    exact ⟨fun l hl => absurd hl (Nat.not_lt_zero l),
      fun l hl => ⟨fun p => rfl, rfl, rfl⟩⟩
  | succ k ih =>
    by_cases hbr :
        ¬ (pv.state.mesh_box_per_lod k).intersects (cfg.volume_bounds_in_mesh_blocks k) =
          true ∧
        ¬ (pv.prev_state.mesh_box_per_lod k).intersects
          (cfg.volume_bounds_in_mesh_blocks k) = true
    case pos =>
      -- the early break fires: every LOD at or below k has empty boxes
      have hnew_empty : ∀ l, l ≤ k →
          ∀ p, ¬ (pv.state.mesh_box_per_lod l).contains_point p = true := by
        intro l hl p hp
        obtain ⟨q, hq⟩ := chain_nonempty (fun l => pv.state.mesh_box_per_lod l)
          cfg.lod_count hmonn l k hl (by omega) ⟨p, hp⟩
        exact hbr.1 (Box3i.intersects_of_point hq (hsubn k (Nat.lt_succ_self k) q hq))
      have hprev_empty : ∀ l, l ≤ k →
          ∀ p, ¬ (pv.prev_state.mesh_box_per_lod l).contains_point p = true := by
        intro l hl p hp
        obtain ⟨q, hq⟩ := chain_nonempty (fun l => pv.prev_state.mesh_box_per_lod l)
          cfg.lod_count hmonp l k hl (by omega) ⟨p, hp⟩
        exact hbr.2 (Box3i.intersects_of_point hq (hsubp k (Nat.lt_succ_self k) q hq))
      have hstop : process_mesh_lods cfg cfg.lod_count false true pv (k + 1) st = st := by
        conv_lhs => unfold process_mesh_lods
        dsimp only
        rw [if_pos hbr]
      rw [hstop]
      refine ⟨?_, fun l hl => ⟨fun p => rfl, rfl, rfl⟩⟩
      intro l hl
      refine ⟨?_, (hinv l hl).2, rfl⟩
      intro p
      rw [(hinv l hl).1 p]
      rw [if_neg (hprev_empty l (by omega) p), if_neg (hnew_empty l (by omega) p)]
    case neg =>
      obtain ⟨m1, m2, m3, m4⟩ := process_mesh_lod_effect cfg.lod_count pv k st
        (hinv k (Nat.lt_succ_self k)).1 (hinv k (Nat.lt_succ_self k)).2
        (hszp k (Nat.lt_succ_self k)) (hszn k (Nat.lt_succ_self k))
      have hloop : process_mesh_lods cfg cfg.lod_count false true pv (k + 1) st =
          process_mesh_lods cfg cfg.lod_count false true pv k
            (process_mesh_lod cfg.lod_count false true pv k st) := by
        conv_lhs => unfold process_mesh_lods
        dsimp only
        rw [if_neg hbr]
      rw [hloop]
      obtain ⟨iinv, iuntouched⟩ := ih (process_mesh_lod cfg.lod_count false true pv k st)
        (by omega)
        (fun l hl => by
          obtain ⟨c1, c2, c3⟩ := m4 l (by omega)
          refine ⟨?_, c3.trans (hinv l (by omega)).2⟩
          intro p
          rw [c1 p]
          exact (hinv l (by omega)).1 p)
        (fun l hl => hszp l (by omega))
        (fun l hl => hszn l (by omega))
        (fun l hl => hsubp l (by omega))
        (fun l hl => hsubn l (by omega))
      refine ⟨?_, ?_⟩
      · intro l hl
        by_cases hlk : l < k
        · obtain ⟨a1, a2, a3⟩ := iinv l hlk
          exact ⟨a1, a2, a3.trans (m4 l (by omega)).2.1⟩
        · have hlk' : l = k := by omega
          subst hlk'
          obtain ⟨b1, b2, b3⟩ := iuntouched l (le_refl l)
          refine ⟨?_, b3.trans m2, b2.trans m3⟩
          intro p
          rw [b1 p]
          exact m1 p
      · intro l hl
        obtain ⟨b1, b2, b3⟩ := iuntouched l (by omega)
        obtain ⟨c1, c2, c3⟩ := m4 l (by omega)
        exact ⟨fun p => (b1 p).trans (c1 p), b2.trans c2, b3.trans c3⟩

theorem process_data_lod_paired (cfg : PlanCfg) (can_load : Bool) (pv : PairedViewer)
    (k : Nat) (st : StreamState) (dbtl : List BlockLocation) :
    (process_data_lod cfg can_load pv k st dbtl).2.1.paired_viewers =
      st.paired_viewers := by
  unfold process_data_lod
  dsimp only
  repeat' split
  all_goals rfl

theorem process_data_lods_paired (cfg : PlanCfg) (can_load : Bool) (pv : PairedViewer)
    (k : Nat) (acc : StreamState × List BlockLocation) :
    (process_data_lods cfg can_load pv k acc).2.1.paired_viewers =
      acc.1.paired_viewers := by
  induction k generalizing acc with
  | zero => rfl
  | succ k ih =>
    conv_lhs => unfold process_data_lods
    dsimp only
    split
    · rfl
    · split
      · exact process_data_lod_paired cfg can_load pv k acc.1 acc.2
      · rw [ih]
        exact process_data_lod_paired cfg can_load pv k acc.1 acc.2

theorem mesh_unload_box_paired (st : StreamState) (k lc : Nat) (b : Box3i) :
    (mesh_unload_box st k lc b).paired_viewers = st.paired_viewers := by
  unfold mesh_unload_box
  dsimp only
  split <;> rfl

theorem process_mesh_lod_paired (lc : Nat) (iflm can_load : Bool) (pv : PairedViewer)
    (k : Nat) (st : StreamState) :
    (process_mesh_lod lc iflm can_load pv k st).paired_viewers = st.paired_viewers := by
  have hfold : ∀ (boxes : List Box3i) (s : StreamState),
      (boxes.foldl (fun s b => mesh_unload_box s k lc b) s).paired_viewers =
        s.paired_viewers := by
    intro boxes
    induction boxes with
    | nil => intro s; rfl
    | cons b rest ihb =>
      intro s
      rw [List.foldl_cons, ihb]
      exact mesh_unload_box_paired s k lc b
  unfold process_mesh_lod
  dsimp only
  split
  · exact (hfold _ _).trans (by split <;> rfl)
  · rfl

theorem process_mesh_lods_paired (cfg : PlanCfg) (lc : Nat) (iflm can_load : Bool)
    (pv : PairedViewer) (k : Nat) (st : StreamState) :
    (process_mesh_lods cfg lc iflm can_load pv k st).paired_viewers =
      st.paired_viewers := by
  induction k generalizing st with
  | zero => rfl
  | succ k ih =>
    conv_lhs => unfold process_mesh_lods
    dsimp only
    split
    · rfl
    · rw [ih]
      exact process_mesh_lod_paired lc iflm can_load pv k st

theorem process_data_blocks_single_eq (cfg : PlanCfg) (st : StreamState)
    (pv : PairedViewer) (hpv : st.paired_viewers = [pv]) :
    process_data_blocks_sliding_box cfg true st =
      ((process_data_lods cfg true pv cfg.lod_count (st, [])).2.1,
        (process_data_lods cfg true pv cfg.lod_count (st, [])).2.2) := by
  unfold process_data_blocks_sliding_box
  rw [hpv]
  dsimp only [List.foldl_cons, List.foldl_nil]
  rw [if_neg Bool.false_ne_true]

theorem process_mesh_blocks_single_eq (cfg : PlanCfg) (st : StreamState)
    (pv : PairedViewer) (hpv : st.paired_viewers = [pv]) :
    process_mesh_blocks_sliding_box cfg false true st =
      process_mesh_lods cfg cfg.lod_count false true pv cfg.lod_count st := by
  unfold process_mesh_blocks_sliding_box
  rw [hpv]
  rfl

/-- One full streaming tick for a single paired viewer: both sliding-box
passes rewrite every LOD's maps from the previous boxes' indicators to the
new boxes' indicators, touch nothing beyond the LOD count, and the paired
list becomes the post-diff removal of the recorded unpaired indexes. -/
theorem tick_effect (cfg : PlanCfg) (viewers : List Viewer) (st : StreamState)
    (pv : PairedViewer)
    (hpv : (process_viewers cfg true st.paired_viewers viewers).1 = [pv])
    (hdinv : ∀ l, l < cfg.lod_count →
      load_inv ((st.lods l).loading_blocks) (pv.prev_state.data_box_per_lod l))
    (hminv : ∀ l, l < cfg.lod_count →
      mesh_inv ((st.lods l).mesh_map) (pv.prev_state.mesh_box_per_lod l))
    (hpend : ∀ l, l < cfg.lod_count → (st.lods l).mesh_blocks_pending_update = [])
    (hdbreak : ∀ l, l < cfg.lod_count →
      (pv.state.data_box_per_lod l).intersects (cfg.volume_bounds_in_data_blocks l) = true ∨
      (pv.prev_state.data_box_per_lod l).intersects
        (cfg.volume_bounds_in_data_blocks l) = true)
    (hdszp : ∀ l, l < cfg.lod_count → 0 ≤ (pv.prev_state.data_box_per_lod l).size.x ∧
      0 ≤ (pv.prev_state.data_box_per_lod l).size.y ∧
      0 ≤ (pv.prev_state.data_box_per_lod l).size.z)
    (hdszn : ∀ l, l < cfg.lod_count → 0 ≤ (pv.state.data_box_per_lod l).size.x ∧
      0 ≤ (pv.state.data_box_per_lod l).size.y ∧
      0 ≤ (pv.state.data_box_per_lod l).size.z)
    (hmszp : ∀ l, l < cfg.lod_count → 0 ≤ (pv.prev_state.mesh_box_per_lod l).size.x ∧
      0 ≤ (pv.prev_state.mesh_box_per_lod l).size.y ∧
      0 ≤ (pv.prev_state.mesh_box_per_lod l).size.z)
    (hmszn : ∀ l, l < cfg.lod_count → 0 ≤ (pv.state.mesh_box_per_lod l).size.x ∧
      0 ≤ (pv.state.mesh_box_per_lod l).size.y ∧
      0 ≤ (pv.state.mesh_box_per_lod l).size.z)
    (hmsubp : ∀ l, l < cfg.lod_count → ∀ p,
      (pv.prev_state.mesh_box_per_lod l).contains_point p = true →
      (cfg.volume_bounds_in_mesh_blocks l).contains_point p = true)
    (hmsubn : ∀ l, l < cfg.lod_count → ∀ p,
      (pv.state.mesh_box_per_lod l).contains_point p = true →
      (cfg.volume_bounds_in_mesh_blocks l).contains_point p = true)
    (hmmonp : ∀ l, l + 1 < cfg.lod_count →
      (∃ p, (pv.prev_state.mesh_box_per_lod l).contains_point p = true) →
      ∃ p, (pv.prev_state.mesh_box_per_lod (l + 1)).contains_point p = true)
    (hmmonn : ∀ l, l + 1 < cfg.lod_count →
      (∃ p, (pv.state.mesh_box_per_lod l).contains_point p = true) →
      ∃ p, (pv.state.mesh_box_per_lod (l + 1)).contains_point p = true) :
    (∀ l, l < cfg.lod_count →
      load_inv (((process_clipbox_streaming cfg viewers true true st).1.lods
          l).loading_blocks) (pv.state.data_box_per_lod l) ∧
      mesh_inv (((process_clipbox_streaming cfg viewers true true st).1.lods l).mesh_map)
        (pv.state.mesh_box_per_lod l) ∧
      ((process_clipbox_streaming cfg viewers true true st).1.lods
          l).mesh_blocks_pending_update = []) ∧
    (∀ l, cfg.lod_count ≤ l →
      ((process_clipbox_streaming cfg viewers true true st).1.lods l).loading_blocks =
        (st.lods l).loading_blocks ∧
      (∀ p, mesh_counts
          (((process_clipbox_streaming cfg viewers true true st).1.lods l).mesh_map p) =
        mesh_counts ((st.lods l).mesh_map p)) ∧
      ((process_clipbox_streaming cfg viewers true true st).1.lods
          l).mesh_blocks_pending_update = (st.lods l).mesh_blocks_pending_update) ∧
    (process_clipbox_streaming cfg viewers true true st).1.paired_viewers =
      remove_unpaired_viewers (process_viewers cfg true st.paired_viewers viewers).2
        [pv] := by
  have hpv1 : ({ st with
      paired_viewers := (process_viewers cfg true st.paired_viewers viewers).1 } :
        StreamState).paired_viewers = [pv] := hpv
  obtain ⟨dok, d2, d3⟩ := process_data_lods_effect cfg pv cfg.lod_count
    { st with paired_viewers := (process_viewers cfg true st.paired_viewers viewers).1 }
    [] (fun l hl => ⟨hdinv l hl, hpend l hl⟩) hdbreak hdszp hdszn
  have hdpaired : (process_data_lods cfg true pv cfg.lod_count
      ({ st with
        paired_viewers := (process_viewers cfg true st.paired_viewers viewers).1 },
        [])).2.1.paired_viewers = [pv] := by
    rw [process_data_lods_paired]
    exact hpv
  obtain ⟨mm1, mm2⟩ := process_mesh_lods_effect cfg pv cfg.lod_count
    (process_data_lods cfg true pv cfg.lod_count
      ({ st with
        paired_viewers := (process_viewers cfg true st.paired_viewers viewers).1 },
        [])).2.1
    (le_refl _)
    (fun l hl => by
      obtain ⟨a1, a2, a3⟩ := d2 l hl
      refine ⟨?_, a2⟩
      intro p
      rw [a3]
      exact hminv l hl p)
    hmszp hmszn hmsubp hmsubn hmmonp hmmonn
  unfold process_clipbox_streaming
  dsimp only
  rw [process_data_blocks_single_eq cfg _ pv hpv1]
  dsimp only
  rw [process_mesh_blocks_single_eq cfg _ pv hdpaired]
  refine ⟨?_, ?_, ?_⟩
  · intro l hl
    obtain ⟨a1, a2, a3⟩ := d2 l hl
    obtain ⟨b1, b2, b3⟩ := mm1 l hl
    refine ⟨?_, b1, b2⟩
    intro p
    rw [b3]
    exact a1 p
  · intro l hl
    obtain ⟨b1, b2, b3⟩ := mm2 l hl
    refine ⟨?_, ?_, ?_⟩
    · rw [b2, d3 l hl]
    · intro p
      rw [b1 p, d3 l hl]
    · rw [b3, d3 l hl]
  · rw [process_mesh_lods_paired, hdpaired]

/-- With visuals required and meshing allowed, the planner takes the
mesh-derived path for both box families. -/
theorem plan_viewer_state_meshes_boxes (cfg : PlanCfg) (v : Viewer)
    (hvis : v.require_visuals = true) :
    (plan_viewer_state cfg true v).data_box_per_lod =
      (fun l => data_box_per_lod cfg v.world_position
        (cfg.clamped_view_distance v.view_distance) l) ∧
    (plan_viewer_state cfg true v).mesh_box_per_lod =
      (fun l => mesh_box_per_lod cfg v.world_position
        (cfg.clamped_view_distance v.view_distance) l) := by
  simp [plan_viewer_state, hvis]

/-- The planned data box is a clip, hence of non-negative size. -/
theorem data_box_size_nonneg (cfg : PlanCfg) (ppos : V3) (vd : Int) (l : Nat) :
    0 ≤ (data_box_per_lod cfg ppos vd l).size.x ∧
    0 ≤ (data_box_per_lod cfg ppos vd l).size.y ∧
    0 ≤ (data_box_per_lod cfg ppos vd l).size.z :=
  Box3i.clipped_size_nonneg _ _

/-- The default box has zero, hence non-negative, size. -/
theorem default_box_size_nonneg :
    0 ≤ Box3i.default.size.x ∧ 0 ≤ Box3i.default.size.y ∧ 0 ≤ Box3i.default.size.z := by
  refine ⟨le_refl 0, le_refl 0, le_refl 0⟩

theorem process_viewers_empty_add (cfg : PlanCfg) (v : Viewer) :
    process_viewers cfg true [] [v] =
      ([⟨v.id, plan_viewer_state cfg true v, ViewerBoxState.initial⟩], []) := rfl

theorem process_viewers_single_update (cfg : PlanCfg) (pv : PairedViewer) (v : Viewer)
    (hid : v.id = pv.id) :
    process_viewers cfg true [pv] [v] =
      ([{ pv with prev_state := pv.state, state := plan_viewer_state cfg true v }], []) := by
  unfold process_viewers process_destroyed_viewers pair_viewers_step pair_update
    viewers_contains update_paired_viewer
  simp [hid]

theorem process_viewers_single_remove (cfg : PlanCfg) (pv : PairedViewer) :
    process_viewers cfg true [pv] [] = ([zero_viewer_boxes pv], [0]) := rfl

theorem remove_unpaired_single (pv : PairedViewer) :
    remove_unpaired_viewers [0] [pv] = [] := rfl

theorem zero_viewer_boxes_fields (pv : PairedViewer) :
    (zero_viewer_boxes pv).prev_state.data_box_per_lod = pv.state.data_box_per_lod ∧
    (zero_viewer_boxes pv).prev_state.mesh_box_per_lod = pv.state.mesh_box_per_lod ∧
    (zero_viewer_boxes pv).state.data_box_per_lod = (fun _ => Box3i.default) ∧
    (zero_viewer_boxes pv).state.mesh_box_per_lod = (fun _ => Box3i.default) :=
  ⟨rfl, rfl, rfl, rfl⟩

/-- The streaming state before any viewer is added: empty maps and queues at
every LOD and no paired viewer. -/
def StreamState.initial : StreamState := ⟨fun _ => Lod.empty, []⟩

theorem load_inv_empty_default : load_inv (fun _ => none) Box3i.default := by
  intro p
  rw [Box3i.default_not_contains p, if_neg Bool.false_ne_true]

theorem mesh_inv_empty_default : mesh_inv (fun _ => none) Box3i.default := by
  intro p
  rw [Box3i.default_not_contains p, if_neg Bool.false_ne_true]
  rfl

theorem load_inv_default {lb : V3 → Option Nat} (h : load_inv lb Box3i.default) (p : V3) :
    lb p = none := by
  have hp := h p
  rw [Box3i.default_not_contains p, if_neg Bool.false_ne_true] at hp
  exact hp

theorem mesh_inv_default {m : V3 → Option MeshBlockState} (h : mesh_inv m Box3i.default)
    (p : V3) : m p = none := by
  have hp := h p
  rw [Box3i.default_not_contains p, if_neg Bool.false_ne_true] at hp
  exact mesh_counts_none.mp hp

/-- C6.  Round-trip: starting from the initial streaming state (no paired
viewers, empty mesh and loading maps), adding a viewer and ticking, moving it
to any position and ticking, then removing it and ticking leaves no residual
entry in any per-LOD mesh map or loading map and no paired viewer — under a
valid configuration (positive LOD count, data chunks no larger than mesh
chunks, non-empty volume bounds aligned to the largest LOD's chunk size), for
a viewer requiring visuals, with loading and meshing allowed. -/
theorem claim_C6_round_trip (cfg : PlanCfg) (v0 v1 : Viewer)
    (hlc : 0 < cfg.lod_count)
    (hdm : cfg.data_block_size_po2 ≤ cfg.mesh_block_size_po2)
    (halign : cfg.aligned_bounds)
    (hbpos : 0 < cfg.volume_bounds_in_voxels.size.x ∧
      0 < cfg.volume_bounds_in_voxels.size.y ∧ 0 < cfg.volume_bounds_in_voxels.size.z)
    (hid : v1.id = v0.id)
    (hvis0 : v0.require_visuals = true) (hvis1 : v1.require_visuals = true) :
    (∀ l p,
      ((process_clipbox_streaming cfg [] true true
            (process_clipbox_streaming cfg [v1] true true
              (process_clipbox_streaming cfg [v0] true true
                StreamState.initial).1).1).1.lods l).mesh_map p = none ∧
      ((process_clipbox_streaming cfg [] true true
            (process_clipbox_streaming cfg [v1] true true
              (process_clipbox_streaming cfg [v0] true true
                StreamState.initial).1).1).1.lods l).loading_blocks p = none) ∧
    (process_clipbox_streaming cfg [] true true
        (process_clipbox_streaming cfg [v1] true true
          (process_clipbox_streaming cfg [v0] true true
            StreamState.initial).1).1).1.paired_viewers = [] := by
  have hplan : ∀ w : Viewer, w.require_visuals = true →
      (∀ l, l < cfg.lod_count →
        ((plan_viewer_state cfg true w).data_box_per_lod l).intersects
          (cfg.volume_bounds_in_data_blocks l) = true) ∧
      (∀ l, 0 ≤ ((plan_viewer_state cfg true w).data_box_per_lod l).size.x ∧
        0 ≤ ((plan_viewer_state cfg true w).data_box_per_lod l).size.y ∧
        0 ≤ ((plan_viewer_state cfg true w).data_box_per_lod l).size.z) ∧
      (∀ l, 0 ≤ ((plan_viewer_state cfg true w).mesh_box_per_lod l).size.x ∧
        0 ≤ ((plan_viewer_state cfg true w).mesh_box_per_lod l).size.y ∧
        0 ≤ ((plan_viewer_state cfg true w).mesh_box_per_lod l).size.z) ∧
      (∀ l, l < cfg.lod_count → ∀ p,
        ((plan_viewer_state cfg true w).mesh_box_per_lod l).contains_point p = true →
        (cfg.volume_bounds_in_mesh_blocks l).contains_point p = true) ∧
      (∀ l, l + 1 < cfg.lod_count →
        (∃ p, ((plan_viewer_state cfg true w).mesh_box_per_lod l).contains_point p = true) →
        ∃ p, ((plan_viewer_state cfg true w).mesh_box_per_lod (l + 1)).contains_point p =
          true) := by
    intro w hw
    obtain ⟨pd, pm⟩ := plan_viewer_state_meshes_boxes cfg w hw
    refine ⟨?_, ?_, ?_, ?_, ?_⟩
    · intro l hl
      rw [congrFun pd l]
      exact data_box_per_lod_intersects cfg w.world_position
        (cfg.clamped_view_distance w.view_distance) l hl hdm halign hbpos
    · intro l
      rw [congrFun pd l]
      exact data_box_size_nonneg cfg _ _ l
    · intro l
      rw [congrFun pm l]
      exact mesh_box_size_nonneg cfg _ _ l
    · intro l hl p hp
      rw [congrFun pm l] at hp
      exact mesh_box_subset_bounds cfg _ _ l hp
    · intro l hl hne
      rw [congrFun pm l] at hne
      rw [congrFun pm (l + 1)]
      exact mesh_box_nonempty_up cfg _ _ l hl halign hne
  have hdef_not : ∀ p : V3, ¬ Box3i.default.contains_point p = true := by
    intro p hp
    rw [Box3i.default_not_contains p] at hp
    exact Bool.false_ne_true hp
  -- tick 1: add the viewer
  obtain ⟨t1a, t1b, t1c⟩ := tick_effect cfg [v0] StreamState.initial
    ⟨v0.id, plan_viewer_state cfg true v0, ViewerBoxState.initial⟩
    (by rw [show StreamState.initial.paired_viewers = [] from rfl,
      process_viewers_empty_add])
    (fun l hl => load_inv_empty_default)
    (fun l hl => mesh_inv_empty_default)
    (fun l hl => rfl)
    (fun l hl => Or.inl ((hplan v0 hvis0).1 l hl))
    (fun l hl => default_box_size_nonneg)
    (fun l hl => (hplan v0 hvis0).2.1 l)
    (fun l hl => default_box_size_nonneg)
    (fun l hl => (hplan v0 hvis0).2.2.1 l)
    (fun l hl p hp => absurd hp (hdef_not p))
    (fun l hl => (hplan v0 hvis0).2.2.2.1 l hl)
    (fun l hl hne => absurd hne (by rintro ⟨p, hp⟩; exact hdef_not p hp))
    (fun l hl => (hplan v0 hvis0).2.2.2.2 l hl)
  have ht1paired : (process_clipbox_streaming cfg [v0] true true
      StreamState.initial).1.paired_viewers =
      [⟨v0.id, plan_viewer_state cfg true v0, ViewerBoxState.initial⟩] := by
    rw [t1c]
    rfl
  -- tick 2: move the viewer
  obtain ⟨t2a, t2b, t2c⟩ := tick_effect cfg [v1]
    (process_clipbox_streaming cfg [v0] true true StreamState.initial).1
    ⟨v0.id, plan_viewer_state cfg true v1, plan_viewer_state cfg true v0⟩
    (by
      rw [ht1paired, process_viewers_single_update cfg _ v1 hid])
    (fun l hl => (t1a l hl).1)
    (fun l hl => (t1a l hl).2.1)
    (fun l hl => (t1a l hl).2.2)
    (fun l hl => Or.inl ((hplan v1 hvis1).1 l hl))
    (fun l hl => (hplan v0 hvis0).2.1 l)
    (fun l hl => (hplan v1 hvis1).2.1 l)
    (fun l hl => (hplan v0 hvis0).2.2.1 l)
    (fun l hl => (hplan v1 hvis1).2.2.1 l)
    (fun l hl => (hplan v0 hvis0).2.2.2.1 l hl)
    (fun l hl => (hplan v1 hvis1).2.2.2.1 l hl)
    (fun l hl => (hplan v0 hvis0).2.2.2.2 l hl)
    (fun l hl => (hplan v1 hvis1).2.2.2.2 l hl)
  have ht2paired : (process_clipbox_streaming cfg [v1] true true
      (process_clipbox_streaming cfg [v0] true true
        StreamState.initial).1).1.paired_viewers =
      [⟨v0.id, plan_viewer_state cfg true v1, plan_viewer_state cfg true v0⟩] := by
    rw [t2c, ht1paired, process_viewers_single_update cfg _ v1 hid]
    rfl
  -- tick 3: remove the viewer
  obtain ⟨t3a, t3b, t3c⟩ := tick_effect cfg []
    (process_clipbox_streaming cfg [v1] true true
      (process_clipbox_streaming cfg [v0] true true StreamState.initial).1).1
    (zero_viewer_boxes
      ⟨v0.id, plan_viewer_state cfg true v1, plan_viewer_state cfg true v0⟩)
    (by
      rw [ht2paired, process_viewers_single_remove])
    (fun l hl => (t2a l hl).1)
    (fun l hl => (t2a l hl).2.1)
    (fun l hl => (t2a l hl).2.2)
    (fun l hl => Or.inr ((hplan v1 hvis1).1 l hl))
    (fun l hl => (hplan v1 hvis1).2.1 l)
    (fun l hl => default_box_size_nonneg)
    (fun l hl => (hplan v1 hvis1).2.2.1 l)
    (fun l hl => default_box_size_nonneg)
    (fun l hl => (hplan v1 hvis1).2.2.2.1 l hl)
    (fun l hl p hp => absurd hp (hdef_not p))
    (fun l hl => (hplan v1 hvis1).2.2.2.2 l hl)
    (fun l hl hne => absurd hne (by rintro ⟨p, hp⟩; exact hdef_not p hp))
  refine ⟨?_, ?_⟩
  · intro l p
    by_cases hl : l < cfg.lod_count
    · obtain ⟨a1, a2, a3⟩ := t3a l hl
      exact ⟨mesh_inv_default a2 p, load_inv_default a1 p⟩
    · obtain ⟨b1, b2, b3⟩ := t3b l (by omega)
      obtain ⟨c1, c2, c3⟩ := t2b l (by omega)
      obtain ⟨d1, d2, d3⟩ := t1b l (by omega)
      constructor
      · apply mesh_counts_none.mp
        rw [b2 p, c2 p, d2 p]
        rfl
      · rw [b1, c1, d1]
        rfl
  · rw [t3c, ht2paired, process_viewers_single_remove]
    exact remove_unpaired_single _

/-- Concrete configuration for the round-trip witness: 16³-voxel chunks, two
LODs, 64³-voxel bounds aligned to the largest LOD's chunk size. -/
def cfgC6 : PlanCfg := ⟨4, 4, 2, 32, 512, ⟨⟨0, 0, 0⟩, ⟨64, 64, 64⟩⟩⟩

/-- The viewer as added, at the origin. -/
def v0C6 : Viewer := ⟨7, ⟨0, 0, 0⟩, 100, true, true⟩

/-- The same viewer after moving to `(40, 0, 0)`. -/
def v1C6 : Viewer := ⟨7, ⟨40, 0, 0⟩, 100, true, false⟩

/-- Witness for C6 at a concrete configuration and viewer pair. -/
theorem claim_C6_round_trip_witness :
    ((0 : Nat) < cfgC6.lod_count ∧
      cfgC6.data_block_size_po2 ≤ cfgC6.mesh_block_size_po2 ∧
      cfgC6.aligned_bounds ∧
      (0 < cfgC6.volume_bounds_in_voxels.size.x ∧
        0 < cfgC6.volume_bounds_in_voxels.size.y ∧
        0 < cfgC6.volume_bounds_in_voxels.size.z) ∧
      v1C6.id = v0C6.id ∧ v0C6.require_visuals = true ∧ v1C6.require_visuals = true) ∧
    ((process_clipbox_streaming cfgC6 [] true true
        (process_clipbox_streaming cfgC6 [v1C6] true true
          (process_clipbox_streaming cfgC6 [v0C6] true true
            StreamState.initial).1).1).1.lods 0).mesh_map ⟨0, 0, 0⟩ = none ∧
    ((process_clipbox_streaming cfgC6 [] true true
        (process_clipbox_streaming cfgC6 [v1C6] true true
          (process_clipbox_streaming cfgC6 [v0C6] true true
            StreamState.initial).1).1).1.lods 0).loading_blocks ⟨0, 0, 0⟩ = none ∧
    (process_clipbox_streaming cfgC6 [] true true
        (process_clipbox_streaming cfgC6 [v1C6] true true
          (process_clipbox_streaming cfgC6 [v0C6] true true
            StreamState.initial).1).1).1.paired_viewers = [] :=
  ⟨⟨by decide, by decide, by decide, by decide, rfl, rfl, rfl⟩,
    ((claim_C6_round_trip cfgC6 v0C6 v1C6 (by decide) (by decide) (by decide) (by decide)
        rfl rfl rfl).1 0 ⟨0, 0, 0⟩).1,
    ((claim_C6_round_trip cfgC6 v0C6 v1C6 (by decide) (by decide) (by decide) (by decide)
        rfl rfl rfl).1 0 ⟨0, 0, 0⟩).2,
    (claim_C6_round_trip cfgC6 v0C6 v1C6 (by decide) (by decide) (by decide) (by decide)
        rfl rfl rfl).2⟩
